import Mathlib

/-!
# Tower defence simulation: embedding of `main.cpp`

The C++ `float` values are embedded in an arbitrary linearly ordered field `F`
with a floor function (exact arithmetic; `ℚ` for evaluation, `ℝ` for the ideal
reading).  The library routine `sqrtf` is not part of the repository and is
taken as a parameter `sqrtf : F → F` wherever the source calls it.

Pointers to enemies (`Enemy*`) are embedded as addresses: each enemy carries the
address `id` of its heap object, and an enemy bullet stores the address of its owner.
The address `new Enemy` returns is chosen by the allocator, not by the program, and is
read from the frame input like the frame time and the random value; the allocator may
return the address of an enemy that has been deleted.
-/

namespace TowerDefence

/-! ## Global constants -/

def rows : Nat := 16
def cols : Nat := 22
def tileSize : Nat := 32

/-! ## Data model -/

inductive DefenderType where
  | KNIGHT
  | WIZARD
  | ARCHER
deriving DecidableEq, Repr

inductive EnemyType where
  | GOBLIN
  | ORC
deriving DecidableEq, Repr

structure Vector2 (F : Type) where
  x : F
  y : F
deriving DecidableEq, Repr

structure Rectangle (F : Type) where
  x : F
  y : F
  width : F
  height : F
deriving DecidableEq, Repr

structure Defender (F : Type) where
  type : DefenderType
  row : F
  col : F
  range : F
  attackCooldown : F
  attackTimer : F
  cost : F
  maxHealth : F
  currentHealth : F
deriving DecidableEq, Repr

/-- The enemy record; `id` is the address of the heap object (what an `Enemy*` holds),
`texture` is rendering data and is left out. -/
structure Enemy (F : Type) where
  id : Nat
  row : F
  col : F
  currentWaypoint : Nat
  speed : F
  isAlive : Bool
  hasActiveBullet : Bool
  type : EnemyType
  health : F
deriving DecidableEq, Repr

structure Bullet (F : Type) where
  position : Vector2 F
  velocity : Vector2 F
  active : Bool
deriving DecidableEq, Repr

/-- An enemy projectile; `owner` is the pointer `Enemy* owner`: the address of the
firing enemy, `none` for the null pointer.  The address is kept when that enemy is
deleted. -/
structure EnemyBullet (F : Type) where
  position : Vector2 F
  velocity : Vector2 F
  active : Bool
  owner : Option Nat
deriving DecidableEq, Repr

/-- The members of `TowerDefenseGame` that the simulation reads or writes. -/
structure Game (F : Type) where
  gold : F
  defenders : List (Defender F)
  enemies : List (Enemy F)
  bullets : List (Bullet F)
  enemyBullets : List (EnemyBullet F)
  map : List (List Int)
  gameOver : Bool
  enemiesReached : Int
  totalEnemiesToSpawn : Int
  spawnedEnemiesCount : Int
  spawnTimer : F
  spawnDelay : F
  screenWidth : Int
  screenHeight : Int
  selectedDefenderType : DefenderType
  enemyPathRC : List (Vector2 F)

section Model

variable {F : Type} [LinearOrderedField F]

/-! ## Constructors -/

/-- `Defender::Defender(float c)`. -/
def Defender.new (c : F) : Defender F :=
  { type := DefenderType.KNIGHT, row := 0, col := 0, range := 3,
    attackCooldown := 1, attackTimer := 1, cost := c,
    maxHealth := 100, currentHealth := 100 }

/-- `Enemy::Enemy(EnemyType t)`, for the object allocated at address `id`. -/
def Enemy.new (id : Nat) (t : EnemyType) : Enemy F :=
  let e : Enemy F :=
    { id := id, row := 0, col := 0, currentWaypoint := 0, speed := 2,
      isAlive := true, hasActiveBullet := false, type := t, health := 100 }
  if t = EnemyType.GOBLIN then { e with speed := 2, health := 50 }
  else { e with speed := 1, health := 150 }

/-- The `tempMap` layout copied into `map` by the constructor. -/
def tempMap : List (List Int) :=
  [ [1,1,1,1,1,1,1,1,1,1,1,1,1,1,1,1,1,1,1,1,1,1],
    [1,1,1,1,1,1,1,1,1,1,1,1,1,1,1,1,1,1,1,1,1,1],
    [1,1,5,2,7,2,7,2,7,2,7,2,7,7,7,2,7,2,6,1,1,1],
    [1,1,3,22,22,22,22,22,22,22,22,22,22,22,22,22,22,22,4,1,1,1],
    [1,1,3,22,22,22,22,22,22,22,22,22,22,22,22,22,22,22,4,1,1,1],
    [1,1,8,8,8,8,8,8,8,12,15,22,20,8,8,8,15,22,4,1,1,1],
    [1,1,11,11,11,11,11,11,11,16,3,22,4,17,11,16,3,22,4,1,1,1],
    [1,1,3,22,22,22,22,22,22,4,3,22,4,3,22,4,3,22,4,1,1,1],
    [1,1,3,22,22,22,22,22,22,4,3,22,4,3,22,4,3,22,4,1,1,1],
    [1,1,3,22,22,22,22,22,22,4,9,8,10,3,22,4,3,22,4,1,1,1],
    [1,1,3,22,22,22,22,22,22,18,11,11,11,19,22,4,3,22,4,1,1,1],
    [1,1,3,22,22,22,22,22,22,22,22,22,22,22,22,4,3,22,4,1,1,1],
    [1,1,3,22,22,22,22,22,22,22,22,22,22,22,22,4,3,22,4,1,1,1],
    [1,1,9,8,8,8,8,8,8,8,8,8,8,8,8,14,13,8,10,1,1,1],
    [1,1,21,21,21,21,1,1,1,1,1,1,1,1,1,21,21,21,21,1,1,1],
    [1,1,21,21,21,21,1,1,1,1,1,1,1,1,1,21,21,21,21,1,1,1] ]

/-- The nine waypoints pushed onto `enemyPathRC` (`x` is the row, `y` the column). -/
def enemyPath : List (Vector2 F) :=
  [ ⟨6, 1⟩, ⟨6, 10⟩, ⟨7, 10⟩, ⟨8, 10⟩, ⟨10, 10⟩, ⟨10, 13⟩, ⟨6, 13⟩, ⟨6, 15⟩, ⟨12, 15⟩ ]

/-- The session state built by `TowerDefenseGame::TowerDefenseGame()`. -/
def Game.init : Game F :=
  { gold := 9999, defenders := [], enemies := [], bullets := [], enemyBullets := [],
    map := tempMap, gameOver := false, enemiesReached := 10, totalEnemiesToSpawn := 20,
    spawnedEnemiesCount := 0, spawnTimer := 0, spawnDelay := 2,
    screenWidth := (cols * tileSize : Nat), screenHeight := (rows * tileSize : Nat),
    selectedDefenderType := DefenderType.KNIGHT, enemyPathRC := enemyPath }

/-! ## Library routines (raylib / raymath / C conversions) -/

/-- The C conversion `(int)x` of a float: truncation toward zero. -/
def toInt [FloorRing F] (x : F) : Int := if 0 ≤ x then Int.floor x else Int.ceil x

def Vector2Add (a b : Vector2 F) : Vector2 F := ⟨a.x + b.x, a.y + b.y⟩

def Vector2Subtract (a b : Vector2 F) : Vector2 F := ⟨a.x - b.x, a.y - b.y⟩

def Vector2Scale (v : Vector2 F) (k : F) : Vector2 F := ⟨v.x * k, v.y * k⟩

def Vector2Length (sqrtf : F → F) (v : Vector2 F) : F := sqrtf (v.x * v.x + v.y * v.y)

/-- The raylib point-in-rectangle test. -/
def CheckCollisionPointRec (p : Vector2 F) (r : Rectangle F) : Bool :=
  decide (r.x ≤ p.x) && decide (p.x < r.x + r.width) &&
    decide (r.y ≤ p.y) && decide (p.y < r.y + r.height)

/-! ## Placement and dismantle -/

/-- The cell value `map[r][c]`. -/
def mapAt (m : List (List Int)) (r c : Nat) : Int := (m.getD r []).getD c 0

/-- The `switch (selectedDefenderType)` that sets `costNeeded`. -/
def costNeeded (t : DefenderType) : F :=
  match t with
  | DefenderType.KNIGHT => 150
  | DefenderType.WIZARD => 200
  | DefenderType.ARCHER => 250

/-- The defender built in the placement branch: constructor, then the assignments to
`type`, `row`, `col` and the per-type health assignments. -/
def newDefender (t : DefenderType) (r c : Int) : Defender F :=
  let d : Defender F := { Defender.new (costNeeded t) with type := t, row := (r : F), col := (c : F) }
  if t = DefenderType.KNIGHT then { d with maxHealth := 100, currentHealth := 100 }
  else if t = DefenderType.WIZARD then { d with maxHealth := 100, currentHealth := 100 }
  else if t = DefenderType.ARCHER then { d with maxHealth := 100, currentHealth := 100 }
  else d

/-- The final `else` of the click handler: the click is resolved to the cell `(r, c)`
and a defender is placed when the cell is in the grid, holds 22 and gold suffices. -/
def placeAt (g : Game F) (r c : Int) : Game F :=
  if 0 ≤ r ∧ r < (rows : Int) ∧ 0 ≤ c ∧ c < (cols : Int) then
    if mapAt g.map r.toNat c.toNat = 22 then
      if costNeeded g.selectedDefenderType ≤ g.gold then
        { g with gold := g.gold - costNeeded g.selectedDefenderType,
                 defenders := g.defenders ++ [newDefender g.selectedDefenderType r c] }
      else g
    else g
  else g

def knightCostBox : Rectangle F := ⟨610, 150, 100, 30⟩
def wizardCostBox : Rectangle F := ⟨610, 250, 100, 30⟩
def archerCostBox : Rectangle F := ⟨610, 350, 100, 30⟩

/-- Step 3 of the frame: the handler run when the left button is pressed at `mousePos`. -/
def handleClick [FloorRing F] (g : Game F) (mousePos : Vector2 F) : Game F :=
  if CheckCollisionPointRec mousePos knightCostBox then
    { g with selectedDefenderType := DefenderType.KNIGHT }
  else if CheckCollisionPointRec mousePos wizardCostBox then
    { g with selectedDefenderType := DefenderType.WIZARD }
  else if CheckCollisionPointRec mousePos archerCostBox then
    { g with selectedDefenderType := DefenderType.ARCHER }
  else
    placeAt g (toInt (mousePos.y / (tileSize : F))) (toInt (mousePos.x / (tileSize : F)))

/-- The accumulation loop of `DeleteAllDefenders`, started from `acc`. -/
def refundLoop (acc : F) : List (Defender F) → F
  | [] => acc
  | d :: ds => refundLoop (acc + d.cost) ds

/-- `DeleteAllDefenders`: the returned refund and the cleared vector. -/
def DeleteAllDefenders (ds : List (Defender F)) : F × List (Defender F) :=
  (refundLoop 0 ds, [])

/-- The body of the X-button branch: dismantle everything and credit the refund. -/
def dismantle (g : Game F) : Game F :=
  let r := DeleteAllDefenders g.defenders
  { g with gold := g.gold + r.1, defenders := r.2 }

/-- The X-button handler at the end of the frame, for a left click at `mousePos`. -/
def handleRefundClick (g : Game F) (mousePos : Vector2 F) : Game F :=
  if 100 < mousePos.x ∧ mousePos.x < 100 + 60 ∧ 450 < mousePos.y ∧ mousePos.y < 450 + 60 then
    dismantle g
  else g

/-! ## Enemy movement -/

/-- `UpdateEnemy`: the enemy after the call together with the new values of the
members `enemiesReached` and `gameOver`. -/
def UpdateEnemy (sqrtf : F → F) (path : List (Vector2 F)) (enemy : Enemy F) (deltaTime : F)
    (totalEnemies : Int) (enemiesReached : Int) (gameOver : Bool) : Enemy F × Int × Bool :=
  if enemy.isAlive = false then (enemy, enemiesReached, gameOver)
  else if path.length ≤ enemy.currentWaypoint then
    ({ enemy with isAlive := false }, enemiesReached + 1,
      if totalEnemies ≤ enemiesReached + 1 then true else gameOver)
  else
    let targetRow := (path.getD enemy.currentWaypoint ⟨0, 0⟩).x
    let targetCol := (path.getD enemy.currentWaypoint ⟨0, 0⟩).y
    let dRow := targetRow - enemy.row
    let dCol := targetCol - enemy.col
    let distance := sqrtf (dRow * dRow + dCol * dCol)
    if distance < 1 / 10 then
      ({ enemy with currentWaypoint := enemy.currentWaypoint + 1 }, enemiesReached, gameOver)
    else
      let invDist := 1 / distance
      let dirRow := dRow * invDist
      let dirCol := dCol * invDist
      let move := enemy.speed * deltaTime
      ({ enemy with row := enemy.row + dirRow * move, col := enemy.col + dirCol * move },
        enemiesReached, gameOver)

/-- Step 2 of the frame, first half: `UpdateEnemy` on every enemy in list order. -/
def updateEnemiesLoop (sqrtf : F → F) (path : List (Vector2 F)) (deltaTime : F)
    (totalEnemies : Int) : List (Enemy F) → Int → Bool → List (Enemy F) × Int × Bool
  | [], reached, over => ([], reached, over)
  | e :: es, reached, over =>
    let u := UpdateEnemy sqrtf path e deltaTime totalEnemies reached over
    let rest := updateEnemiesLoop sqrtf path deltaTime totalEnemies es u.2.1 u.2.2
    (u.1 :: rest.1, rest.2.1, rest.2.2)

/-! ## Defender targeting -/

/-- The distance computed in the targeting loops between grid positions. -/
def gridDist (sqrtf : F → F) (r1 c1 r2 c2 : F) : F :=
  sqrtf ((r1 - r2) * (r1 - r2) + (c1 - c2) * (c1 - c2))

/-- The search loop of `UpdateDefender`, from the current `closestEnemy`/`closestDist`. -/
def closestEnemyLoop (sqrtf : F → F) (defender : Defender F) :
    List (Enemy F) → Option (Enemy F) → F → Option (Enemy F)
  | [], closestEnemy, _ => closestEnemy
  | e :: es, closestEnemy, closestDist =>
    if e.isAlive = false then closestEnemyLoop sqrtf defender es closestEnemy closestDist
    else
      let dist := gridDist sqrtf e.row e.col defender.row defender.col
      if dist < closestDist then closestEnemyLoop sqrtf defender es (some e) dist
      else closestEnemyLoop sqrtf defender es closestEnemy closestDist

/-- The tile centre `((col + 0.5) * tileSize, (row + 0.5) * tileSize)`. -/
def tileCenter (row col : F) : Vector2 F :=
  ⟨(col + 1 / 2) * (tileSize : F), (row + 1 / 2) * (tileSize : F)⟩

/-- The projectile velocity computed from a source and a target centre. -/
def aimVelocity (sqrtf : F → F) (src dst : Vector2 F) : Vector2 F :=
  let direction := Vector2Subtract dst src
  let distance := Vector2Length sqrtf direction
  let direction := if 0 < distance then Vector2Scale direction (1 / distance) else direction
  Vector2Scale direction 200

/-- The bullet a defender fires at the enemy `e`. -/
def defenderBullet (sqrtf : F → F) (defender : Defender F) (e : Enemy F) : Bullet F :=
  { position := tileCenter defender.row defender.col,
    velocity := aimVelocity sqrtf (tileCenter defender.row defender.col) (tileCenter e.row e.col),
    active := true }

/-- `UpdateDefender`: the defender after the call and the new `bullets` vector. -/
def UpdateDefender (sqrtf : F → F) (defender : Defender F) (deltaTime : F)
    (enemiesPtr : List (Enemy F)) (bullets : List (Bullet F)) : Defender F × List (Bullet F) :=
  let timer := defender.attackTimer + deltaTime
  if defender.attackCooldown ≤ timer then
    match closestEnemyLoop sqrtf defender enemiesPtr none 999999 with
    | some closestEnemy =>
      ({ defender with attackTimer := 0 }, bullets ++ [defenderBullet sqrtf defender closestEnemy])
    | none => ({ defender with attackTimer := 0 }, bullets)
  else ({ defender with attackTimer := timer }, bullets)

/-- Step 4 of the frame: `UpdateDefender` on every defender in list order. -/
def updateDefendersLoop (sqrtf : F → F) (deltaTime : F) (enemiesPtr : List (Enemy F)) :
    List (Defender F) → List (Bullet F) → List (Defender F) × List (Bullet F)
  | [], bullets => ([], bullets)
  | d :: ds, bullets =>
    let u := UpdateDefender sqrtf d deltaTime enemiesPtr bullets
    let rest := updateDefendersLoop sqrtf deltaTime enemiesPtr ds u.2
    (u.1 :: rest.1, rest.2)

/-! ## Defender projectiles -/

/-- The collision test `distSqr < collisionRange * collisionRange` against a tile centre. -/
def inCollisionRange (pos : Vector2 F) (row col : F) : Prop :=
  (pos.x - (tileCenter row col).x) * (pos.x - (tileCenter row col).x) +
    (pos.y - (tileCenter row col).y) * (pos.y - (tileCenter row col).y) < 16 * 16

instance (pos : Vector2 F) (row col : F) : Decidable (inCollisionRange pos row col) := by
  unfold inCollisionRange; infer_instance

/-- The field test `x < 0 || x > screenW || y < 0 || y > screenH`. -/
def outOfField (pos : Vector2 F) (screenW screenH : Int) : Prop :=
  pos.x < 0 ∨ (screenW : F) < pos.x ∨ pos.y < 0 ∨ (screenH : F) < pos.y

instance (pos : Vector2 F) (screenW screenH : Int) : Decidable (outOfField pos screenW screenH) := by
  unfold outOfField; infer_instance

/-- The inner loop of `UpdateBullets`: the enemy list after the first living enemy in
collision range has been marked not alive, or `none` when the loop ends without a hit. -/
def hitEnemyLoop (pos : Vector2 F) : List (Enemy F) → Option (List (Enemy F))
  | [] => none
  | e :: es =>
    if e.isAlive = false then (hitEnemyLoop pos es).map (fun r => e :: r)
    else if inCollisionRange pos e.row e.col then some ({ e with isAlive := false } :: es)
    else (hitEnemyLoop pos es).map (fun r => e :: r)

/-- The outer loop of `UpdateBullets` over the bullets, threading enemies and gold. -/
def updateBulletsLoop (deltaTime : F) (screenW screenH : Int) :
    List (Bullet F) → List (Enemy F) → F → List (Bullet F) × List (Enemy F) × F
  | [], es, gold => ([], es, gold)
  | b :: bs, es, gold =>
    if b.active = false then
      let rest := updateBulletsLoop deltaTime screenW screenH bs es gold
      (b :: rest.1, rest.2)
    else
      let pos := Vector2Add b.position (Vector2Scale b.velocity deltaTime)
      if outOfField pos screenW screenH then
        let rest := updateBulletsLoop deltaTime screenW screenH bs es gold
        ({ b with position := pos, active := false } :: rest.1, rest.2)
      else
        match hitEnemyLoop pos es with
        | some es1 =>
          let rest := updateBulletsLoop deltaTime screenW screenH bs es1 (gold + 50)
          ({ b with position := pos, active := false } :: rest.1, rest.2)
        | none =>
          let rest := updateBulletsLoop deltaTime screenW screenH bs es gold
          ({ b with position := pos } :: rest.1, rest.2)

/-- `UpdateBullets` on the members `bullets`, `enemies` and `player->gold`: the loop, then
the erase of the inactive bullets. -/
def UpdateBullets (g : Game F) (deltaTime : F) (screenW screenH : Int) : Game F :=
  let r := updateBulletsLoop deltaTime screenW screenH g.bullets g.enemies g.gold
  { g with bullets := r.1.filter (fun b => b.active), enemies := r.2.1, gold := r.2.2 }

/-! ## Enemy shooting and enemy projectiles -/

/-- The search loop of `UpdateEnemyShooting` over the defenders, from the current
`target`/`closestDist`. -/
def targetLoop (sqrtf : F → F) (e : Enemy F) (enemyAttackRange : F) :
    List (Defender F) → Option (Defender F) → F → Option (Defender F)
  | [], target, _ => target
  | d :: ds, target, closestDist =>
    let dist := gridDist sqrtf d.row d.col e.row e.col
    if dist < enemyAttackRange ∧ dist < closestDist then
      targetLoop sqrtf e enemyAttackRange ds (some d) dist
    else targetLoop sqrtf e enemyAttackRange ds target closestDist

/-- The bullet the enemy `e` fires at the defender `target`. -/
def enemyBulletAt (sqrtf : F → F) (e : Enemy F) (target : Defender F) : EnemyBullet F :=
  { position := tileCenter e.row e.col,
    velocity := aimVelocity sqrtf (tileCenter e.row e.col) (tileCenter target.row target.col),
    active := true,
    owner := some e.id }

/-- The loop of `UpdateEnemyShooting` over the enemies, threading `enemyBullets`. -/
def enemyShootingLoop (sqrtf : F → F) (defendersPtr : List (Defender F)) :
    List (Enemy F) → List (EnemyBullet F) → List (Enemy F) × List (EnemyBullet F)
  | [], ebs => ([], ebs)
  | e :: es, ebs =>
    if e.isAlive = false then
      let rest := enemyShootingLoop sqrtf defendersPtr es ebs
      (e :: rest.1, rest.2)
    else if e.hasActiveBullet = true then
      let rest := enemyShootingLoop sqrtf defendersPtr es ebs
      (e :: rest.1, rest.2)
    else
      match targetLoop sqrtf e 5 defendersPtr none 999999 with
      | some target =>
        let rest := enemyShootingLoop sqrtf defendersPtr es (ebs ++ [enemyBulletAt sqrtf e target])
        ({ e with hasActiveBullet := true } :: rest.1, rest.2)
      | none =>
        let rest := enemyShootingLoop sqrtf defendersPtr es ebs
        (e :: rest.1, rest.2)

/-- `UpdateEnemyShooting` on the members `enemies`, `defenders` and `enemyBullets`. -/
def UpdateEnemyShooting (sqrtf : F → F) (g : Game F) : Game F :=
  let r := enemyShootingLoop sqrtf g.defenders g.enemies g.enemyBullets
  { g with enemies := r.1, enemyBullets := r.2 }

/-- The write `b->owner->hasActiveBullet = false`, guarded by `if (b->owner)`: the store
goes to the address held in `owner`, so the enemy of the store that lives at that address
has its flag cleared, whether or not it is the enemy that fired the bullet.  When no enemy
of the store lives at that address (the owner has been deleted and the address has not been
given out again) the write lands outside the enemy store, which stays as it is. -/
def clearOwner (owner : Option Nat) (es : List (Enemy F)) : List (Enemy F) :=
  es.map (fun e => if owner = some e.id then { e with hasActiveBullet := false } else e)

/-- The inner loop of `UpdateEnemyBullets`: the defender list after the first defender in
collision range lost 50 health, or `none` when the loop ends without a hit. -/
def hitDefenderLoop (pos : Vector2 F) : List (Defender F) → Option (List (Defender F))
  | [] => none
  | d :: ds =>
    if inCollisionRange pos d.row d.col then
      some ({ d with currentHealth := d.currentHealth - 50 } :: ds)
    else (hitDefenderLoop pos ds).map (fun r => d :: r)

/-- The outer loop of `UpdateEnemyBullets`, threading the enemies (for the owner flag)
and the defenders. -/
def updateEnemyBulletsLoop (deltaTime : F) (screenW screenH : Int) :
    List (EnemyBullet F) → List (Enemy F) → List (Defender F) →
      List (EnemyBullet F) × List (Enemy F) × List (Defender F)
  | [], es, ds => ([], es, ds)
  | b :: bs, es, ds =>
    if b.active = false then
      let rest := updateEnemyBulletsLoop deltaTime screenW screenH bs es ds
      (b :: rest.1, rest.2)
    else
      let pos := Vector2Add b.position (Vector2Scale b.velocity deltaTime)
      if outOfField pos screenW screenH then
        let rest := updateEnemyBulletsLoop deltaTime screenW screenH bs (clearOwner b.owner es) ds
        ({ b with position := pos, active := false } :: rest.1, rest.2)
      else
        match hitDefenderLoop pos ds with
        | some ds1 =>
          let rest :=
            updateEnemyBulletsLoop deltaTime screenW screenH bs (clearOwner b.owner es) ds1
          ({ b with position := pos, active := false } :: rest.1, rest.2)
        | none =>
          let rest := updateEnemyBulletsLoop deltaTime screenW screenH bs es ds
          ({ b with position := pos } :: rest.1, rest.2)

/-- `UpdateEnemyBullets`: the loop, then the erase of the inactive enemy bullets. -/
def UpdateEnemyBullets (g : Game F) (deltaTime : F) (screenW screenH : Int) : Game F :=
  let r := updateEnemyBulletsLoop deltaTime screenW screenH g.enemyBullets g.enemies g.defenders
  { g with enemyBullets := r.1.filter (fun b => b.active), enemies := r.2.1, defenders := r.2.2 }

/-! ## Dead-defender sweep -/

/-- The downward loop of `RemoveDeadDefenders`; `removeDeadLoop (i + 1)` visits index `i`. -/
def removeDeadLoop : Nat → List (Defender F) → List (Defender F)
  | 0, ds => ds
  | i + 1, ds =>
    match ds.get? i with
    | some d =>
      if d.currentHealth ≤ 0 then removeDeadLoop i (ds.eraseIdx i) else removeDeadLoop i ds
    | none => removeDeadLoop i ds

def RemoveDeadDefenders (defendersPtr : List (Defender F)) : List (Defender F) :=
  removeDeadLoop defendersPtr.length defendersPtr

/-! ## The frame -/

/-- What one iteration of the loop in `Run` reads from outside: `GetFrameTime()`, the value
`GetRandomValue(0, 1)` returns if it is called, the address `new Enemy` returns if it is
called, and the mouse position when the left button is pressed in this frame. -/
structure FrameInput (F : Type) where
  deltaTime : F
  randVal : Int
  addr : Nat
  click : Option (Vector2 F)

/-- Step 1 of the frame: advance the spawn timer and spawn one enemy when due; `addr` is
the address `new Enemy` returns. -/
def spawnStep (g : Game F) (deltaTime : F) (randVal : Int) (addr : Nat) : Game F :=
  let g1 := { g with spawnTimer := g.spawnTimer + deltaTime }
  if g1.spawnedEnemiesCount < g1.totalEnemiesToSpawn ∧ g1.spawnDelay ≤ g1.spawnTimer then
    let chosenType := if randVal = 0 then EnemyType.GOBLIN else EnemyType.ORC
    let newEnemy : Enemy F :=
      { Enemy.new addr chosenType with row := 6, col := 1, currentWaypoint := 1 }
    { g1 with spawnTimer := 0, enemies := g1.enemies ++ [newEnemy],
              spawnedEnemiesCount := g1.spawnedEnemiesCount + 1 }
  else g1

/-- Step 2 of the frame: update every enemy, then erase the enemies that are not alive. -/
def moveStep (sqrtf : F → F) (g : Game F) (deltaTime : F) : Game F :=
  let r := updateEnemiesLoop sqrtf g.enemyPathRC deltaTime g.totalEnemiesToSpawn g.enemies
    g.enemiesReached g.gameOver
  { g with enemies := r.1.filter (fun e => e.isAlive), enemiesReached := r.2.1,
           gameOver := r.2.2 }

/-- Step 3 of the frame. -/
def clickStep [FloorRing F] (g : Game F) (click : Option (Vector2 F)) : Game F :=
  match click with
  | some mousePos => handleClick g mousePos
  | none => g

/-- Step 4 of the frame. -/
def defendersStep (sqrtf : F → F) (g : Game F) (deltaTime : F) : Game F :=
  let r := updateDefendersLoop sqrtf deltaTime g.enemies g.defenders g.bullets
  { g with defenders := r.1, bullets := r.2 }

/-- The X-button handler when the left button is pressed in this frame. -/
def refundStep (g : Game F) (click : Option (Vector2 F)) : Game F :=
  match click with
  | some mousePos => handleRefundClick g mousePos
  | none => g

/-- One iteration of the loop in `Run` (state changes only; drawing is left out). -/
def frame [FloorRing F] (sqrtf : F → F) (g : Game F) (inp : FrameInput F) : Game F :=
  let g := spawnStep g inp.deltaTime inp.randVal inp.addr
  let g := moveStep sqrtf g inp.deltaTime
  let g := clickStep g inp.click
  let g := defendersStep sqrtf g inp.deltaTime
  let g := UpdateEnemyShooting sqrtf g
  let g := UpdateBullets g inp.deltaTime g.screenWidth g.screenHeight
  let g := UpdateEnemyBullets g inp.deltaTime g.screenWidth g.screenHeight
  let g := { g with defenders := RemoveDeadDefenders g.defenders }
  refundStep g inp.click

/-- The state after the frames with inputs `inps`, in order. -/
def run [FloorRing F] (sqrtf : F → F) (g : Game F) (inps : List (FrameInput F)) : Game F :=
  inps.foldl (frame sqrtf) g

/-- The states reachable from the constructor state by frames. -/
inductive Reachable [FloorRing F] (sqrtf : F → F) : Game F → Prop where
  | init : Reachable sqrtf Game.init
  | step (g : Game F) (inp : FrameInput F) : Reachable sqrtf g → Reachable sqrtf (frame sqrtf g inp)

/-! ## Observations used in the statements -/

/-- The address and the one-shot flag of an enemy, the part of it the bullets refer to. -/
def Enemy.tag (e : Enemy F) : Nat × Bool := (e.id, e.hasActiveBullet)

/-- The number of active enemy bullets in the store whose `owner` is the address `i`. -/
def ownedActive (ebs : List (EnemyBullet F)) (i : Nat) : Nat :=
  ebs.countP (fun b => b.active && decide (b.owner = some i))

/-- The number of enemies that complete the path in the `UpdateEnemy` loop over `es`:
the living ones whose waypoint index is past the end of the path. -/
def arrivals (path : List (Vector2 F)) (es : List (Enemy F)) : Nat :=
  es.countP (fun e => e.isAlive && decide (path.length ≤ e.currentWaypoint))

/-- The number of enemies that complete the path during the frame from `g`. -/
def frameArrivals (g : Game F) (inp : FrameInput F) : Nat :=
  arrivals g.enemyPathRC (spawnStep g inp.deltaTime inp.randVal inp.addr).enemies

/-- The number of enemies that have completed the path during the frames `inps` from `g`. -/
def completed [FloorRing F] (sqrtf : F → F) : Game F → List (FrameInput F) → Nat
  | _, [] => 0
  | g, inp :: inps => frameArrivals g inp + completed sqrtf (frame sqrtf g inp) inps

/-- The one-shot bookkeeping on the enemy store `es` and the enemy-bullet store `ebs`: the
enemies live at distinct addresses, and every stored enemy owns one active bullet if its
flag is set and none otherwise. -/
def OneShotInv (es : List (Enemy F)) (ebs : List (EnemyBullet F)) : Prop :=
  (es.map (fun e => e.id)).Nodup ∧
  (∀ e ∈ es, ownedActive ebs e.id = if e.hasActiveBullet = true then 1 else 0)

/-- The spawn test of the frame: an enemy is spawned, and `new Enemy` is called, in the
frame from `g` with frame time `deltaTime`. -/
def spawnDue (g : Game F) (deltaTime : F) : Prop :=
  g.spawnedEnemiesCount < g.totalEnemiesToSpawn ∧ g.spawnDelay ≤ g.spawnTimer + deltaTime

instance (g : Game F) (deltaTime : F) : Decidable (spawnDue g deltaTime) := by
  unfold spawnDue; infer_instance

/-- The address `a` is free in `g`: no enemy of the store lives at it.  This is what the
allocator guarantees of the address `new Enemy` returns. -/
def freeAddr (g : Game F) (a : Nat) : Prop := a ∉ g.enemies.map (fun e => e.id)

instance (g : Game F) (a : Nat) : Decidable (freeAddr g a) := by
  unfold freeAddr; infer_instance

/-- The address `a` is unused in `g`: it is free and no active enemy bullet of the store
still holds it as its `owner`. -/
def unusedAddr (g : Game F) (a : Nat) : Prop :=
  freeAddr g a ∧ ownedActive g.enemyBullets a = 0

instance (g : Game F) (a : Nat) : Decidable (unusedAddr g a) := by
  unfold unusedAddr; infer_instance

/-- A session from `g` in which `new Enemy`, whenever it is called, returns a free
address: what an allocator guarantees. -/
def freeAddrSession [FloorRing F] (sqrtf : F → F) : Game F → List (FrameInput F) → Prop
  | _, [] => True
  | g, inp :: inps =>
    (spawnDue g inp.deltaTime → freeAddr g inp.addr) ∧
      freeAddrSession sqrtf (frame sqrtf g inp) inps

/-- The test `freeAddrSession`, frame by frame. -/
def freeAddrSessionDecidable [FloorRing F] (sqrtf : F → F) :
    (g : Game F) → (inps : List (FrameInput F)) → Decidable (freeAddrSession sqrtf g inps)
  | _, [] => isTrue trivial
  | g, inp :: inps =>
    @instDecidableAnd _ _ inferInstance
      (freeAddrSessionDecidable sqrtf (frame sqrtf g inp) inps)

instance [FloorRing F] (sqrtf : F → F) (g : Game F) (inps : List (FrameInput F)) :
    Decidable (freeAddrSession sqrtf g inps) := freeAddrSessionDecidable sqrtf g inps

/-- A session from `g` in which `new Enemy`, whenever it is called, returns an unused
address: no address is given out again while an active enemy bullet still points to it. -/
def noStaleAddr [FloorRing F] (sqrtf : F → F) : Game F → List (FrameInput F) → Prop
  | _, [] => True
  | g, inp :: inps =>
    (spawnDue g inp.deltaTime → unusedAddr g inp.addr) ∧
      noStaleAddr sqrtf (frame sqrtf g inp) inps

/-- The test `noStaleAddr`, frame by frame. -/
def noStaleAddrDecidable [FloorRing F] (sqrtf : F → F) :
    (g : Game F) → (inps : List (FrameInput F)) → Decidable (noStaleAddr sqrtf g inps)
  | _, [] => isTrue trivial
  | g, inp :: inps =>
    @instDecidableAnd _ _ inferInstance (noStaleAddrDecidable sqrtf (frame sqrtf g inp) inps)

instance [FloorRing F] (sqrtf : F → F) (g : Game F) (inps : List (FrameInput F)) :
    Decidable (noStaleAddr sqrtf g inps) := noStaleAddrDecidable sqrtf g inps

/-! ## The frame in three parts -/

/-- Steps 1 to 7 of the frame: everything up to and including `UpdateEnemyBullets`. -/
def combatStep [FloorRing F] (sqrtf : F → F) (g : Game F) (inp : FrameInput F) : Game F :=
  let g := spawnStep g inp.deltaTime inp.randVal inp.addr
  let g := moveStep sqrtf g inp.deltaTime
  let g := clickStep g inp.click
  let g := defendersStep sqrtf g inp.deltaTime
  let g := UpdateEnemyShooting sqrtf g
  let g := UpdateBullets g inp.deltaTime g.screenWidth g.screenHeight
  UpdateEnemyBullets g inp.deltaTime g.screenWidth g.screenHeight

/-- The call `RemoveDeadDefenders(defenders)` of the frame. -/
def sweepStep (g : Game F) : Game F :=
  { g with defenders := RemoveDeadDefenders g.defenders }

/-- The defender the enemy `e` fires at in its iteration of `UpdateEnemyShooting`, if any:
the two `continue` guards, then the search loop. -/
def enemyTarget (sqrtf : F → F) (defendersPtr : List (Defender F)) (e : Enemy F) :
    Option (Defender F) :=
  if e.isAlive = false then none
  else if e.hasActiveBullet = true then none
  else targetLoop sqrtf e 5 defendersPtr none 999999

/-- The economy bookkeeping behind "gold is never negative": gold is not negative and no
stored defender has a negative `cost`. -/
def GoldInv (g : Game F) : Prop :=
  0 ≤ g.gold ∧ ∀ d ∈ g.defenders, 0 ≤ d.cost

/-- The number of enemies that are alive in `before` and not alive at the same place of
`after`: the enemies that went from alive to not alive between the two lists. -/
def killedCount (before after : List (Enemy F)) : Nat :=
  (List.zip before after).countP (fun p => p.1.isAlive && !p.2.isAlive)

/-- The number of bullets deactivated by a collision: active in `before`, not active at
the same place of `after`, and with the advanced position inside the field (a bullet that
is deactivated for leaving the field has its advanced position outside). -/
def collisionCount (sw sh : Int) (before after : List (Bullet F)) : Nat :=
  (List.zip before after).countP
    (fun p => p.1.active && !p.2.active && !decide (outOfField p.2.position sw sh))

/-- The number of living enemies in a list. -/
def aliveCount (es : List (Enemy F)) : Nat := es.countP (fun e => e.isAlive)

/-- What the collision test of `UpdateBullets` reads of an enemy: position and `isAlive`
(not `health`). -/
def Enemy.geom (e : Enemy F) : F × F × Bool := (e.row, e.col, e.isAlive)

/-! ## The path as grid cells -/

/-- The tile a defender stands on, as stored: `(row, col)`. -/
def Defender.site (d : Defender F) : F × F := (d.row, d.col)

/-- The placement bookkeeping: the map is the constructor's layout and every stored
defender stands on an in-grid cell of it that holds the buildable value 22. -/
def SiteInv (g : Game F) : Prop :=
  g.map = tempMap ∧
    ∀ d ∈ g.defenders, ∃ r c : Int, 0 ≤ r ∧ 0 ≤ c ∧ d.row = (r : F) ∧ d.col = (c : F) ∧
      mapAt tempMap r.toNat c.toNat = 22

end Model

/-- Newton iteration from above for the integer square root of `n`, with `fuel` steps. -/
def natSqrtLoop : Nat → Nat → Nat → Nat
  | 0, _, guess => guess
  | fuel + 1, n, guess =>
    if (guess + n / guess) / 2 < guess then natSqrtLoop fuel n ((guess + n / guess) / 2)
    else guess

/-- The integer square root, rounded down. -/
def natSqrt (n : Nat) : Nat := if n ≤ 1 then n else natSqrtLoop n n n

/-- A rational square root for evaluation: exact on squares of rationals, rounded down on
numerator and denominator otherwise. -/
def ratSqrt (q : ℚ) : ℚ := (natSqrt q.num.toNat : ℚ) / (natSqrt q.den : ℚ)

/-! ## Concrete states used in the evaluations -/

/-- A game state over `ℚ` with four defenders of costs 150, 200, 250, 150, two of them
damaged. -/
def fourDefenders : Game ℚ :=
  { (Game.init : Game ℚ) with
    gold := 40,
    defenders :=
      [ { (Defender.new 150 : Defender ℚ) with row := 3, col := 3, currentHealth := 50 },
        { (Defender.new 200 : Defender ℚ) with row := 3, col := 4, type := DefenderType.WIZARD },
        { (Defender.new 250 : Defender ℚ) with row := 4, col := 3, type := DefenderType.ARCHER },
        { (Defender.new 150 : Defender ℚ) with row := 4, col := 4, currentHealth := 0 } ] }

/-- The constructor state after a click on the Wizard cost box. -/
def wizardSelected : Game ℚ :=
  { (Game.init : Game ℚ) with selectedDefenderType := DefenderType.WIZARD }

/-- The state `fourDefenders` with exactly 250 gold, after a click on the Archer cost box. -/
def archerSelected : Game ℚ :=
  { fourDefenders with gold := 250, selectedDefenderType := DefenderType.ARCHER }

/-- A goblin that has been moved to the last waypoint and whose waypoint index is 9. -/
def goblinAtEnd : Enemy ℚ :=
  { (Enemy.new 0 EnemyType.GOBLIN : Enemy ℚ) with row := 12, col := 15, currentWaypoint := 9 }

/-- A freshly spawned goblin: at waypoint 0, heading for waypoint 1. -/
def goblinAtStart : Enemy ℚ :=
  { (Enemy.new 0 EnemyType.GOBLIN : Enemy ℚ) with row := 6, col := 1, currentWaypoint := 1 }

/-- A living goblin standing on tile row 1, column 1; its tile centre is `(48, 48)`. -/
def goblinAt11 (id : Nat) : Enemy ℚ :=
  { (Enemy.new id EnemyType.GOBLIN : Enemy ℚ) with row := 1, col := 1, currentWaypoint := 1 }

/-- A knight on tile row 3, column 3, ready to fire. -/
def knightAt33 : Defender ℚ := { (Defender.new 150 : Defender ℚ) with row := 3, col := 3 }

/-- Four enemies seen from `knightAt33`: one not alive on the knight's row, then living
ones at distances 5, 3 and 3. -/
def fourEnemies : List (Enemy ℚ) :=
  [ { (Enemy.new 0 EnemyType.ORC : Enemy ℚ) with row := 3, col := 4, isAlive := false },
    { (Enemy.new 1 EnemyType.GOBLIN : Enemy ℚ) with row := 6, col := 7 },
    { (Enemy.new 2 EnemyType.ORC : Enemy ℚ) with row := 6, col := 3 },
    { (Enemy.new 3 EnemyType.GOBLIN : Enemy ℚ) with row := 3, col := 6 } ]

/-- A session at the spawn cap: 20 enemies spawned, one still walking, the spawn timer far
past the delay. -/
def atCap : Game ℚ :=
  { (Game.init : Game ℚ) with
    spawnedEnemiesCount := 20, spawnTimer := 1000,
    enemies := [{ goblinAtStart with id := 19 }] }

/-- A frame of half a time-unit in which a goblin is drawn if an enemy spawns, `new Enemy`
returns the address `a` if it is called, and the mouse is not pressed. -/
def halfTick (a : Nat) : FrameInput ℚ := ⟨1 / 2, 0, a, none⟩

/-- A session of `n` frames of half a time-unit from the constructor state: a goblin spawns
every fourth frame and walks one tile per frame, nothing is placed; the enemies are
allocated at addresses that differ from one another. -/
def undefended (n : Nat) : List (FrameInput ℚ) := (List.range n).map halfTick

/-- A frame of half a time-unit with a left click on tile row 7, column 3, a buildable
cell two tiles from the start of the path. -/
def placeKnight : FrameInput ℚ := ⟨1 / 2, 0, 0, some ⟨112, 240⟩⟩

/-- A knight is placed in the first frame; the first goblin spawns in the fourth frame and
shoots at the knight in that same frame. -/
def skirmish : List (FrameInput ℚ) := placeKnight :: undefended 3

/-- A goblin standing on the last waypoint `(12, 15)` whose waypoint index is still 8. -/
def goblinOnLast : Enemy ℚ :=
  { (Enemy.new 0 EnemyType.GOBLIN : Enemy ℚ) with row := 12, col := 15, currentWaypoint := 8 }

/-- A living goblin on the row of `knightAt33`, a million tiles to its right. -/
def farGoblin : Enemy ℚ :=
  { (Enemy.new 0 EnemyType.GOBLIN : Enemy ℚ) with row := 3, col := 1000003 }

/-- Three defenders seen from `goblinAtStart` at `(6, 1)`: at distances 5, 3 and 3. -/
def threeDefenders : List (Defender ℚ) :=
  [ { (Defender.new 150 : Defender ℚ) with row := 3, col := 5 },
    { (Defender.new 200 : Defender ℚ) with row := 3, col := 1, type := DefenderType.WIZARD },
    { (Defender.new 250 : Defender ℚ) with row := 9, col := 1, type := DefenderType.ARCHER } ]

/-- A living goblin next to the right edge of the field; its tile centre is `(700, 48)`. -/
def goblinAtEdge : Enemy ℚ :=
  { (Enemy.new 0 EnemyType.GOBLIN : Enemy ℚ) with row := 1, col := 171 / 8 }

/-- A knight on tile row 1, column 21; its tile centre is `(688, 48)`. -/
def knightAtEdge : Defender ℚ := { (Defender.new 150 : Defender ℚ) with row := 1, col := 21 }

/-- Four frames: a knight is placed on tile row 7, column 3 in the first one, the first
goblin spawns in the fourth one, fires at the knight and its bullet hits in that frame. -/
def firstBlood : List (FrameInput ℚ) :=
  [⟨3 / 5, 0, 0, some ⟨112, 240⟩⟩, ⟨3 / 5, 0, 0, none⟩, ⟨3 / 5, 0, 0, none⟩,
    ⟨1 / 4, 0, 0, none⟩]

/-- The fifth frame of that session: the goblin fires again and its bullet hits again. -/
def quarterTick : FrameInput ℚ := ⟨1 / 4, 0, 0, none⟩

/-- Three bullets and three goblins on one tile: the first bullet hits, the second is
already spent, the third hits; the goblins differ in `health` only. -/
def crossfire : Game ℚ :=
  { (Game.init : Game ℚ) with
    gold := 0,
    bullets := [⟨⟨48, 48⟩, ⟨200, 0⟩, true⟩, ⟨⟨5, 5⟩, ⟨0, 0⟩, false⟩, ⟨⟨40, 48⟩, ⟨200, 0⟩, true⟩],
    enemies := [{ goblinAt11 0 with health := 1000000 }, { goblinAt11 1 with health := 0 },
      goblinAt11 2] }

/-- A knight is placed in the first frame; the second frame lasts 600000 time-units, so the
goblin that spawns in it overshoots the second waypoint by more than a million tiles. -/
def longStall : List (FrameInput ℚ) := [placeKnight, ⟨600000, 0, 0, none⟩]

/-- A knight as the placement branch builds it on tile row 3, column 3. -/
def freshKnight : Defender ℚ := newDefender DefenderType.KNIGHT 3 3

/-- A first frame of 600000 time-units, in which a goblin spawns and overshoots the second
waypoint by more than a million tiles, then a frame of 1/60 with a click that places a
knight on tile row 7, column 3. -/
def lateKnight : List (FrameInput ℚ) :=
  [⟨600000, 0, 0, none⟩, ⟨1 / 60, 0, 0, some ⟨112, 240⟩⟩]

/-- Seven frames on row 6 of the map, with frame times 5/2, 1/8, 1/2, 1/4, 3/2, 5/4, 1/8;
goblins are drawn, and `new Enemy` returns the address 0 both times it is called.  Frame 1
spawns a goblin, which walks to column 6.  Frame 2 has a click at pixel `(360, 200)`, which
places a knight on tile row 6, column 11; the knight and the goblin fire at each other.
Frame 3: the knight's bullet kills the goblin.  Frame 4: the goblin is erased and deleted;
its bullet has passed the knight and flies on.  Frame 5 spawns the second goblin.  Frame 6:
the second goblin fires, and the first goblin's bullet leaves the field.  Frame 7: the
second goblin fires again. -/
def addressReuse : List (FrameInput ℚ) :=
  [⟨5 / 2, 0, 0, none⟩, ⟨1 / 8, 0, 0, some ⟨360, 200⟩⟩, ⟨1 / 2, 0, 0, none⟩,
    ⟨1 / 4, 0, 0, none⟩, ⟨3 / 2, 0, 0, none⟩, ⟨5 / 4, 0, 0, none⟩, ⟨1 / 8, 0, 0, none⟩]

/-- What the one-shot bookkeeping reads of an enemy bullet: the horizontal position, the
`active` flag and the `owner` address. -/
def EnemyBullet.brief (b : EnemyBullet ℚ) : ℚ × Bool × Option Nat :=
  (b.position.x, b.active, b.owner)

/-- The nine waypoints of `enemyPathRC` as grid cells `(row, column)`. -/
def waypointCells : List (Nat × Nat) :=
  [(6, 1), (6, 10), (7, 10), (8, 10), (10, 10), (10, 13), (6, 13), (6, 15), (12, 15)]

/-- The grid cells of the straight segment from `a` to `b`, both ends included, for two
cells in one row or one column; for any other pair, the two ends. -/
def segmentCells (a b : Nat × Nat) : List (Nat × Nat) :=
  if a.1 = b.1 then
    (List.range (max a.2 b.2 + 1 - min a.2 b.2)).map (fun k => (a.1, min a.2 b.2 + k))
  else if a.2 = b.2 then
    (List.range (max a.1 b.1 + 1 - min a.1 b.1)).map (fun k => (min a.1 b.1 + k, a.2))
  else [a, b]

/-- The pairs of consecutive waypoints. -/
def waypointPairs : List ((Nat × Nat) × (Nat × Nat)) :=
  List.zip waypointCells waypointCells.tail

/-- The grid cells of the enemy path: the cells of the segments between consecutive
waypoints. -/
def pathCells : List (Nat × Nat) :=
  (waypointPairs.map (fun p => segmentCells p.1 p.2)).flatten

/-! # Theorems -/

section Theorems

variable {F : Type} [LinearOrderedField F]

/-! ## Placement (C1, C2) -/

theorem placeAt_reject (g : Game F) (r c : Int)
    (h : mapAt g.map r.toNat c.toNat ≠ 22 ∨ g.gold < costNeeded g.selectedDefenderType) :
    placeAt g r c = g := by
  unfold placeAt
  rcases h with h | h
  · simp [h]
  · simp [not_le.mpr h]

theorem handleClick_eq_or [FloorRing F] (g : Game F) (p : Vector2 F) :
    (∃ t, handleClick g p = { g with selectedDefenderType := t }) ∨
      handleClick g p = placeAt g (toInt (p.y / (tileSize : F))) (toInt (p.x / (tileSize : F))) := by
  unfold handleClick
  split_ifs
  · exact Or.inl ⟨_, rfl⟩
  · exact Or.inl ⟨_, rfl⟩
  · exact Or.inl ⟨_, rfl⟩
  · exact Or.inr rfl

/-- C1. Placement rejection: when the click resolves to the in-grid cell `(r, c)` and either
`map[r][c]` is not 22 or gold is below the cost of the selected variant, the placement
branch, and the whole click handler, leave gold and the defender list unchanged. -/
theorem C1_placement_rejection [FloorRing F] (g : Game F) (mousePos : Vector2 F) (r c : Int)
    (hc : c = toInt (mousePos.x / (tileSize : F))) (hr : r = toInt (mousePos.y / (tileSize : F)))
    (_hgrid : 0 ≤ r ∧ r < (rows : Int) ∧ 0 ≤ c ∧ c < (cols : Int))
    (h : mapAt g.map r.toNat c.toNat ≠ 22 ∨
      (mapAt g.map r.toNat c.toNat = 22 ∧ g.gold < costNeeded g.selectedDefenderType)) :
    (placeAt g r c).gold = g.gold ∧ (placeAt g r c).defenders = g.defenders ∧
      (handleClick g mousePos).gold = g.gold ∧
      (handleClick g mousePos).defenders = g.defenders := by
  have hp : placeAt g r c = g := by
    apply placeAt_reject
    rcases h with h | ⟨_, h⟩
    · exact Or.inl h
    · exact Or.inr h
  refine ⟨by rw [hp], by rw [hp], ?_, ?_⟩
  · rcases handleClick_eq_or g mousePos with ⟨t, ht⟩ | ht
    · rw [ht]
    · rw [ht, ← hr, ← hc, hp]
  · rcases handleClick_eq_or g mousePos with ⟨t, ht⟩ | ht
    · rw [ht]
    · rw [ht, ← hr, ← hc, hp]

/-- C2. Placement success: on an in-grid cell holding 22, with `cost` the cost of the selected
variant (Knight 150, Wizard 200, Archer 250) and gold at least `cost`, the placement branch
debits exactly `cost` and appends exactly one defender at `(r, c)` of the selected type, with
that cost and health 100/100; the earlier defenders are kept as they are. -/
theorem C2_placement_success (g : Game F) (r c : Int) (cost : F)
    (hgrid : 0 ≤ r ∧ r < (rows : Int) ∧ 0 ≤ c ∧ c < (cols : Int))
    (hmap : mapAt g.map r.toNat c.toNat = 22)
    (hcost : (g.selectedDefenderType = DefenderType.KNIGHT ∧ cost = 150) ∨
      (g.selectedDefenderType = DefenderType.WIZARD ∧ cost = 200) ∨
      (g.selectedDefenderType = DefenderType.ARCHER ∧ cost = 250))
    (hgold : cost ≤ g.gold) :
    (placeAt g r c).gold = g.gold - cost ∧
      ∃ d : Defender F, (placeAt g r c).defenders = g.defenders ++ [d] ∧
        d.row = (r : F) ∧ d.col = (c : F) ∧ d.type = g.selectedDefenderType ∧
        d.cost = cost ∧ d.maxHealth = 100 ∧ d.currentHealth = 100 := by
  have hk : costNeeded g.selectedDefenderType = cost := by
    rcases hcost with ⟨ht, hc⟩ | ⟨ht, hc⟩ | ⟨ht, hc⟩ <;> rw [ht, hc] <;> rfl
  have hp : placeAt g r c =
      { g with gold := g.gold - costNeeded g.selectedDefenderType,
               defenders := g.defenders ++ [newDefender g.selectedDefenderType r c] } := by
    unfold placeAt
    rw [if_pos hgrid, if_pos hmap, if_pos (by rw [hk]; exact hgold)]
  rw [hp, ← hk]
  refine ⟨rfl, newDefender g.selectedDefenderType r c, rfl, ?_⟩
  cases g.selectedDefenderType <;> simp [newDefender, Defender.new]

/-! ## Dismantle (C3) -/

theorem refundLoop_eq (ds : List (Defender F)) (acc : F) :
    refundLoop acc ds = acc + (ds.map (fun d => d.cost)).sum := by
  induction ds generalizing acc with
  | nil => simp [refundLoop]
  | cons d ds ih => simp [refundLoop, ih, add_assoc]

/-- C3. Economy conservation on dismantle: `DeleteAllDefenders` returns the sum of the
`cost` fields of the defenders, whatever their health, and leaves the list empty; the
dismantle action credits gold by that sum; for costs 150, 200, 250, 150 the credit is 750
and no defender is left. -/
theorem C3_dismantle_refund (g : Game F) (ds : List (Defender F)) :
    DeleteAllDefenders ds = ((ds.map (fun d => d.cost)).sum, []) ∧
      (dismantle g).gold = g.gold + (g.defenders.map (fun d => d.cost)).sum ∧
      (dismantle g).defenders = [] ∧
      (g.defenders.map (fun d => d.cost) = [150, 200, 250, 150] →
        (dismantle g).gold = g.gold + 750 ∧ (dismantle g).defenders.length = 0) := by
  have h1 : DeleteAllDefenders ds = ((ds.map (fun d => d.cost)).sum, []) := by
    simp [DeleteAllDefenders, refundLoop_eq]
  have h2 : (dismantle g).gold = g.gold + (g.defenders.map (fun d => d.cost)).sum := by
    simp [dismantle, DeleteAllDefenders, refundLoop_eq]
  refine ⟨h1, h2, rfl, fun h => ⟨?_, rfl⟩⟩
  rw [h2, h]
  norm_num

theorem C1_placement_rejection_witness :
    (placeAt fourDefenders 3 5).gold = 40 ∧ (placeAt fourDefenders 3 5).defenders.length = 4 ∧
      (handleClick fourDefenders ⟨170, 100⟩).gold = 40 ∧
      (handleClick fourDefenders ⟨170, 100⟩).defenders.length = 4 := by
  have h := C1_placement_rejection fourDefenders ⟨170, 100⟩ 3 5 (by decide!) (by decide!)
    (by decide) (Or.inr (by decide!))
  exact ⟨h.1, by rw [h.2.1]; rfl, h.2.2.1, by rw [h.2.2.2]; rfl⟩

theorem C2_placement_success_witness :
    ((placeAt (Game.init : Game ℚ) 3 5).gold = 9999 - 150 ∧
      ∃ d : Defender ℚ, (placeAt (Game.init : Game ℚ) 3 5).defenders = [] ++ [d] ∧
        d.row = 3 ∧ d.col = 5 ∧ d.type = DefenderType.KNIGHT ∧
        d.cost = 150 ∧ d.maxHealth = 100 ∧ d.currentHealth = 100) ∧
    ((placeAt wizardSelected 7 3).gold = 9999 - 200 ∧
      ∃ d : Defender ℚ, (placeAt wizardSelected 7 3).defenders = [] ++ [d] ∧
        d.row = 7 ∧ d.col = 3 ∧ d.type = DefenderType.WIZARD ∧
        d.cost = 200 ∧ d.maxHealth = 100 ∧ d.currentHealth = 100) ∧
    ((placeAt archerSelected 4 5).gold = 250 - 250 ∧
      ∃ d : Defender ℚ, (placeAt archerSelected 4 5).defenders = fourDefenders.defenders ++ [d] ∧
        d.row = 4 ∧ d.col = 5 ∧ d.type = DefenderType.ARCHER ∧
        d.cost = 250 ∧ d.maxHealth = 100 ∧ d.currentHealth = 100) :=
  ⟨C2_placement_success (Game.init : Game ℚ) 3 5 150 (by decide) (by decide)
      (Or.inl ⟨rfl, rfl⟩) (by decide!),
    C2_placement_success wizardSelected 7 3 200 (by decide) (by decide)
      (Or.inr (Or.inl ⟨rfl, rfl⟩)) (by decide!),
    C2_placement_success archerSelected 4 5 250 (by decide) (by decide)
      (Or.inr (Or.inr ⟨rfl, rfl⟩)) (by decide!)⟩

theorem C3_dismantle_refund_witness :
    (dismantle fourDefenders).gold = 790 ∧ (dismantle fourDefenders).defenders.length = 0 := by
  have h := (C3_dismantle_refund fourDefenders []).2.2.2 (by decide!)
  exact ⟨by rw [h.1]; decide!, h.2⟩

/-! ## Enemy movement (C6, C9) -/

/-- C6. Path completion: for a living enemy whose waypoint index has reached the end of
the path, one `UpdateEnemy` call clears `isAlive`, adds exactly 1 to `enemiesReached`,
assigns `gameOver := true` exactly when the incremented count is at least `totalEnemies`
(otherwise `gameOver` keeps its value), and changes nothing else of the enemy: position
and waypoint index are as before. -/
theorem C6_path_completion (sqrtf : F → F) (path : List (Vector2 F)) (e : Enemy F) (dt : F)
    (totalEnemies reached : Int) (over : Bool)
    (halive : e.isAlive = true) (hend : path.length ≤ e.currentWaypoint) :
    (UpdateEnemy sqrtf path e dt totalEnemies reached over).1 = { e with isAlive := false } ∧
      (UpdateEnemy sqrtf path e dt totalEnemies reached over).1.isAlive = false ∧
      (UpdateEnemy sqrtf path e dt totalEnemies reached over).1.row = e.row ∧
      (UpdateEnemy sqrtf path e dt totalEnemies reached over).1.col = e.col ∧
      (UpdateEnemy sqrtf path e dt totalEnemies reached over).1.currentWaypoint =
        e.currentWaypoint ∧
      (UpdateEnemy sqrtf path e dt totalEnemies reached over).2.1 = reached + 1 ∧
      (totalEnemies ≤ reached + 1 →
        (UpdateEnemy sqrtf path e dt totalEnemies reached over).2.2 = true) ∧
      (¬ totalEnemies ≤ reached + 1 →
        (UpdateEnemy sqrtf path e dt totalEnemies reached over).2.2 = over) := by
  have hu : UpdateEnemy sqrtf path e dt totalEnemies reached over =
      ({ e with isAlive := false }, reached + 1,
        if totalEnemies ≤ reached + 1 then true else over) := by
    unfold UpdateEnemy
    simp [halive, hend]
  rw [hu]
  refine ⟨rfl, rfl, rfl, rfl, rfl, rfl, fun h => ?_, fun h => ?_⟩
  · simp [h]
  · simp [h]

theorem C6_path_completion_witness :
    (UpdateEnemy ratSqrt enemyPath goblinAtEnd (1 / 60) 20 19 false).1.isAlive = false ∧
      (UpdateEnemy ratSqrt enemyPath goblinAtEnd (1 / 60) 20 19 false).2.1 = 20 ∧
      (UpdateEnemy ratSqrt enemyPath goblinAtEnd (1 / 60) 20 19 false).2.2 = true := by
  have h := C6_path_completion ratSqrt enemyPath goblinAtEnd (1 / 60) 20 19 false
    (by decide) (by decide)
  exact ⟨h.2.1, h.2.2.2.2.2.1, h.2.2.2.2.2.2.1 (by decide)⟩

/-- C9. Movement determinism: for a living enemy whose target waypoint `path[i]` is at
computed distance `d > 0.1`, one `UpdateEnemy` call moves it to
`start + speed * dt * (target - start) / d`, keeps waypoint index, `isAlive`,
`enemiesReached` and `gameOver`, and the new position is the same for any other enemy and
counters that agree on position, index and speed. -/
theorem C9_movement_determinism (sqrtf : F → F) (path : List (Vector2 F)) (e : Enemy F)
    (dt : F) (totalEnemies reached : Int) (over : Bool) (target : Vector2 F)
    (halive : e.isAlive = true) (hidx : e.currentWaypoint < path.length)
    (htarget : path.get? e.currentWaypoint = some target)
    (hd : 1 / 10 < gridDist sqrtf target.x target.y e.row e.col) :
    (UpdateEnemy sqrtf path e dt totalEnemies reached over).1.row =
        e.row + e.speed * dt * (target.x - e.row) / gridDist sqrtf target.x target.y e.row e.col ∧
      (UpdateEnemy sqrtf path e dt totalEnemies reached over).1.col =
        e.col + e.speed * dt * (target.y - e.col) / gridDist sqrtf target.x target.y e.row e.col ∧
      (UpdateEnemy sqrtf path e dt totalEnemies reached over).1.currentWaypoint =
        e.currentWaypoint ∧
      (UpdateEnemy sqrtf path e dt totalEnemies reached over).1.isAlive = true ∧
      (UpdateEnemy sqrtf path e dt totalEnemies reached over).2.1 = reached ∧
      (UpdateEnemy sqrtf path e dt totalEnemies reached over).2.2 = over ∧
      ∀ (e2 : Enemy F) (total2 reached2 : Int) (over2 : Bool), e2.isAlive = true →
        e2.row = e.row → e2.col = e.col → e2.currentWaypoint = e.currentWaypoint →
        e2.speed = e.speed →
        (UpdateEnemy sqrtf path e2 dt total2 reached2 over2).1.row =
            (UpdateEnemy sqrtf path e dt totalEnemies reached over).1.row ∧
          (UpdateEnemy sqrtf path e2 dt total2 reached2 over2).1.col =
            (UpdateEnemy sqrtf path e dt totalEnemies reached over).1.col := by
  have hget : path.getD e.currentWaypoint ⟨0, 0⟩ = target := by
    rw [List.getD_eq_getElem?_getD, ← List.get?_eq_getElem?, htarget]; rfl
  have key : ∀ (e2 : Enemy F) (total2 reached2 : Int) (over2 : Bool), e2.isAlive = true →
      e2.row = e.row → e2.col = e.col → e2.currentWaypoint = e.currentWaypoint →
      e2.speed = e.speed →
      UpdateEnemy sqrtf path e2 dt total2 reached2 over2 =
        ({ e2 with
            row := e.row + (target.x - e.row) *
              (1 / gridDist sqrtf target.x target.y e.row e.col) * (e.speed * dt),
            col := e.col + (target.y - e.col) *
              (1 / gridDist sqrtf target.x target.y e.row e.col) * (e.speed * dt) },
          reached2, over2) := by
    intro e2 total2 reached2 over2 ha hr hc hw hs
    unfold UpdateEnemy
    have h1 : ¬ path.length ≤ e.currentWaypoint := not_le.mpr hidx
    have h2 : ¬ sqrtf ((target.x - e.row) * (target.x - e.row) +
        (target.y - e.col) * (target.y - e.col)) < 1 / 10 := not_lt.mpr (le_of_lt hd)
    simp only [ha, h1, hw, hget, hr, hc, hs, if_false, h2]
    simp [gridDist]
  have hself := key e totalEnemies reached over halive rfl rfl rfl rfl
  refine ⟨?_, ?_, ?_, ?_, ?_, ?_, ?_⟩
  · rw [hself]; simp only; ring
  · rw [hself]; simp only; ring
  · rw [hself]
  · rw [hself]; exact halive
  · rw [hself]
  · rw [hself]
  · intro e2 total2 reached2 over2 ha hr hc hw hs
    rw [key e2 total2 reached2 over2 ha hr hc hw hs, hself]
    exact ⟨rfl, rfl⟩

theorem C9_movement_determinism_witness :
    (UpdateEnemy ratSqrt enemyPath goblinAtStart (1 / 2) 20 10 false).1.row = 6 ∧
      (UpdateEnemy ratSqrt enemyPath goblinAtStart (1 / 2) 20 10 false).1.col = 2 := by
  have h := C9_movement_determinism ratSqrt enemyPath goblinAtStart (1 / 2) 20 10 false ⟨6, 10⟩
    (by decide) (by decide) (by decide!) (by decide!)
  refine ⟨?_, ?_⟩
  · rw [h.1]; decide!
  · rw [h.2.1]; decide!

/-! ## Defender projectiles (C4) -/

/-- The search loop either keeps its accumulator (no living enemy beats `closestDist`) or
returns the first living enemy of least distance, which beats `closestDist`. -/
theorem closestEnemyLoop_spec (sqrtf : F → F) (defender : Defender F) (es : List (Enemy F))
    (ce : Option (Enemy F)) (cd : F) :
    ((∀ x ∈ es, x.isAlive = true →
          ¬ gridDist sqrtf x.row x.col defender.row defender.col < cd) ∧
        closestEnemyLoop sqrtf defender es ce cd = ce) ∨
      ∃ pre e post, es = pre ++ e :: post ∧ e.isAlive = true ∧
        gridDist sqrtf e.row e.col defender.row defender.col < cd ∧
        closestEnemyLoop sqrtf defender es ce cd = some e ∧
        (∀ x ∈ pre, x.isAlive = true →
          gridDist sqrtf e.row e.col defender.row defender.col <
            gridDist sqrtf x.row x.col defender.row defender.col) ∧
        (∀ x ∈ post, x.isAlive = true →
          gridDist sqrtf e.row e.col defender.row defender.col ≤
            gridDist sqrtf x.row x.col defender.row defender.col) := by
  induction es generalizing ce cd with
  | nil => exact Or.inl ⟨by simp, rfl⟩
  | cons a es ih =>
    cases ha : a.isAlive with
    | false =>
      have hstep : closestEnemyLoop sqrtf defender (a :: es) ce cd =
          closestEnemyLoop sqrtf defender es ce cd := by
        simp [closestEnemyLoop, ha]
      rw [hstep]
      rcases ih ce cd with ⟨hno, hr⟩ | ⟨pre, e, post, hes, he, hlt, hr, hpre, hpost⟩
      · left
        refine ⟨?_, hr⟩
        intro x hx hxa
        rcases List.mem_cons.mp hx with rfl | hx
        · simp [ha] at hxa
        · exact hno x hx hxa
      · right
        refine ⟨a :: pre, e, post, by simp [hes], he, hlt, hr, ?_, hpost⟩
        intro x hx hxa
        rcases List.mem_cons.mp hx with rfl | hx
        · simp [ha] at hxa
        · exact hpre x hx hxa
    | true =>
      by_cases hlt : gridDist sqrtf a.row a.col defender.row defender.col < cd
      · have hstep : closestEnemyLoop sqrtf defender (a :: es) ce cd =
            closestEnemyLoop sqrtf defender es (some a)
              (gridDist sqrtf a.row a.col defender.row defender.col) := by
          simp [closestEnemyLoop, ha, hlt]
        rw [hstep]
        right
        rcases ih (some a) (gridDist sqrtf a.row a.col defender.row defender.col) with
          ⟨hno, hr⟩ | ⟨pre, e, post, hes, he, hlt2, hr, hpre, hpost⟩
        · exact ⟨[], a, es, rfl, ha, hlt, hr, by simp,
            fun x hx hxa => not_lt.mp (hno x hx hxa)⟩
        · refine ⟨a :: pre, e, post, by simp [hes], he, lt_trans hlt2 hlt, hr, ?_, hpost⟩
          intro x hx hxa
          rcases List.mem_cons.mp hx with rfl | hx
          · exact hlt2
          · exact hpre x hx hxa
      · have hstep : closestEnemyLoop sqrtf defender (a :: es) ce cd =
            closestEnemyLoop sqrtf defender es ce cd := by
          simp [closestEnemyLoop, ha, hlt]
        rw [hstep]
        rcases ih ce cd with ⟨hno, hr⟩ | ⟨pre, e, post, hes, he, hlt2, hr, hpre, hpost⟩
        · left
          refine ⟨?_, hr⟩
          intro x hx _
          rcases List.mem_cons.mp hx with rfl | hx
          · exact hlt
          · exact hno x hx ‹_›
        · right
          refine ⟨a :: pre, e, post, by simp [hes], he, hlt2, hr, ?_, hpost⟩
          intro x hx hxa
          rcases List.mem_cons.mp hx with rfl | hx
          · exact lt_of_lt_of_le hlt2 (not_lt.mp hlt)
          · exact hpre x hx hxa

/-- C10. Defender targeting: when the timer reaches the cooldown and some living enemy is
within the 999999 search bound, `UpdateDefender` appends exactly one bullet, aimed from the
defender's tile centre at the tile centre of a living enemy `e` of the list whose distance
to the defender is least among the living enemies: strictly less than that of every living
enemy before it in the list and at most that of every living enemy after it.  Enemies
that are not alive are never chosen. -/
theorem C10_defender_targeting (sqrtf : F → F) (defender : Defender F) (dt : F)
    (es : List (Enemy F)) (bullets : List (Bullet F))
    (hcool : defender.attackCooldown ≤ defender.attackTimer + dt)
    (hex : ∃ x ∈ es, x.isAlive = true ∧
      gridDist sqrtf x.row x.col defender.row defender.col < 999999) :
    ∃ pre e post, es = pre ++ e :: post ∧ e.isAlive = true ∧
      (UpdateDefender sqrtf defender dt es bullets).2 =
        bullets ++ [defenderBullet sqrtf defender e] ∧
      (defenderBullet sqrtf defender e).velocity =
        aimVelocity sqrtf (tileCenter defender.row defender.col) (tileCenter e.row e.col) ∧
      (∀ x ∈ pre, x.isAlive = true →
        gridDist sqrtf e.row e.col defender.row defender.col <
          gridDist sqrtf x.row x.col defender.row defender.col) ∧
      (∀ x ∈ post, x.isAlive = true →
        gridDist sqrtf e.row e.col defender.row defender.col ≤
          gridDist sqrtf x.row x.col defender.row defender.col) := by
  rcases closestEnemyLoop_spec sqrtf defender es none 999999 with
    ⟨hno, _⟩ | ⟨pre, e, post, hes, he, _, hr, hpre, hpost⟩
  · obtain ⟨x, hx, hxa, hxd⟩ := hex
    exact absurd hxd (hno x hx hxa)
  · refine ⟨pre, e, post, hes, he, ?_, rfl, hpre, hpost⟩
    unfold UpdateDefender
    simp [hcool, hr]

theorem C10_defender_targeting_witness :
    (UpdateDefender ratSqrt knightAt33 (1 / 60) fourEnemies []).2 =
        [⟨⟨112, 112⟩, ⟨0, 200⟩, true⟩] ∧
      ∃ pre e post, fourEnemies = pre ++ e :: post ∧ e.isAlive = true ∧
        (UpdateDefender ratSqrt knightAt33 (1 / 60) fourEnemies []).2 =
          [] ++ [defenderBullet ratSqrt knightAt33 e] ∧
        (defenderBullet ratSqrt knightAt33 e).velocity =
          aimVelocity ratSqrt (tileCenter knightAt33.row knightAt33.col)
            (tileCenter e.row e.col) ∧
        (∀ x ∈ pre, x.isAlive = true →
          gridDist ratSqrt e.row e.col knightAt33.row knightAt33.col <
            gridDist ratSqrt x.row x.col knightAt33.row knightAt33.col) ∧
        (∀ x ∈ post, x.isAlive = true →
          gridDist ratSqrt e.row e.col knightAt33.row knightAt33.col ≤
            gridDist ratSqrt x.row x.col knightAt33.row knightAt33.col) :=
  ⟨by decide!,
    C10_defender_targeting ratSqrt knightAt33 (1 / 60) fourEnemies [] (by decide!)
      ⟨{ (Enemy.new 2 EnemyType.ORC : Enemy ℚ) with row := 6, col := 3 }, by decide, by decide,
        by decide!⟩⟩

/-! ## The click handlers only touch gold, defenders and the selected type -/

theorem placeAt_eq (g : Game F) (r c : Int) :
    ∃ gold ds, placeAt g r c = { g with gold := gold, defenders := ds } := by
  unfold placeAt
  split_ifs
  · exact ⟨_, _, rfl⟩
  · exact ⟨g.gold, g.defenders, rfl⟩
  · exact ⟨g.gold, g.defenders, rfl⟩
  · exact ⟨g.gold, g.defenders, rfl⟩

theorem clickStep_eq [FloorRing F] (g : Game F) (click : Option (Vector2 F)) :
    ∃ gold ds t, clickStep g click =
      { g with gold := gold, defenders := ds, selectedDefenderType := t } := by
  cases click with
  | none => exact ⟨g.gold, g.defenders, g.selectedDefenderType, rfl⟩
  | some p =>
    rcases handleClick_eq_or g p with ⟨t, ht⟩ | ht
    · exact ⟨g.gold, g.defenders, t, ht⟩
    · obtain ⟨gold, ds, h⟩ := placeAt_eq g (toInt (p.y / (tileSize : F)))
        (toInt (p.x / (tileSize : F)))
      exact ⟨gold, ds, g.selectedDefenderType, by simp only [clickStep]; rw [ht, h]⟩

theorem refundStep_eq (g : Game F) (click : Option (Vector2 F)) :
    ∃ gold ds, refundStep g click = { g with gold := gold, defenders := ds } := by
  cases click with
  | none => exact ⟨g.gold, g.defenders, rfl⟩
  | some p =>
    simp only [refundStep, handleRefundClick]
    split_ifs
    · exact ⟨_, _, rfl⟩
    · exact ⟨g.gold, g.defenders, rfl⟩

@[simp]
theorem clickStep_enemies [FloorRing F] (g : Game F) (click : Option (Vector2 F)) :
    (clickStep g click).enemies = g.enemies := by
  obtain ⟨gold, ds, t, h⟩ := clickStep_eq g click
  rw [h]

@[simp]
theorem refundStep_enemies (g : Game F) (click : Option (Vector2 F)) :
    (refundStep g click).enemies = g.enemies := by
  obtain ⟨gold, ds, h⟩ := refundStep_eq g click
  rw [h]

@[simp]
theorem clickStep_enemyBullets [FloorRing F] (g : Game F) (click : Option (Vector2 F)) :
    (clickStep g click).enemyBullets = g.enemyBullets := by
  obtain ⟨gold, ds, t, h⟩ := clickStep_eq g click
  rw [h]

@[simp]
theorem refundStep_enemyBullets (g : Game F) (click : Option (Vector2 F)) :
    (refundStep g click).enemyBullets = g.enemyBullets := by
  obtain ⟨gold, ds, h⟩ := refundStep_eq g click
  rw [h]

@[simp]
theorem clickStep_bullets [FloorRing F] (g : Game F) (click : Option (Vector2 F)) :
    (clickStep g click).bullets = g.bullets := by
  obtain ⟨gold, ds, t, h⟩ := clickStep_eq g click
  rw [h]

@[simp]
theorem refundStep_bullets (g : Game F) (click : Option (Vector2 F)) :
    (refundStep g click).bullets = g.bullets := by
  obtain ⟨gold, ds, h⟩ := refundStep_eq g click
  rw [h]

@[simp]
theorem clickStep_spawnedEnemiesCount [FloorRing F] (g : Game F) (click : Option (Vector2 F)) :
    (clickStep g click).spawnedEnemiesCount = g.spawnedEnemiesCount := by
  obtain ⟨gold, ds, t, h⟩ := clickStep_eq g click
  rw [h]

@[simp]
theorem refundStep_spawnedEnemiesCount (g : Game F) (click : Option (Vector2 F)) :
    (refundStep g click).spawnedEnemiesCount = g.spawnedEnemiesCount := by
  obtain ⟨gold, ds, h⟩ := refundStep_eq g click
  rw [h]

@[simp]
theorem clickStep_totalEnemiesToSpawn [FloorRing F] (g : Game F) (click : Option (Vector2 F)) :
    (clickStep g click).totalEnemiesToSpawn = g.totalEnemiesToSpawn := by
  obtain ⟨gold, ds, t, h⟩ := clickStep_eq g click
  rw [h]

@[simp]
theorem refundStep_totalEnemiesToSpawn (g : Game F) (click : Option (Vector2 F)) :
    (refundStep g click).totalEnemiesToSpawn = g.totalEnemiesToSpawn := by
  obtain ⟨gold, ds, h⟩ := refundStep_eq g click
  rw [h]

@[simp]
theorem clickStep_enemiesReached [FloorRing F] (g : Game F) (click : Option (Vector2 F)) :
    (clickStep g click).enemiesReached = g.enemiesReached := by
  obtain ⟨gold, ds, t, h⟩ := clickStep_eq g click
  rw [h]

@[simp]
theorem refundStep_enemiesReached (g : Game F) (click : Option (Vector2 F)) :
    (refundStep g click).enemiesReached = g.enemiesReached := by
  obtain ⟨gold, ds, h⟩ := refundStep_eq g click
  rw [h]

@[simp]
theorem clickStep_gameOver [FloorRing F] (g : Game F) (click : Option (Vector2 F)) :
    (clickStep g click).gameOver = g.gameOver := by
  obtain ⟨gold, ds, t, h⟩ := clickStep_eq g click
  rw [h]

@[simp]
theorem refundStep_gameOver (g : Game F) (click : Option (Vector2 F)) :
    (refundStep g click).gameOver = g.gameOver := by
  obtain ⟨gold, ds, h⟩ := refundStep_eq g click
  rw [h]

@[simp]
theorem clickStep_enemyPathRC [FloorRing F] (g : Game F) (click : Option (Vector2 F)) :
    (clickStep g click).enemyPathRC = g.enemyPathRC := by
  obtain ⟨gold, ds, t, h⟩ := clickStep_eq g click
  rw [h]

@[simp]
theorem refundStep_enemyPathRC (g : Game F) (click : Option (Vector2 F)) :
    (refundStep g click).enemyPathRC = g.enemyPathRC := by
  obtain ⟨gold, ds, h⟩ := refundStep_eq g click
  rw [h]

@[simp]
theorem clickStep_screenWidth [FloorRing F] (g : Game F) (click : Option (Vector2 F)) :
    (clickStep g click).screenWidth = g.screenWidth := by
  obtain ⟨gold, ds, t, h⟩ := clickStep_eq g click
  rw [h]

@[simp]
theorem refundStep_screenWidth (g : Game F) (click : Option (Vector2 F)) :
    (refundStep g click).screenWidth = g.screenWidth := by
  obtain ⟨gold, ds, h⟩ := refundStep_eq g click
  rw [h]

@[simp]
theorem clickStep_screenHeight [FloorRing F] (g : Game F) (click : Option (Vector2 F)) :
    (clickStep g click).screenHeight = g.screenHeight := by
  obtain ⟨gold, ds, t, h⟩ := clickStep_eq g click
  rw [h]

@[simp]
theorem refundStep_screenHeight (g : Game F) (click : Option (Vector2 F)) :
    (refundStep g click).screenHeight = g.screenHeight := by
  obtain ⟨gold, ds, h⟩ := refundStep_eq g click
  rw [h]

@[simp]
theorem clickStep_spawnTimer [FloorRing F] (g : Game F) (click : Option (Vector2 F)) :
    (clickStep g click).spawnTimer = g.spawnTimer := by
  obtain ⟨gold, ds, t, h⟩ := clickStep_eq g click
  rw [h]

@[simp]
theorem refundStep_spawnTimer (g : Game F) (click : Option (Vector2 F)) :
    (refundStep g click).spawnTimer = g.spawnTimer := by
  obtain ⟨gold, ds, h⟩ := refundStep_eq g click
  rw [h]

@[simp]
theorem clickStep_spawnDelay [FloorRing F] (g : Game F) (click : Option (Vector2 F)) :
    (clickStep g click).spawnDelay = g.spawnDelay := by
  obtain ⟨gold, ds, t, h⟩ := clickStep_eq g click
  rw [h]

@[simp]
theorem refundStep_spawnDelay (g : Game F) (click : Option (Vector2 F)) :
    (refundStep g click).spawnDelay = g.spawnDelay := by
  obtain ⟨gold, ds, h⟩ := refundStep_eq g click
  rw [h]

@[simp]
theorem clickStep_map [FloorRing F] (g : Game F) (click : Option (Vector2 F)) :
    (clickStep g click).map = g.map := by
  obtain ⟨gold, ds, t, h⟩ := clickStep_eq g click
  rw [h]

@[simp]
theorem refundStep_map (g : Game F) (click : Option (Vector2 F)) :
    (refundStep g click).map = g.map := by
  obtain ⟨gold, ds, h⟩ := refundStep_eq g click
  rw [h]

/-! ## Enemy addresses are kept by every loop -/

theorem UpdateEnemy_id (sqrtf : F → F) (path : List (Vector2 F)) (e : Enemy F) (dt : F)
    (total reached : Int) (over : Bool) :
    (UpdateEnemy sqrtf path e dt total reached over).1.id = e.id ∧
      (UpdateEnemy sqrtf path e dt total reached over).1.hasActiveBullet = e.hasActiveBullet := by
  unfold UpdateEnemy
  dsimp only
  split_ifs <;> exact ⟨rfl, rfl⟩

theorem updateEnemiesLoop_tags (sqrtf : F → F) (path : List (Vector2 F)) (dt : F) (total : Int)
    (es : List (Enemy F)) (reached : Int) (over : Bool) :
    (updateEnemiesLoop sqrtf path dt total es reached over).1.map Enemy.tag =
      es.map Enemy.tag := by
  induction es generalizing reached over with
  | nil => rfl
  | cons e es ih =>
    simp only [updateEnemiesLoop, List.map_cons, ih]
    have h := UpdateEnemy_id sqrtf path e dt total reached over
    simp [Enemy.tag, h.1, h.2]

theorem hitEnemyLoop_tags (pos : Vector2 F) (es es1 : List (Enemy F))
    (h : hitEnemyLoop pos es = some es1) : es1.map Enemy.tag = es.map Enemy.tag := by
  induction es generalizing es1 with
  | nil => simp [hitEnemyLoop] at h
  | cons e es ih =>
    unfold hitEnemyLoop at h
    split_ifs at h with h1 h2
    · cases hr : hitEnemyLoop pos es with
      | none => simp [hr] at h
      | some r =>
        simp [hr] at h
        subst h
        simp [ih r hr]
    · simp at h
      subst h
      simp [Enemy.tag]
    · cases hr : hitEnemyLoop pos es with
      | none => simp [hr] at h
      | some r =>
        simp [hr] at h
        subst h
        simp [ih r hr]

theorem updateBulletsLoop_tags (dt : F) (sw sh : Int) (bs : List (Bullet F))
    (es : List (Enemy F)) (gold : F) :
    (updateBulletsLoop dt sw sh bs es gold).2.1.map Enemy.tag = es.map Enemy.tag := by
  induction bs generalizing es gold with
  | nil => rfl
  | cons b bs ih =>
    unfold updateBulletsLoop
    dsimp only
    split_ifs
    · exact ih es gold
    · exact ih es gold
    · cases hr : hitEnemyLoop (Vector2Add b.position (Vector2Scale b.velocity dt)) es with
      | none => exact ih es gold
      | some es1 =>
        dsimp only
        rw [ih es1 (gold + 50)]
        exact hitEnemyLoop_tags _ es es1 hr

omit [LinearOrderedField F] in
theorem sublist_ids_of_tags (es1 es : List (Enemy F))
    (h : (es1.map Enemy.tag).Sublist (es.map Enemy.tag)) :
    (es1.map (fun e => e.id)).Sublist (es.map (fun e => e.id)) := by
  have h2 := h.map Prod.fst
  simpa [List.map_map, Function.comp, Enemy.tag] using h2

theorem enemyShootingLoop_ids (sqrtf : F → F) (ds : List (Defender F)) (es : List (Enemy F))
    (ebs : List (EnemyBullet F)) :
    (enemyShootingLoop sqrtf ds es ebs).1.map (fun e => e.id) = es.map (fun e => e.id) := by
  induction es generalizing ebs with
  | nil => rfl
  | cons e es ih =>
    unfold enemyShootingLoop
    split_ifs
    · simp [ih]
    · simp [ih]
    · cases targetLoop sqrtf e 5 ds none 999999 with
      | none => simp [ih]
      | some t => simp [ih]

omit [LinearOrderedField F] in
theorem clearOwner_ids (owner : Option Nat) (es : List (Enemy F)) :
    (clearOwner owner es).map (fun e => e.id) = es.map (fun e => e.id) := by
  unfold clearOwner
  rw [List.map_map]
  apply List.map_congr_left
  intro e _
  simp only [Function.comp]
  split_ifs <;> rfl

theorem updateEnemyBulletsLoop_ids (dt : F) (sw sh : Int) (bs : List (EnemyBullet F))
    (es : List (Enemy F)) (ds : List (Defender F)) :
    (updateEnemyBulletsLoop dt sw sh bs es ds).2.1.map (fun e => e.id) =
      es.map (fun e => e.id) := by
  induction bs generalizing es ds with
  | nil => rfl
  | cons b bs ih =>
    unfold updateEnemyBulletsLoop
    dsimp only
    split_ifs
    · exact ih es ds
    · rw [ih, clearOwner_ids]
    · cases hitDefenderLoop (Vector2Add b.position (Vector2Scale b.velocity dt)) ds with
      | none => exact ih es ds
      | some ds1 =>
        dsimp only
        rw [ih, clearOwner_ids]

theorem moveStep_ids_sublist (sqrtf : F → F) (g : Game F) (dt : F) :
    ((moveStep sqrtf g dt).enemies.map Enemy.tag).Sublist (g.enemies.map Enemy.tag) := by
  unfold moveStep
  simp only []
  rw [← updateEnemiesLoop_tags sqrtf g.enemyPathRC dt g.totalEnemiesToSpawn g.enemies
    g.enemiesReached g.gameOver]
  exact (List.filter_sublist _).map _

theorem spawnStep_session (g : Game F) (dt : F) (rv : Int) (ad : Nat) :
    (spawnStep g dt rv ad).enemiesReached = g.enemiesReached ∧
      (spawnStep g dt rv ad).gameOver = g.gameOver ∧
      (spawnStep g dt rv ad).totalEnemiesToSpawn = g.totalEnemiesToSpawn ∧
      (spawnStep g dt rv ad).enemyPathRC = g.enemyPathRC := by
  unfold spawnStep
  dsimp only
  split_ifs <;> exact ⟨rfl, rfl, rfl, rfl⟩

theorem spawnStep_spawnedEnemiesCount (g : Game F) (dt : F) (rv : Int) (ad : Nat) :
    (spawnStep g dt rv ad).spawnedEnemiesCount =
      if g.spawnedEnemiesCount < g.totalEnemiesToSpawn ∧ g.spawnDelay ≤ g.spawnTimer + dt then
        g.spawnedEnemiesCount + 1
      else g.spawnedEnemiesCount := by
  unfold spawnStep
  dsimp only
  split_ifs <;> rfl

theorem frame_enemy_ids [FloorRing F] (sqrtf : F → F) (g : Game F) (inp : FrameInput F) :
    (frame sqrtf g inp).enemies.map (fun e => e.id) =
      (moveStep sqrtf (spawnStep g inp.deltaTime inp.randVal inp.addr) inp.deltaTime).enemies.map
        (fun e => e.id) := by
  simp only [frame, refundStep_enemies, UpdateEnemyBullets, UpdateBullets, UpdateEnemyShooting,
    defendersStep, updateEnemyBulletsLoop_ids, clickStep_enemies, enemyShootingLoop_ids]
  have h := updateBulletsLoop_tags (F := F)
  have h2 : ∀ (dt : F) (sw sh : Int) (bs : List (Bullet F)) (es : List (Enemy F)) (gold : F),
      (updateBulletsLoop dt sw sh bs es gold).2.1.map (fun e => e.id) =
        es.map (fun e => e.id) := by
    intro dt sw sh bs es gold
    have h3 := congrArg (List.map Prod.fst) (h dt sw sh bs es gold)
    simpa [List.map_map, Function.comp, Enemy.tag] using h3
  rw [h2, enemyShootingLoop_ids]

theorem frame_spawnedEnemiesCount [FloorRing F] (sqrtf : F → F) (g : Game F)
    (inp : FrameInput F) :
    (frame sqrtf g inp).spawnedEnemiesCount =
        (spawnStep g inp.deltaTime inp.randVal inp.addr).spawnedEnemiesCount ∧
      (frame sqrtf g inp).totalEnemiesToSpawn = g.totalEnemiesToSpawn := by
  constructor
  · simp [frame, UpdateEnemyBullets, UpdateBullets, UpdateEnemyShooting, defendersStep, moveStep]
  · simp only [frame, refundStep_totalEnemiesToSpawn, UpdateEnemyBullets, UpdateBullets,
      UpdateEnemyShooting, defendersStep, clickStep_totalEnemiesToSpawn, moveStep]
    exact (spawnStep_session g inp.deltaTime inp.randVal inp.addr).2.2.1

/-! ## Spawn cap (C8) -/

/-- C8. Spawn cap: `spawnedEnemiesCount <= totalEnemiesToSpawn` is preserved by every frame
and holds in every state reachable from the constructor state; and in a state with
`spawnedEnemiesCount = totalEnemiesToSpawn` a frame, whatever its `dt` and the accumulated
`spawnTimer`, leaves `spawnedEnemiesCount` unchanged and appends no enemy: the spawn step
leaves the enemy list as it is and the enemies after the frame are a sub-list (by handle)
of those before. -/
theorem C8_spawn_cap [FloorRing F] (sqrtf : F → F) (g : Game F) (inp : FrameInput F) :
    (g.spawnedEnemiesCount ≤ g.totalEnemiesToSpawn →
      (frame sqrtf g inp).spawnedEnemiesCount ≤ (frame sqrtf g inp).totalEnemiesToSpawn) ∧
    (Reachable sqrtf g → g.spawnedEnemiesCount ≤ g.totalEnemiesToSpawn) ∧
    (g.spawnedEnemiesCount = g.totalEnemiesToSpawn →
      (frame sqrtf g inp).spawnedEnemiesCount = g.spawnedEnemiesCount ∧
      (spawnStep g inp.deltaTime inp.randVal inp.addr).enemies = g.enemies ∧
      ((frame sqrtf g inp).enemies.map (fun e => e.id)).Sublist
        (g.enemies.map (fun e => e.id))) := by
  have hpres : ∀ (g : Game F) (inp : FrameInput F),
      g.spawnedEnemiesCount ≤ g.totalEnemiesToSpawn →
      (frame sqrtf g inp).spawnedEnemiesCount ≤ (frame sqrtf g inp).totalEnemiesToSpawn := by
    intro g inp h
    rw [(frame_spawnedEnemiesCount sqrtf g inp).1, (frame_spawnedEnemiesCount sqrtf g inp).2,
      spawnStep_spawnedEnemiesCount]
    split_ifs with hc
    · exact Int.add_one_le_iff.mpr hc.1
    · exact h
  refine ⟨hpres g inp, ?_, ?_⟩
  · intro hr
    induction hr with
    | init => simp [Game.init]
    | step g inp _ ih => exact hpres g inp ih
  · intro hcap
    have hs : spawnStep g inp.deltaTime inp.randVal inp.addr =
        { g with spawnTimer := g.spawnTimer + inp.deltaTime } := by
      unfold spawnStep
      simp [hcap]
    refine ⟨?_, ?_, ?_⟩
    · rw [(frame_spawnedEnemiesCount sqrtf g inp).1, hs]
    · rw [hs]
    · rw [frame_enemy_ids]
      have h := moveStep_ids_sublist sqrtf (spawnStep g inp.deltaTime inp.randVal inp.addr) inp.deltaTime
      rw [hs] at h ⊢
      exact sublist_ids_of_tags _ _ h

theorem C8_spawn_cap_witness :
    (frame ratSqrt atCap ⟨5, 0, 0, none⟩).spawnedEnemiesCount = 20 ∧
      (frame ratSqrt atCap ⟨5, 0, 0, none⟩).enemies.length ≤ 1 := by
  have h := (C8_spawn_cap ratSqrt atCap ⟨5, 0, 0, none⟩).2.2 (by decide)
  refine ⟨by rw [h.1]; decide, ?_⟩
  have hl := h.2.2.length_le
  simpa [atCap] using hl

/-! ## Game-over threshold (C5) -/

theorem updateEnemiesLoop_counts (sqrtf : F → F) (path : List (Vector2 F)) (dt : F)
    (total : Int) (es : List (Enemy F)) (reached : Int) (over : Bool) :
    (updateEnemiesLoop sqrtf path dt total es reached over).2.1 =
        reached + (arrivals path es : Int) ∧
      (updateEnemiesLoop sqrtf path dt total es reached over).2.2 =
        (over || decide (0 < arrivals path es ∧ total ≤ reached + (arrivals path es : Int))) := by
  induction es generalizing reached over with
  | nil => simp [updateEnemiesLoop, arrivals]
  | cons e es ih =>
    simp only [updateEnemiesLoop]
    cases ha : e.isAlive with
    | false =>
      have hu : UpdateEnemy sqrtf path e dt total reached over = (e, reached, over) := by
        simp [UpdateEnemy, ha]
      have hc : arrivals path (e :: es) = arrivals path es := by
        simp [arrivals, List.countP_cons, ha]
      rw [hu, hc]
      exact ih reached over
    | true =>
      by_cases hend : path.length ≤ e.currentWaypoint
      · have hu : UpdateEnemy sqrtf path e dt total reached over =
            ({ e with isAlive := false }, reached + 1,
              if total ≤ reached + 1 then true else over) := by
          simp [UpdateEnemy, ha, hend]
        have hc : arrivals path (e :: es) = arrivals path es + 1 := by
          simp [arrivals, List.countP_cons, ha, hend]
        rw [hu, hc]
        obtain ⟨h1, h2⟩ := ih (reached + 1) (if total ≤ reached + 1 then true else over)
        refine ⟨?_, ?_⟩
        · rw [h1]; push_cast; ring
        · rw [h2]
          have hnn : (0 : Int) ≤ (arrivals path es : Int) := Int.natCast_nonneg _
          by_cases ht : total ≤ reached + 1
          · have : total ≤ reached + ((arrivals path es : Int) + 1) := by omega
            simp [ht, this]
          · cases over with
            | true => simp
            | false =>
              simp only [ht, if_false, Bool.false_or, decide_eq_decide]
              push_cast
              constructor
              · rintro ⟨_, h⟩
                exact ⟨Nat.succ_pos _, by omega⟩
              · rintro ⟨_, h⟩
                refine ⟨?_, by omega⟩
                by_contra hz
                have : arrivals path es = 0 := by omega
                rw [this] at h
                simp at h
                exact ht h
      · have hu : (UpdateEnemy sqrtf path e dt total reached over).2 = (reached, over) := by
          unfold UpdateEnemy
          simp only [ha, hend, if_false, Bool.true_eq_false]
          split_ifs <;> rfl
        have hc : arrivals path (e :: es) = arrivals path es := by
          simp [arrivals, List.countP_cons, ha, hend]
        rw [hc]
        have h1 : (UpdateEnemy sqrtf path e dt total reached over).2.1 = reached := by rw [hu]
        have h2 : (UpdateEnemy sqrtf path e dt total reached over).2.2 = over := by rw [hu]
        rw [h1, h2]
        exact ih reached over

theorem frame_session [FloorRing F] (sqrtf : F → F) (g : Game F) (inp : FrameInput F) :
    (frame sqrtf g inp).enemiesReached = g.enemiesReached + (frameArrivals g inp : Int) ∧
      (frame sqrtf g inp).gameOver =
        (g.gameOver || decide (0 < frameArrivals g inp ∧
          g.totalEnemiesToSpawn ≤ g.enemiesReached + (frameArrivals g inp : Int))) ∧
      (frame sqrtf g inp).totalEnemiesToSpawn = g.totalEnemiesToSpawn ∧
      (frame sqrtf g inp).enemyPathRC = g.enemyPathRC := by
  obtain ⟨s1, s2, s3, s4⟩ := spawnStep_session g inp.deltaTime inp.randVal inp.addr
  have hc := updateEnemiesLoop_counts sqrtf g.enemyPathRC inp.deltaTime g.totalEnemiesToSpawn
    (spawnStep g inp.deltaTime inp.randVal inp.addr).enemies g.enemiesReached g.gameOver
  refine ⟨?_, ?_, (frame_spawnedEnemiesCount sqrtf g inp).2, ?_⟩
  · simp only [frame, refundStep_enemiesReached, UpdateEnemyBullets, UpdateBullets,
      UpdateEnemyShooting, defendersStep, clickStep_enemiesReached, moveStep, s1, s2, s3, s4]
    exact hc.1
  · simp only [frame, refundStep_gameOver, UpdateEnemyBullets, UpdateBullets,
      UpdateEnemyShooting, defendersStep, clickStep_gameOver, moveStep, s1, s2, s3, s4]
    exact hc.2
  · simp only [frame, refundStep_enemyPathRC, UpdateEnemyBullets, UpdateBullets,
      UpdateEnemyShooting, defendersStep, clickStep_enemyPathRC, moveStep, s4]

theorem run_session [FloorRing F] (sqrtf : F → F) (inps : List (FrameInput F)) (g : Game F)
    (hg : g.gameOver = true ↔ g.totalEnemiesToSpawn ≤ g.enemiesReached) :
    (run sqrtf g inps).enemiesReached = g.enemiesReached + (completed sqrtf g inps : Int) ∧
      ((run sqrtf g inps).gameOver = true ↔
        g.totalEnemiesToSpawn ≤ (run sqrtf g inps).enemiesReached) := by
  induction inps generalizing g with
  | nil => simpa [run, completed] using hg
  | cons inp inps ih =>
    obtain ⟨f1, f2, f3, _⟩ := frame_session sqrtf g inp
    have hnn : (0 : Int) ≤ (frameArrivals g inp : Int) := Int.natCast_nonneg _
    have hg1 : (frame sqrtf g inp).gameOver = true ↔
        (frame sqrtf g inp).totalEnemiesToSpawn ≤ (frame sqrtf g inp).enemiesReached := by
      rw [f1, f2, f3]
      cases hov : g.gameOver with
      | true =>
        have := hg.mp hov
        simp only [Bool.true_or, true_iff]
        omega
      | false =>
        have hlt : ¬ g.totalEnemiesToSpawn ≤ g.enemiesReached := fun h => by
          have := hg.mpr h
          rw [hov] at this
          exact Bool.false_ne_true this
        simp only [Bool.false_or, decide_eq_true_eq]
        constructor
        · exact fun h => h.2
        · intro h
          refine ⟨?_, h⟩
          by_contra hz
          have : frameArrivals g inp = 0 := by omega
          rw [this] at h
          simp at h
          exact hlt h
    obtain ⟨i1, i2⟩ := ih (frame sqrtf g inp) hg1
    have hrun : run sqrtf g (inp :: inps) = run sqrtf (frame sqrtf g inp) inps := rfl
    rw [hrun]
    refine ⟨?_, ?_⟩
    · rw [i1, f1]
      simp only [completed]
      push_cast
      ring
    · rw [i2, f3]

/-- C5 (what the code does). In every run from the constructor state the counter
`enemiesReached` is 10 plus the number of enemies that have completed the path, and
`gameOver` is true exactly when at least 10 enemies have completed it.  In the undefended
session of frames of half a time-unit, `gameOver` is false after 75 frames, with 9 enemies
through, and true after 76 frames, with 10 enemies through: ten short of the 20 the
claim requires. -/
theorem C5_gameOver_after_ten_arrivals :
    (∀ (sqrtf : ℚ → ℚ) (inps : List (FrameInput ℚ)),
      (run sqrtf (Game.init : Game ℚ) inps).enemiesReached =
          10 + (completed sqrtf (Game.init : Game ℚ) inps : Int) ∧
        ((run sqrtf (Game.init : Game ℚ) inps).gameOver = true ↔
          10 ≤ completed sqrtf (Game.init : Game ℚ) inps)) ∧
    completed ratSqrt (Game.init : Game ℚ) (undefended 75) = 9 ∧
    (run ratSqrt (Game.init : Game ℚ) (undefended 75)).gameOver = false ∧
    completed ratSqrt (Game.init : Game ℚ) (undefended 76) = 10 ∧
    (run ratSqrt (Game.init : Game ℚ) (undefended 76)).gameOver = true ∧
    (run ratSqrt (Game.init : Game ℚ) (undefended 76)).totalEnemiesToSpawn = 20 := by
  have hgen : ∀ (sqrtf : ℚ → ℚ) (inps : List (FrameInput ℚ)),
      (run sqrtf (Game.init : Game ℚ) inps).enemiesReached =
          10 + (completed sqrtf (Game.init : Game ℚ) inps : Int) ∧
        ((run sqrtf (Game.init : Game ℚ) inps).gameOver = true ↔
          10 ≤ completed sqrtf (Game.init : Game ℚ) inps) := by
    intro sqrtf inps
    obtain ⟨h1, h2⟩ := run_session sqrtf inps (Game.init : Game ℚ) (by simp [Game.init])
    refine ⟨by rw [h1]; rfl, ?_⟩
    rw [h2, h1]
    simp only [Game.init]
    omega
  have r75 : (run ratSqrt (Game.init : Game ℚ) (undefended 75)).enemiesReached = 19 := by
    decide!
  have r76 : (run ratSqrt (Game.init : Game ℚ) (undefended 76)).enemiesReached = 20 := by
    decide!
  have c75 := (hgen ratSqrt (undefended 75)).1
  have c76 := (hgen ratSqrt (undefended 76)).1
  rw [r75] at c75
  rw [r76] at c76
  refine ⟨hgen, by omega, by decide!, by omega, by decide!, by decide!⟩

/-! ## One shot per enemy and the owner pointer (C7) -/

omit [LinearOrderedField F] in
theorem ownedActive_cons (b : EnemyBullet F) (bs : List (EnemyBullet F)) (i : Nat) :
    ownedActive (b :: bs) i =
      ownedActive bs i + if (b.active = true ∧ b.owner = some i) then 1 else 0 := by
  unfold ownedActive
  rw [List.countP_cons]
  simp

omit [LinearOrderedField F] in
theorem ownedActive_append (as bs : List (EnemyBullet F)) (i : Nat) :
    ownedActive (as ++ bs) i = ownedActive as i + ownedActive bs i := by
  unfold ownedActive
  rw [List.countP_append]

omit [LinearOrderedField F] in
theorem ownedActive_filter_active (bs : List (EnemyBullet F)) (i : Nat) :
    ownedActive (bs.filter (fun b => b.active)) i = ownedActive bs i := by
  induction bs with
  | nil => rfl
  | cons b bs ih =>
    cases hb : b.active with
    | false => simp [List.filter_cons, hb, ownedActive_cons, ih]
    | true => simp [List.filter_cons, hb, ownedActive_cons, ih]

omit [LinearOrderedField F] in
theorem oneShotInv_of_tags_sublist (es1 es : List (Enemy F)) (ebs : List (EnemyBullet F))
    (h : (es1.map Enemy.tag).Sublist (es.map Enemy.tag))
    (hinv : OneShotInv es ebs) : OneShotInv es1 ebs := by
  obtain ⟨hnd, hcnt⟩ := hinv
  have hmem : ∀ e1 ∈ es1, ∃ e ∈ es, e.id = e1.id ∧ e.hasActiveBullet = e1.hasActiveBullet := by
    intro e1 he1
    have h1 : Enemy.tag e1 ∈ es.map Enemy.tag := h.subset (List.mem_map_of_mem _ he1)
    obtain ⟨e, he, hte⟩ := List.mem_map.mp h1
    refine ⟨e, he, ?_, ?_⟩
    · exact congrArg Prod.fst hte
    · exact congrArg Prod.snd hte
  refine ⟨(sublist_ids_of_tags es1 es h).nodup hnd, ?_⟩
  intro e1 he1
  obtain ⟨e, he, hid, hfl⟩ := hmem e1 he1
  rw [← hid, ← hfl]
  exact hcnt e he

theorem spawnStep_oneShot (g : Game F) (dt : F) (rv : Int) (ad : Nat)
    (hinv : OneShotInv g.enemies g.enemyBullets)
    (hnew : spawnDue g dt → unusedAddr g ad) :
    OneShotInv (spawnStep g dt rv ad).enemies (spawnStep g dt rv ad).enemyBullets := by
  obtain ⟨hnd, hcnt⟩ := hinv
  unfold spawnStep
  dsimp only
  by_cases hc : g.spawnedEnemiesCount < g.totalEnemiesToSpawn ∧
      g.spawnDelay ≤ g.spawnTimer + dt
  · rw [if_pos hc]
    dsimp only
    obtain ⟨hfree, hzero⟩ := hnew hc
    have hid : ∀ t : EnemyType, (Enemy.new ad t : Enemy F).id = ad ∧
        (Enemy.new ad t : Enemy F).hasActiveBullet = false := by
      intro t
      unfold Enemy.new
      dsimp only
      split_ifs <;> exact ⟨rfl, rfl⟩
    refine ⟨?_, ?_⟩
    · rw [List.map_append, List.nodup_append]
      refine ⟨hnd, by simp, ?_⟩
      intro a ha hb
      simp only [List.map_cons, List.map_nil, List.mem_singleton] at hb
      rw [hb, (hid _).1] at ha
      exact hfree ha
    · intro e he
      rcases List.mem_append.mp he with he | he
      · exact hcnt e he
      · simp only [List.mem_singleton] at he
        rw [he]
        show ownedActive g.enemyBullets (Enemy.new ad _ : Enemy F).id =
          if (Enemy.new ad _ : Enemy F).hasActiveBullet = true then 1 else 0
        rw [(hid _).1, (hid _).2]
        simpa using hzero
  · rw [if_neg hc]
    exact ⟨hnd, hcnt⟩

theorem moveStep_oneShot (sqrtf : F → F) (g : Game F) (dt : F)
    (hinv : OneShotInv g.enemies g.enemyBullets) :
    OneShotInv (moveStep sqrtf g dt).enemies (moveStep sqrtf g dt).enemyBullets :=
  oneShotInv_of_tags_sublist _ _ _ (moveStep_ids_sublist sqrtf g dt) hinv

theorem enemyShootingLoop_counts (sqrtf : F → F) (ds : List (Defender F)) (es : List (Enemy F))
    (ebs : List (EnemyBullet F)) (hnd : (es.map (fun e => e.id)).Nodup) :
    (∀ i, i ∉ es.map (fun e => e.id) →
        ownedActive (enemyShootingLoop sqrtf ds es ebs).2 i = ownedActive ebs i) ∧
      (∀ e1 ∈ (enemyShootingLoop sqrtf ds es ebs).1, ∃ e ∈ es, e1.id = e.id ∧
        ownedActive (enemyShootingLoop sqrtf ds es ebs).2 e.id +
            (if e.hasActiveBullet = true then 1 else 0) =
          ownedActive ebs e.id + (if e1.hasActiveBullet = true then 1 else 0)) := by
  induction es generalizing ebs with
  | nil =>
    refine ⟨fun i _ => rfl, ?_⟩
    intro e1 he1
    simp [enemyShootingLoop] at he1
  | cons e es ih =>
    have hnotin : e.id ∉ es.map (fun e => e.id) := (List.nodup_cons.mp hnd).1
    have hnd1 : (es.map (fun e => e.id)).Nodup := (List.nodup_cons.mp hnd).2
    -- the two shapes of one iteration: the enemy is kept as it is, or it fires
    have keep : enemyShootingLoop sqrtf ds (e :: es) ebs =
          (e :: (enemyShootingLoop sqrtf ds es ebs).1, (enemyShootingLoop sqrtf ds es ebs).2) →
        (∀ i, i ∉ (e :: es).map (fun e => e.id) →
          ownedActive (enemyShootingLoop sqrtf ds (e :: es) ebs).2 i = ownedActive ebs i) ∧
        (∀ e1 ∈ (enemyShootingLoop sqrtf ds (e :: es) ebs).1, ∃ e0 ∈ e :: es, e1.id = e0.id ∧
          ownedActive (enemyShootingLoop sqrtf ds (e :: es) ebs).2 e0.id +
              (if e0.hasActiveBullet = true then 1 else 0) =
            ownedActive ebs e0.id + (if e1.hasActiveBullet = true then 1 else 0)) := by
      intro hstep
      rw [hstep]
      obtain ⟨ia, ib⟩ := ih ebs hnd1
      refine ⟨?_, ?_⟩
      · intro i hi
        exact ia i (fun h => hi (List.mem_cons_of_mem _ h))
      · intro e1 he1
        rcases List.mem_cons.mp he1 with rfl | he1
        · exact ⟨e1, List.mem_cons_self _ _, rfl, by rw [ia _ hnotin]⟩
        · obtain ⟨e0, he0, hid, hc⟩ := ib e1 he1
          exact ⟨e0, List.mem_cons_of_mem _ he0, hid, hc⟩
    by_cases ha : e.isAlive = false
    · apply keep
      simp [enemyShootingLoop, ha]
    · by_cases hb : e.hasActiveBullet = true
      · apply keep
        simp [enemyShootingLoop, ha, hb]
      · cases ht : targetLoop sqrtf e 5 ds none 999999 with
        | none =>
          apply keep
          simp [enemyShootingLoop, ha, hb, ht]
        | some target =>
          have hstep : enemyShootingLoop sqrtf ds (e :: es) ebs =
              ({ e with hasActiveBullet := true } ::
                  (enemyShootingLoop sqrtf ds es (ebs ++ [enemyBulletAt sqrtf e target])).1,
                (enemyShootingLoop sqrtf ds es (ebs ++ [enemyBulletAt sqrtf e target])).2) := by
            simp [enemyShootingLoop, ha, hb, ht]
          rw [hstep]
          have hown : ∀ i, ownedActive (ebs ++ [enemyBulletAt sqrtf e target]) i =
              ownedActive ebs i + if e.id = i then 1 else 0 := by
            intro i
            rw [ownedActive_append, ownedActive_cons]
            simp [ownedActive, enemyBulletAt]
          obtain ⟨ia, ib⟩ := ih (ebs ++ [enemyBulletAt sqrtf e target]) hnd1
          refine ⟨?_, ?_⟩
          · intro i hi
            have hne : e.id ≠ i := fun h => hi (by simp [h])
            show ownedActive (enemyShootingLoop sqrtf ds es
              (ebs ++ [enemyBulletAt sqrtf e target])).2 i = ownedActive ebs i
            rw [ia i (fun h => hi (List.mem_cons_of_mem _ h)), hown, if_neg hne]
            rfl
          · intro e1 he1
            rcases List.mem_cons.mp he1 with rfl | he1
            · refine ⟨e, List.mem_cons_self _ _, rfl, ?_⟩
              show ownedActive (enemyShootingLoop sqrtf ds es
                (ebs ++ [enemyBulletAt sqrtf e target])).2 e.id + _ = _
              rw [ia _ hnotin, hown]
              simp [hb]
            · obtain ⟨e0, he0, hid, hc⟩ := ib e1 he1
              refine ⟨e0, List.mem_cons_of_mem _ he0, hid, ?_⟩
              have hne : e.id ≠ e0.id := fun h =>
                hnotin (h ▸ List.mem_map_of_mem (fun e => e.id) he0)
              show ownedActive (enemyShootingLoop sqrtf ds es
                (ebs ++ [enemyBulletAt sqrtf e target])).2 e0.id + _ = _
              rw [hc, hown, if_neg hne]
              rfl

theorem UpdateEnemyShooting_oneShot (sqrtf : F → F) (g : Game F)
    (hinv : OneShotInv g.enemies g.enemyBullets) :
    OneShotInv (UpdateEnemyShooting sqrtf g).enemies
      (UpdateEnemyShooting sqrtf g).enemyBullets := by
  obtain ⟨hnd, hcnt⟩ := hinv
  obtain ⟨_, hb⟩ := enemyShootingLoop_counts sqrtf g.defenders g.enemies g.enemyBullets hnd
  have hids := enemyShootingLoop_ids sqrtf g.defenders g.enemies g.enemyBullets
  unfold UpdateEnemyShooting
  dsimp only
  refine ⟨by rw [hids]; exact hnd, ?_⟩
  intro e1 he1
  obtain ⟨e, he, hid, hc⟩ := hb e1 he1
  rw [hcnt e he] at hc
  rw [hid]
  omega

omit [LinearOrderedField F] in
theorem mem_clearOwner (owner : Option Nat) (es : List (Enemy F)) (e1 : Enemy F)
    (h : e1 ∈ clearOwner owner es) :
    ∃ e ∈ es, e1.id = e.id ∧
      ((owner = some e.id ∧ e1.hasActiveBullet = false) ∨
        (owner ≠ some e.id ∧ e1.hasActiveBullet = e.hasActiveBullet)) := by
  unfold clearOwner at h
  obtain ⟨e, he, rfl⟩ := List.mem_map.mp h
  refine ⟨e, he, ?_, ?_⟩
  · split_ifs <;> rfl
  · by_cases ho : owner = some e.id
    · left
      exact ⟨ho, by rw [if_pos ho]⟩
    · right
      exact ⟨ho, by rw [if_neg ho]⟩

theorem updateEnemyBulletsLoop_counts (dt : F) (sw sh : Int) (bs : List (EnemyBullet F))
    (es : List (Enemy F)) (ds : List (Defender F)) (c : Nat → Nat)
    (h : ∀ e ∈ es, c e.id + ownedActive bs e.id = if e.hasActiveBullet = true then 1 else 0) :
    ∀ e1 ∈ (updateEnemyBulletsLoop dt sw sh bs es ds).2.1,
      c e1.id + ownedActive (updateEnemyBulletsLoop dt sw sh bs es ds).1 e1.id =
        if e1.hasActiveBullet = true then 1 else 0 := by
  induction bs generalizing es ds c with
  | nil => exact h
  | cons b bs ih =>
    -- a bullet that is deactivated: the owner flag is cleared, the bullet no longer counts
    have spent : ∀ (pos : Vector2 F) (ds1 : List (Defender F)), b.active = true →
        ∀ e1 ∈ (updateEnemyBulletsLoop dt sw sh bs (clearOwner b.owner es) ds1).2.1,
          c e1.id + ownedActive
              ({ b with position := pos, active := false } ::
                (updateEnemyBulletsLoop dt sw sh bs (clearOwner b.owner es) ds1).1) e1.id =
            if e1.hasActiveBullet = true then 1 else 0 := by
      intro pos ds1 hact e1 he1
      rw [ownedActive_cons]
      simp only [Bool.false_eq_true, false_and, if_false, Nat.add_zero]
      refine ih (clearOwner b.owner es) ds1 c ?_ e1 he1
      intro e2 he2
      obtain ⟨e, he, hid, hcase⟩ := mem_clearOwner b.owner es e2 he2
      have hh := h e he
      rw [ownedActive_cons] at hh
      rw [hid]
      rcases hcase with ⟨ho, hf⟩ | ⟨ho, hf⟩
      · rw [hf]
        simp only [hact, ho, and_self, if_true] at hh
        split_ifs at hh <;> simp <;> omega
      · rw [hf]
        simp only [ho, and_false, if_false, Nat.add_zero] at hh
        exact hh
    unfold updateEnemyBulletsLoop
    dsimp only
    by_cases hact : b.active = false
    · rw [if_pos hact]
      intro e1 he1
      rw [ownedActive_cons]
      simp only [hact, Bool.false_eq_true, false_and, if_false, Nat.add_zero]
      refine ih es ds c ?_ e1 he1
      intro e he
      have hh := h e he
      rw [ownedActive_cons] at hh
      simpa [hact] using hh
    · rw [if_neg hact]
      have hact1 : b.active = true := by simpa using hact
      by_cases hout : outOfField (Vector2Add b.position (Vector2Scale b.velocity dt)) sw sh
      · rw [if_pos hout]
        exact spent _ ds hact1
      · rw [if_neg hout]
        cases hitDefenderLoop (Vector2Add b.position (Vector2Scale b.velocity dt)) ds with
        | some ds1 => exact spent _ ds1 hact1
        | none =>
          dsimp only
          intro e1 he1
          rw [ownedActive_cons]
          have key := ih es ds (fun i => c i + if (b.active = true ∧ b.owner = some i) then 1 else 0)
            (by
              intro e he
              have hh := h e he
              rw [ownedActive_cons] at hh
              dsimp only
              omega) e1 he1
          dsimp only at key ⊢
          omega

theorem UpdateEnemyBullets_oneShot (g : Game F) (dt : F) (sw sh : Int)
    (hinv : OneShotInv g.enemies g.enemyBullets) :
    OneShotInv (UpdateEnemyBullets g dt sw sh).enemies
      (UpdateEnemyBullets g dt sw sh).enemyBullets := by
  obtain ⟨hnd, hcnt⟩ := hinv
  have hids := updateEnemyBulletsLoop_ids dt sw sh g.enemyBullets g.enemies g.defenders
  have hc := updateEnemyBulletsLoop_counts dt sw sh g.enemyBullets g.enemies g.defenders
    (fun _ => 0) (by intro e he; simpa using hcnt e he)
  unfold UpdateEnemyBullets
  dsimp only
  refine ⟨by rw [hids]; exact hnd, ?_⟩
  intro e1 he1
  rw [ownedActive_filter_active]
  simpa using hc e1 he1

theorem UpdateBullets_oneShot (g : Game F) (dt : F) (sw sh : Int)
    (hinv : OneShotInv g.enemies g.enemyBullets) :
    OneShotInv (UpdateBullets g dt sw sh).enemies (UpdateBullets g dt sw sh).enemyBullets := by
  refine oneShotInv_of_tags_sublist _ _ _ ?_ hinv
  unfold UpdateBullets
  dsimp only
  rw [updateBulletsLoop_tags]

theorem combatStep_oneShot [FloorRing F] (sqrtf : F → F) (g : Game F) (inp : FrameInput F)
    (hinv : OneShotInv g.enemies g.enemyBullets)
    (hnew : spawnDue g inp.deltaTime → unusedAddr g inp.addr) :
    OneShotInv (combatStep sqrtf g inp).enemies (combatStep sqrtf g inp).enemyBullets := by
  have h1 := spawnStep_oneShot g inp.deltaTime inp.randVal inp.addr hinv hnew
  have h2 := moveStep_oneShot sqrtf _ inp.deltaTime h1
  have h3 : OneShotInv (clickStep (moveStep sqrtf (spawnStep g inp.deltaTime inp.randVal
      inp.addr) inp.deltaTime) inp.click).enemies (clickStep (moveStep sqrtf
      (spawnStep g inp.deltaTime inp.randVal inp.addr) inp.deltaTime) inp.click).enemyBullets := by
    rw [clickStep_enemies, clickStep_enemyBullets]
    exact h2
  have h4 : OneShotInv (defendersStep sqrtf (clickStep (moveStep sqrtf
      (spawnStep g inp.deltaTime inp.randVal inp.addr) inp.deltaTime) inp.click)
      inp.deltaTime).enemies (defendersStep sqrtf (clickStep (moveStep sqrtf
      (spawnStep g inp.deltaTime inp.randVal inp.addr) inp.deltaTime) inp.click)
      inp.deltaTime).enemyBullets := h3
  have h5 := UpdateEnemyShooting_oneShot sqrtf _ h4
  have h6 := UpdateBullets_oneShot _ inp.deltaTime
    (UpdateEnemyShooting sqrtf (defendersStep sqrtf (clickStep (moveStep sqrtf
      (spawnStep g inp.deltaTime inp.randVal inp.addr) inp.deltaTime) inp.click)
      inp.deltaTime)).screenWidth
    (UpdateEnemyShooting sqrtf (defendersStep sqrtf (clickStep (moveStep sqrtf
      (spawnStep g inp.deltaTime inp.randVal inp.addr) inp.deltaTime) inp.click)
      inp.deltaTime)).screenHeight h5
  exact UpdateEnemyBullets_oneShot _ inp.deltaTime _ _ h6

theorem frame_oneShot [FloorRing F] (sqrtf : F → F) (g : Game F) (inp : FrameInput F)
    (hinv : OneShotInv g.enemies g.enemyBullets)
    (hnew : spawnDue g inp.deltaTime → unusedAddr g inp.addr) :
    OneShotInv (frame sqrtf g inp).enemies (frame sqrtf g inp).enemyBullets := by
  have h := combatStep_oneShot sqrtf g inp hinv hnew
  have he : (frame sqrtf g inp).enemies = (combatStep sqrtf g inp).enemies := by
    unfold frame combatStep
    dsimp only
    rw [refundStep_enemies]
  have hb : (frame sqrtf g inp).enemyBullets = (combatStep sqrtf g inp).enemyBullets := by
    unfold frame combatStep
    dsimp only
    rw [refundStep_enemyBullets]
  rw [he, hb]
  exact h

theorem run_oneShot [FloorRing F] (sqrtf : F → F) (inps : List (FrameInput F)) (g : Game F)
    (hinv : OneShotInv g.enemies g.enemyBullets) (hnew : noStaleAddr sqrtf g inps) :
    OneShotInv (run sqrtf g inps).enemies (run sqrtf g inps).enemyBullets := by
  induction inps generalizing g with
  | nil => exact hinv
  | cons inp inps ih => exact ih _ (frame_oneShot sqrtf g inp hinv hnew.1) hnew.2

theorem reachable_run [FloorRing F] (sqrtf : F → F) (inps : List (FrameInput F)) (g : Game F)
    (hg : Reachable sqrtf g) : Reachable sqrtf (run sqrtf g inps) := by
  induction inps generalizing g with
  | nil => exact hg
  | cons inp inps ih => exact ih _ (Reachable.step g inp hg)

/-- One shot per enemy when no address in use is given out again: after every session from
the constructor state in which `new Enemy` only returns unused addresses, every enemy in
the store owns at most one active bullet of the enemy-bullet store, and its flag
`hasActiveBullet` is set exactly when it owns exactly one. -/
theorem one_shot_without_stale_address [FloorRing F] (sqrtf : F → F)
    (inps : List (FrameInput F)) (hnew : noStaleAddr sqrtf (Game.init : Game F) inps) :
    ∀ e ∈ (run sqrtf (Game.init : Game F) inps).enemies,
      ownedActive (run sqrtf (Game.init : Game F) inps).enemyBullets e.id ≤ 1 ∧
        (e.hasActiveBullet = true ↔
          ownedActive (run sqrtf (Game.init : Game F) inps).enemyBullets e.id = 1) := by
  intro e he
  have hinit : OneShotInv (Game.init : Game F).enemies (Game.init : Game F).enemyBullets :=
    ⟨List.nodup_nil, by simp [Game.init]⟩
  have h := (run_oneShot sqrtf inps Game.init hinit hnew).2 e he
  by_cases hb : e.hasActiveBullet = true
  · rw [if_pos hb] at h
    exact ⟨by rw [h], fun _ => h, fun _ => hb⟩
  · rw [if_neg hb] at h
    exact ⟨by rw [h]; exact Nat.zero_le _, fun h1 => absurd h1 hb,
      fun h1 => by rw [h] at h1; cases h1⟩

theorem one_shot_without_stale_address_skirmish :
    noStaleAddr ratSqrt (Game.init : Game ℚ) skirmish ∧
      ((run ratSqrt (Game.init : Game ℚ) skirmish).enemies.map Enemy.tag) = [(2, true)] ∧
      ∀ e ∈ (run ratSqrt (Game.init : Game ℚ) skirmish).enemies,
        ownedActive (run ratSqrt (Game.init : Game ℚ) skirmish).enemyBullets e.id ≤ 1 ∧
          (e.hasActiveBullet = true ↔
            ownedActive (run ratSqrt (Game.init : Game ℚ) skirmish).enemyBullets e.id = 1) :=
  ⟨by decide!, by decide!, one_shot_without_stale_address ratSqrt skirmish (by decide!)⟩

/-- C7 (what the code does). The owner of an enemy bullet is a pointer, and the pointer
outlives the enemy.  In the session `addressReuse` from the constructor state the first
goblin, at address 0, fires in frame 2, is killed in frame 3 and is erased and deleted in
frame 4, while its bullet is still active and still holds address 0.  The enemy store is
then empty, so address 0 is free, and `new Enemy` returns it again for the second goblin
in frame 5.  In frame 6 the second goblin fires and the first goblin's bullet leaves the
field: the write through its `owner` clears the flag of the second goblin, which is left
with the flag not set and one active bullet.  In frame 7 it fires again: one living enemy
owns two active bullets, so the claimed invariant fails in a state reachable from the
constructor state.  Every address of the session is free when `new Enemy` returns it; the
address returned in frame 5 is not unused. -/
theorem C7_one_shot_broken_by_address_reuse :
    (freeAddrSession ratSqrt (Game.init : Game ℚ) addressReuse ∧
      ¬ noStaleAddr ratSqrt (Game.init : Game ℚ) addressReuse) ∧
    (((run ratSqrt (Game.init : Game ℚ) (addressReuse.take 2)).enemies.map
          (fun e => (e.id, e.isAlive, e.hasActiveBullet))) = [(0, true, true)] ∧
      ((run ratSqrt (Game.init : Game ℚ) (addressReuse.take 2)).enemyBullets.map
          EnemyBullet.brief) = [(241, true, some 0)]) ∧
    (((run ratSqrt (Game.init : Game ℚ) (addressReuse.take 3)).enemies.map
          (fun e => (e.id, e.isAlive, e.hasActiveBullet))) = [(0, false, true)]) ∧
    ((run ratSqrt (Game.init : Game ℚ) (addressReuse.take 4)).enemies = [] ∧
      ((run ratSqrt (Game.init : Game ℚ) (addressReuse.take 4)).enemyBullets.map
          EnemyBullet.brief) = [(391, true, some 0)] ∧
      (run ratSqrt (Game.init : Game ℚ) (addressReuse.take 4)).spawnedEnemiesCount = 1 ∧
      spawnDue (run ratSqrt (Game.init : Game ℚ) (addressReuse.take 4)) (3 / 2) ∧
      freeAddr (run ratSqrt (Game.init : Game ℚ) (addressReuse.take 4)) 0 ∧
      ¬ unusedAddr (run ratSqrt (Game.init : Game ℚ) (addressReuse.take 4)) 0) ∧
    (((run ratSqrt (Game.init : Game ℚ) (addressReuse.take 5)).enemies.map
          (fun e => (e.id, e.isAlive, e.hasActiveBullet))) = [(0, true, false)] ∧
      ((run ratSqrt (Game.init : Game ℚ) (addressReuse.take 5)).enemyBullets.map
          EnemyBullet.brief) = [(691, true, some 0)] ∧
      (run ratSqrt (Game.init : Game ℚ) (addressReuse.take 5)).spawnedEnemiesCount = 2) ∧
    (((run ratSqrt (Game.init : Game ℚ) (addressReuse.take 6)).enemies.map
          (fun e => (e.id, e.isAlive, e.hasActiveBullet))) = [(0, true, false)] ∧
      ((run ratSqrt (Game.init : Game ℚ) (addressReuse.take 6)).enemyBullets.map
          EnemyBullet.brief) = [(474, true, some 0)]) ∧
    (((run ratSqrt (Game.init : Game ℚ) addressReuse).enemies.map
          (fun e => (e.id, e.isAlive, e.hasActiveBullet))) = [(0, true, true)] ∧
      ((run ratSqrt (Game.init : Game ℚ) addressReuse).enemyBullets.map
          EnemyBullet.brief) = [(499, true, some 0), (257, true, some 0)] ∧
      (run ratSqrt (Game.init : Game ℚ) addressReuse).spawnedEnemiesCount = 2) ∧
    (Reachable ratSqrt (run ratSqrt (Game.init : Game ℚ) addressReuse) ∧
      ∃ e ∈ (run ratSqrt (Game.init : Game ℚ) addressReuse).enemies,
        ownedActive (run ratSqrt (Game.init : Game ℚ) addressReuse).enemyBullets e.id = 2) := by
  refine ⟨by decide!, by decide!, by decide!, by decide!, by decide!, by decide!, by decide!,
    reachable_run ratSqrt addressReuse Game.init Reachable.init, ?_⟩
  decide!

/-! ## Waypoint arrival (C17) -/

/-- C17. Waypoint arrival: for a living enemy whose waypoint index is within the path and
whose computed distance to the target waypoint is below 0.1, one `UpdateEnemy` call adds
exactly 1 to the waypoint index and changes nothing else: position, `isAlive`,
`enemiesReached` and `gameOver` are as before.  In particular an enemy arriving at the
last waypoint is still alive after this call and is marked not alive by the next one. -/
theorem C17_waypoint_arrival (sqrtf : F → F) (path : List (Vector2 F)) (e : Enemy F) (dt : F)
    (totalEnemies reached : Int) (over : Bool) (target : Vector2 F)
    (halive : e.isAlive = true) (htarget : path.get? e.currentWaypoint = some target)
    (hd : gridDist sqrtf target.x target.y e.row e.col < 1 / 10) :
    (UpdateEnemy sqrtf path e dt totalEnemies reached over).1 =
        { e with currentWaypoint := e.currentWaypoint + 1 } ∧
      (UpdateEnemy sqrtf path e dt totalEnemies reached over).1.currentWaypoint =
        e.currentWaypoint + 1 ∧
      (UpdateEnemy sqrtf path e dt totalEnemies reached over).1.row = e.row ∧
      (UpdateEnemy sqrtf path e dt totalEnemies reached over).1.col = e.col ∧
      (UpdateEnemy sqrtf path e dt totalEnemies reached over).1.isAlive = true ∧
      (UpdateEnemy sqrtf path e dt totalEnemies reached over).2.1 = reached ∧
      (UpdateEnemy sqrtf path e dt totalEnemies reached over).2.2 = over ∧
      (e.currentWaypoint + 1 = path.length → ∀ (dt2 : F),
        (UpdateEnemy sqrtf path (UpdateEnemy sqrtf path e dt totalEnemies reached over).1 dt2
          totalEnemies reached over).1.isAlive = false) := by
  have hidx : e.currentWaypoint < path.length := by
    rw [List.get?_eq_some] at htarget
    exact htarget.1
  have hget : path.getD e.currentWaypoint ⟨0, 0⟩ = target := by
    rw [List.getD_eq_getElem?_getD, ← List.get?_eq_getElem?, htarget]; rfl
  have hu : UpdateEnemy sqrtf path e dt totalEnemies reached over =
      ({ e with currentWaypoint := e.currentWaypoint + 1 }, reached, over) := by
    unfold UpdateEnemy
    have h1 : ¬ path.length ≤ e.currentWaypoint := not_le.mpr hidx
    have h2 : sqrtf ((target.x - e.row) * (target.x - e.row) +
        (target.y - e.col) * (target.y - e.col)) < 1 / 10 := hd
    simp only [halive, h1, hget, if_false, h2, if_true, Bool.true_eq_false]
  rw [hu]
  refine ⟨rfl, rfl, rfl, rfl, halive, rfl, rfl, ?_⟩
  intro hlast dt2
  unfold UpdateEnemy
  simp [halive, hlast]

theorem C17_waypoint_arrival_witness :
    (UpdateEnemy ratSqrt enemyPath goblinOnLast (1 / 60) 20 10 false).1.currentWaypoint = 9 ∧
      (UpdateEnemy ratSqrt enemyPath goblinOnLast (1 / 60) 20 10 false).1.isAlive = true ∧
      (UpdateEnemy ratSqrt enemyPath goblinOnLast (1 / 60) 20 10 false).2.1 = 10 := by
  have h := C17_waypoint_arrival ratSqrt enemyPath goblinOnLast (1 / 60) 20 10 false ⟨12, 15⟩
    (by decide) (by decide!) (by decide!)
  exact ⟨h.2.1, h.2.2.2.2.1, h.2.2.2.2.2.1⟩

/-! ## Wave spawn (C15) -/

theorem frame_spawnTimer [FloorRing F] (sqrtf : F → F) (g : Game F) (inp : FrameInput F) :
    (frame sqrtf g inp).spawnTimer = (spawnStep g inp.deltaTime inp.randVal inp.addr).spawnTimer := by
  simp [frame, UpdateEnemyBullets, UpdateBullets, UpdateEnemyShooting, defendersStep, moveStep]

/-- C15. Wave spawn: with the spawn delay 2, when `spawnTimer + dt >= 2` and
`spawnedEnemiesCount < totalEnemiesToSpawn`, the spawn step of a frame resets `spawnTimer`
to 0, adds exactly 1 to `spawnedEnemiesCount` and appends exactly one enemy: alive, with
`hasActiveBullet = false`, at the first waypoint (row 6, column 1) with waypoint index 1,
and with speed 2 and health 50 for a goblin (random value 0) or speed 1 and health 150 for
an orc.  Otherwise no enemy is appended, `spawnedEnemiesCount` is unchanged and
`spawnTimer` is `spawnTimer + dt`.  The rest of the frame changes neither counter nor
timer. -/
theorem C15_wave_spawn [FloorRing F] (sqrtf : F → F) (g : Game F) (inp : FrameInput F)
    (hdelay : g.spawnDelay = 2) :
    (2 ≤ g.spawnTimer + inp.deltaTime ∧ g.spawnedEnemiesCount < g.totalEnemiesToSpawn →
      (spawnStep g inp.deltaTime inp.randVal inp.addr).spawnTimer = 0 ∧
      (spawnStep g inp.deltaTime inp.randVal inp.addr).spawnedEnemiesCount = g.spawnedEnemiesCount + 1 ∧
      ∃ e : Enemy F, (spawnStep g inp.deltaTime inp.randVal inp.addr).enemies = g.enemies ++ [e] ∧
        e.isAlive = true ∧ e.hasActiveBullet = false ∧ e.row = 6 ∧ e.col = 1 ∧
        (enemyPath : List (Vector2 F)).head? = some ⟨e.row, e.col⟩ ∧
        e.currentWaypoint = 1 ∧
        (inp.randVal = 0 → e.type = EnemyType.GOBLIN ∧ e.speed = 2 ∧ e.health = 50) ∧
        (inp.randVal ≠ 0 → e.type = EnemyType.ORC ∧ e.speed = 1 ∧ e.health = 150)) ∧
    (¬ (2 ≤ g.spawnTimer + inp.deltaTime ∧ g.spawnedEnemiesCount < g.totalEnemiesToSpawn) →
      (spawnStep g inp.deltaTime inp.randVal inp.addr).enemies = g.enemies ∧
      (spawnStep g inp.deltaTime inp.randVal inp.addr).spawnedEnemiesCount = g.spawnedEnemiesCount ∧
      (spawnStep g inp.deltaTime inp.randVal inp.addr).spawnTimer = g.spawnTimer + inp.deltaTime) ∧
    (frame sqrtf g inp).spawnTimer = (spawnStep g inp.deltaTime inp.randVal inp.addr).spawnTimer ∧
    (frame sqrtf g inp).spawnedEnemiesCount =
      (spawnStep g inp.deltaTime inp.randVal inp.addr).spawnedEnemiesCount := by
  refine ⟨?_, ?_, frame_spawnTimer sqrtf g inp, (frame_spawnedEnemiesCount sqrtf g inp).1⟩
  · rintro ⟨ht, hc⟩
    have hcond : g.spawnedEnemiesCount < g.totalEnemiesToSpawn ∧
        g.spawnDelay ≤ g.spawnTimer + inp.deltaTime := ⟨hc, by rw [hdelay]; exact ht⟩
    unfold spawnStep
    dsimp only
    rw [if_pos hcond]
    refine ⟨rfl, rfl, _, rfl, ?_⟩
    by_cases hrv : inp.randVal = 0
    · simp [hrv, Enemy.new, enemyPath]
    · simp [hrv, Enemy.new, enemyPath]
  · intro hno
    have hcond : ¬ (g.spawnedEnemiesCount < g.totalEnemiesToSpawn ∧
        g.spawnDelay ≤ g.spawnTimer + inp.deltaTime) := by
      rw [hdelay]
      exact fun h => hno ⟨h.2, h.1⟩
    unfold spawnStep
    dsimp only
    rw [if_neg hcond]
    exact ⟨rfl, rfl, rfl⟩

theorem C15_wave_spawn_witness :
    (spawnStep (Game.init : Game ℚ) 2 1 0).spawnTimer = 0 ∧
      (spawnStep (Game.init : Game ℚ) 2 1 0).spawnedEnemiesCount = 1 ∧
      ((spawnStep (Game.init : Game ℚ) 2 1 0).enemies.map (fun e => (e.speed, e.health))) =
        [(1, 150)] ∧
      (spawnStep atCap 2 1 0).enemies = atCap.enemies := by
  have h := (C15_wave_spawn ratSqrt (Game.init : Game ℚ) ⟨2, 1, 0, none⟩ rfl).1
    ⟨by decide!, by decide⟩
  have h2 := (C15_wave_spawn ratSqrt atCap ⟨2, 1, 0, none⟩ rfl).2.1
    (fun hc => absurd hc.2 (by decide))
  refine ⟨h.1, by rw [h.2.1]; rfl, ?_, h2.1⟩
  obtain ⟨e, he, _, _, _, _, _, _, _, horc⟩ := h.2.2
  obtain ⟨_, hs, hh⟩ := horc (by decide)
  rw [he]
  simp [Game.init, hs, hh]

/-! ## Defender cooldown (C11) -/

/-- C11 (as amended). Defender cooldown: if `attackTimer + dt >= attackCooldown` then after
`UpdateDefender` the timer is 0 whether or not a target was found, and exactly one bullet
is appended if some living enemy lies within the search bound (computed distance below
999999) and none otherwise; if `attackTimer + dt < attackCooldown` the timer becomes
`attackTimer + dt` and no bullet is appended.  Nothing else of the defender changes. -/
theorem C11_defender_cooldown (sqrtf : F → F) (defender : Defender F) (dt : F)
    (es : List (Enemy F)) (bullets : List (Bullet F)) :
    (defender.attackCooldown ≤ defender.attackTimer + dt →
      (UpdateDefender sqrtf defender dt es bullets).1 = { defender with attackTimer := 0 } ∧
      (UpdateDefender sqrtf defender dt es bullets).1.attackTimer = 0 ∧
      ((∃ x ∈ es, x.isAlive = true ∧
          gridDist sqrtf x.row x.col defender.row defender.col < 999999) →
        ∃ b, (UpdateDefender sqrtf defender dt es bullets).2 = bullets ++ [b]) ∧
      ((¬ ∃ x ∈ es, x.isAlive = true ∧
          gridDist sqrtf x.row x.col defender.row defender.col < 999999) →
        (UpdateDefender sqrtf defender dt es bullets).2 = bullets)) ∧
    (defender.attackTimer + dt < defender.attackCooldown →
      (UpdateDefender sqrtf defender dt es bullets).1 =
        { defender with attackTimer := defender.attackTimer + dt } ∧
      (UpdateDefender sqrtf defender dt es bullets).1.attackTimer = defender.attackTimer + dt ∧
      (UpdateDefender sqrtf defender dt es bullets).2 = bullets) := by
  constructor
  · intro hcool
    rcases closestEnemyLoop_spec sqrtf defender es none 999999 with
      ⟨hno, hr⟩ | ⟨pre, e, post, hes, he, hlt, hr, _, _⟩
    · have hu : UpdateDefender sqrtf defender dt es bullets =
          ({ defender with attackTimer := 0 }, bullets) := by
        unfold UpdateDefender
        simp [hcool, hr]
      rw [hu]
      refine ⟨rfl, rfl, ?_, fun _ => rfl⟩
      rintro ⟨x, hx, hxa, hxd⟩
      exact absurd hxd (hno x hx hxa)
    · have hu : UpdateDefender sqrtf defender dt es bullets =
          ({ defender with attackTimer := 0 }, bullets ++ [defenderBullet sqrtf defender e]) := by
        unfold UpdateDefender
        simp [hcool, hr]
      rw [hu]
      refine ⟨rfl, rfl, fun _ => ⟨_, rfl⟩, ?_⟩
      intro hnone
      exact absurd ⟨e, by rw [hes]; simp, he, hlt⟩ hnone
  · intro hwait
    have hu : UpdateDefender sqrtf defender dt es bullets =
        ({ defender with attackTimer := defender.attackTimer + dt }, bullets) := by
      unfold UpdateDefender
      simp [not_le.mpr hwait]
    rw [hu]
    exact ⟨rfl, rfl, rfl⟩

theorem C11_defender_cooldown_witness :
    (UpdateDefender ratSqrt knightAt33 (1 / 60) fourEnemies []).1.attackTimer = 0 ∧
      (∃ b, (UpdateDefender ratSqrt knightAt33 (1 / 60) fourEnemies []).2 = [] ++ [b]) ∧
      (UpdateDefender ratSqrt { knightAt33 with attackTimer := 0 } (1 / 60) fourEnemies []).2 =
        [] := by
  have h := (C11_defender_cooldown ratSqrt knightAt33 (1 / 60) fourEnemies []).1 (by decide!)
  have h2 := (C11_defender_cooldown ratSqrt { knightAt33 with attackTimer := 0 } (1 / 60)
    fourEnemies []).2 (by decide!)
  exact ⟨h.2.1,
    h.2.2.1 ⟨{ (Enemy.new 2 EnemyType.ORC : Enemy ℚ) with row := 6, col := 3 }, by decide,
      by decide, by decide!⟩,
    h2.2.2⟩

/-- C11, counterexample to the claim as stated: the knight's timer has reached the
cooldown and a living enemy exists, a million tiles away; the timer is reset and no bullet
is appended, because the search starts from `closestDist = 999999`.  The same happens in
the session `longStall` from the constructor state: after the long second frame a living
goblin is in the store, the knight's timer has been reset from 600000 to 0, and no bullet
was fired. -/
theorem C11_counterexample :
    (knightAt33.attackCooldown ≤ knightAt33.attackTimer + 1 / 60 ∧
      farGoblin.isAlive = true ∧
      (UpdateDefender ratSqrt knightAt33 (1 / 60) [farGoblin] []).1.attackTimer = 0 ∧
      (UpdateDefender ratSqrt knightAt33 (1 / 60) [farGoblin] []).2 = []) ∧
    (((run ratSqrt (Game.init : Game ℚ) [placeKnight]).defenders.map
        (fun d => (d.attackTimer, d.attackCooldown))) = [(0, 1)] ∧
      ((run ratSqrt (Game.init : Game ℚ) longStall).enemies.map
        (fun e => (e.row, e.col, e.isAlive))) = [(6, 1200001, true)] ∧
      ((run ratSqrt (Game.init : Game ℚ) longStall).defenders.map
        (fun d => d.attackTimer)) = [0] ∧
      (run ratSqrt (Game.init : Game ℚ) longStall).bullets = []) := by
  decide!

/-! ## Dead-defender sweep (C18) -/

theorem frame_eq_parts [FloorRing F] (sqrtf : F → F) (g : Game F) (inp : FrameInput F) :
    frame sqrtf g inp = refundStep (sweepStep (combatStep sqrtf g inp)) inp.click := rfl

theorem removeDeadLoop_eq (i : Nat) (ds : List (Defender F)) (hi : i ≤ ds.length) :
    removeDeadLoop i ds =
      (ds.take i).filter (fun d => decide (0 < d.currentHealth)) ++ ds.drop i := by
  induction i generalizing ds with
  | zero => simp [removeDeadLoop]
  | succ i ih =>
    have hlt : i < ds.length := hi
    have hget : ds.get? i = some ds[i] := by
      rw [List.get?_eq_getElem?]
      exact List.getElem?_eq_getElem hlt
    have htake : ds.take (i + 1) = ds.take i ++ [ds[i]] := by
      rw [List.take_succ, List.getElem?_eq_getElem hlt]
      rfl
    have hdrop : ds.drop i = ds[i] :: ds.drop (i + 1) := List.drop_eq_getElem_cons hlt
    unfold removeDeadLoop
    rw [hget]
    dsimp only
    by_cases hdead : ds[i].currentHealth ≤ 0
    · rw [if_pos hdead]
      have hlen : i ≤ (ds.eraseIdx i).length := by
        rw [List.length_eraseIdx]
        simp only [hlt, if_true]
        omega
      rw [ih (ds.eraseIdx i) hlen, List.eraseIdx_eq_take_drop_succ, htake, List.filter_append]
      have h1 : (ds.take i ++ ds.drop (i + 1)).take i = ds.take i := by
        rw [List.take_append_eq_append_take]
        simp [List.length_take, Nat.min_eq_left (Nat.le_of_lt hlt)]
      have h2 : (ds.take i ++ ds.drop (i + 1)).drop i = ds.drop (i + 1) := by
        rw [List.drop_append_eq_append_drop]
        simp [List.length_take, Nat.min_eq_left (Nat.le_of_lt hlt)]
      rw [h1, h2]
      simp [not_lt.mpr hdead]
    · rw [if_neg hdead]
      rw [ih ds (Nat.le_of_lt hlt), htake, List.filter_append, hdrop]
      simp [not_le.mp hdead]

theorem RemoveDeadDefenders_eq_filter (ds : List (Defender F)) :
    RemoveDeadDefenders ds = ds.filter (fun d => decide (0 < d.currentHealth)) := by
  unfold RemoveDeadDefenders
  rw [removeDeadLoop_eq ds.length ds (le_refl _)]
  simp

/-- C18. Dead-defender sweep: `RemoveDeadDefenders` yields exactly the defenders with
`currentHealth > 0`, in their original order: every defender with `currentHealth <= 0` is
removed and none with `currentHealth > 0` is; the sweep of the frame changes the
defender list only, so gold is as before (no refund). -/
theorem C18_dead_defender_sweep (g : Game F) (ds : List (Defender F)) :
    RemoveDeadDefenders ds = ds.filter (fun d => decide (0 < d.currentHealth)) ∧
      (RemoveDeadDefenders ds).Sublist ds ∧
      (∀ d ∈ ds, d.currentHealth ≤ 0 → d ∉ RemoveDeadDefenders ds) ∧
      (∀ d ∈ ds, 0 < d.currentHealth → d ∈ RemoveDeadDefenders ds) ∧
      (sweepStep g).defenders = RemoveDeadDefenders g.defenders ∧
      (sweepStep g).gold = g.gold ∧
      sweepStep g = { g with defenders := RemoveDeadDefenders g.defenders } := by
  have h := RemoveDeadDefenders_eq_filter ds
  refine ⟨h, ?_, ?_, ?_, rfl, rfl, rfl⟩
  · rw [h]
    exact List.filter_sublist _
  · intro d _ hdead hmem
    rw [h, List.mem_filter] at hmem
    have := hmem.2
    simp only [decide_eq_true_eq] at this
    exact absurd this (not_lt.mpr hdead)
  · intro d hd hpos
    rw [h, List.mem_filter]
    exact ⟨hd, by simpa using hpos⟩

theorem C18_dead_defender_sweep_witness :
    ((RemoveDeadDefenders fourDefenders.defenders).map (fun d => d.col)) = [3, 4, 3] ∧
      (sweepStep fourDefenders).gold = 40 := by
  have h := C18_dead_defender_sweep fourDefenders fourDefenders.defenders
  refine ⟨?_, h.2.2.2.2.2.1⟩
  rw [h.1]
  decide!

/-! ## Enemy targeting (C12) -/

/-- The search loop of `UpdateEnemyShooting` either keeps its accumulator (no defender is
both in range and closer than `closestDist`) or returns the first defender of least
distance, which is in range and closer than `closestDist`. -/
theorem targetLoop_spec (sqrtf : F → F) (e : Enemy F) (range : F) (ds : List (Defender F))
    (target : Option (Defender F)) (cd : F) :
    ((∀ x ∈ ds, ¬ (gridDist sqrtf x.row x.col e.row e.col < range ∧
          gridDist sqrtf x.row x.col e.row e.col < cd)) ∧
        targetLoop sqrtf e range ds target cd = target) ∨
      ∃ pre d post, ds = pre ++ d :: post ∧
        gridDist sqrtf d.row d.col e.row e.col < range ∧
        gridDist sqrtf d.row d.col e.row e.col < cd ∧
        targetLoop sqrtf e range ds target cd = some d ∧
        (∀ x ∈ pre, gridDist sqrtf d.row d.col e.row e.col <
          gridDist sqrtf x.row x.col e.row e.col) ∧
        (∀ x ∈ post, gridDist sqrtf d.row d.col e.row e.col ≤
          gridDist sqrtf x.row x.col e.row e.col) := by
  induction ds generalizing target cd with
  | nil => exact Or.inl ⟨by simp, rfl⟩
  | cons a ds ih =>
    by_cases hc : gridDist sqrtf a.row a.col e.row e.col < range ∧
        gridDist sqrtf a.row a.col e.row e.col < cd
    · have hstep : targetLoop sqrtf e range (a :: ds) target cd =
          targetLoop sqrtf e range ds (some a) (gridDist sqrtf a.row a.col e.row e.col) := by
        simp [targetLoop, hc]
      rw [hstep]
      right
      rcases ih (some a) (gridDist sqrtf a.row a.col e.row e.col) with
        ⟨hno, hr⟩ | ⟨pre, d, post, hds, hin, hlt, hr, hpre, hpost⟩
      · refine ⟨[], a, ds, rfl, hc.1, hc.2, hr, by simp, ?_⟩
        intro x hx
        by_contra hlt
        have hlt1 := not_le.mp hlt
        exact hno x hx ⟨lt_trans hlt1 hc.1, hlt1⟩
      · refine ⟨a :: pre, d, post, by simp [hds], hin, lt_trans hlt hc.2, hr, ?_, hpost⟩
        intro x hx
        rcases List.mem_cons.mp hx with rfl | hx
        · exact hlt
        · exact hpre x hx
    · have hstep : targetLoop sqrtf e range (a :: ds) target cd =
          targetLoop sqrtf e range ds target cd := by
        simp only [targetLoop, hc, if_false]
      rw [hstep]
      rcases ih target cd with ⟨hno, hr⟩ | ⟨pre, d, post, hds, hin, hlt, hr, hpre, hpost⟩
      · left
        refine ⟨?_, hr⟩
        intro x hx
        rcases List.mem_cons.mp hx with rfl | hx
        · exact hc
        · exact hno x hx
      · right
        refine ⟨a :: pre, d, post, by simp [hds], hin, hlt, hr, ?_, hpost⟩
        intro x hx
        rcases List.mem_cons.mp hx with rfl | hx
        · by_contra hge
          have hge1 := not_lt.mp hge
          exact hc ⟨lt_of_le_of_lt hge1 hin, lt_of_le_of_lt hge1 hlt⟩
        · exact hpre x hx

theorem enemyShootingLoop_eq (sqrtf : F → F) (ds : List (Defender F)) (es : List (Enemy F))
    (ebs : List (EnemyBullet F)) :
    enemyShootingLoop sqrtf ds es ebs =
      (es.map (fun e => if (enemyTarget sqrtf ds e).isSome = true
          then { e with hasActiveBullet := true } else e),
        ebs ++ es.filterMap (fun e => (enemyTarget sqrtf ds e).map (enemyBulletAt sqrtf e))) := by
  induction es generalizing ebs with
  | nil => simp [enemyShootingLoop]
  | cons e es ih =>
    unfold enemyShootingLoop
    dsimp only
    by_cases ha : e.isAlive = false
    · rw [if_pos ha, ih ebs]
      simp [enemyTarget, ha]
    · rw [if_neg ha]
      by_cases hb : e.hasActiveBullet = true
      · rw [if_pos hb, ih ebs]
        simp [enemyTarget, ha, hb]
      · rw [if_neg hb]
        cases ht : targetLoop sqrtf e 5 ds none 999999 with
        | none =>
          dsimp only
          rw [ih ebs]
          simp [enemyTarget, ha, hb, ht]
        | some target =>
          dsimp only
          rw [ih (ebs ++ [enemyBulletAt sqrtf e target])]
          simp [enemyTarget, ha, hb, ht]

/-- C12. Enemy targeting: `UpdateEnemyShooting` handles every enemy on its own: the enemy
fires exactly when `enemyTarget` finds a defender, its flag is then set and one bullet
owned by it is appended, in the order of the enemies.  A living enemy without an active
bullet fires iff some defender is at computed distance strictly below 5; the target is
the first defender of least distance in the list and is itself strictly closer than 5 (so
a defender at distance exactly 5 is never the target).  An enemy that is not alive or
already has an active bullet fires nothing and is unchanged. -/
theorem C12_enemy_targeting (sqrtf : F → F) (ds : List (Defender F)) (es : List (Enemy F))
    (ebs : List (EnemyBullet F)) :
    enemyShootingLoop sqrtf ds es ebs =
      (es.map (fun e => if (enemyTarget sqrtf ds e).isSome = true
          then { e with hasActiveBullet := true } else e),
        ebs ++ es.filterMap (fun e => (enemyTarget sqrtf ds e).map (enemyBulletAt sqrtf e))) ∧
    (∀ e : Enemy F, e.isAlive = true → e.hasActiveBullet = false →
      ((∃ x ∈ ds, gridDist sqrtf x.row x.col e.row e.col < 5) →
        ∃ pre d post, ds = pre ++ d :: post ∧ enemyTarget sqrtf ds e = some d ∧
          gridDist sqrtf d.row d.col e.row e.col < 5 ∧
          (∀ x ∈ pre, gridDist sqrtf d.row d.col e.row e.col <
            gridDist sqrtf x.row x.col e.row e.col) ∧
          (∀ x ∈ post, gridDist sqrtf d.row d.col e.row e.col ≤
            gridDist sqrtf x.row x.col e.row e.col) ∧
          (enemyBulletAt sqrtf e d).owner = some e.id ∧
          (enemyBulletAt sqrtf e d).active = true ∧
          (enemyBulletAt sqrtf e d).position = tileCenter e.row e.col) ∧
      ((¬ ∃ x ∈ ds, gridDist sqrtf x.row x.col e.row e.col < 5) →
        enemyTarget sqrtf ds e = none)) ∧
    (∀ e : Enemy F, e.isAlive = false ∨ e.hasActiveBullet = true →
      enemyTarget sqrtf ds e = none) ∧
    (∀ (e : Enemy F) (d : Defender F), enemyTarget sqrtf ds e = some d →
      d ∈ ds ∧ gridDist sqrtf d.row d.col e.row e.col < 5) := by
  have hspec : ∀ e : Enemy F, e.isAlive = true → e.hasActiveBullet = false →
      enemyTarget sqrtf ds e = targetLoop sqrtf e 5 ds none 999999 := by
    intro e ha hb
    simp [enemyTarget, ha, hb]
  refine ⟨enemyShootingLoop_eq sqrtf ds es ebs, ?_, ?_, ?_⟩
  · intro e ha hb
    rw [hspec e ha hb]
    rcases targetLoop_spec sqrtf e 5 ds none 999999 with
      ⟨hno, hr⟩ | ⟨pre, d, post, hds, hin, _, hr, hpre, hpost⟩
    · refine ⟨?_, fun _ => hr⟩
      rintro ⟨x, hx, hxd⟩
      exact absurd ⟨hxd, lt_trans hxd (by norm_num)⟩ (hno x hx)
    · refine ⟨fun _ => ⟨pre, d, post, hds, hr, hin, hpre, hpost, rfl, rfl, rfl⟩, ?_⟩
      intro hnone
      exact absurd ⟨d, by rw [hds]; simp, hin⟩ hnone
  · intro e h
    rcases h with h | h
    · simp [enemyTarget, h]
    · simp [enemyTarget, h]
  · intro e d h
    unfold enemyTarget at h
    split_ifs at h
    rcases targetLoop_spec sqrtf e 5 ds none 999999 with
      ⟨_, hr⟩ | ⟨pre, d1, post, hds, hin, _, hr, _, _⟩
    · rw [hr] at h
      cases h
    · rw [hr] at h
      cases h
      exact ⟨by rw [hds]; simp, hin⟩

theorem C12_enemy_targeting_witness :
    (((enemyTarget ratSqrt threeDefenders goblinAtStart).map (fun d => d.type)) =
        some DefenderType.WIZARD ∧
      ((enemyShootingLoop ratSqrt threeDefenders
          [goblinAtStart, { goblinAtStart with id := 1, isAlive := false }] []).2.map
        (fun b => b.owner)) = [some 0]) ∧
    ∃ pre d post, threeDefenders = pre ++ d :: post ∧
      enemyTarget ratSqrt threeDefenders goblinAtStart = some d ∧
      gridDist ratSqrt d.row d.col goblinAtStart.row goblinAtStart.col < 5 ∧
      (∀ x ∈ pre, gridDist ratSqrt d.row d.col goblinAtStart.row goblinAtStart.col <
        gridDist ratSqrt x.row x.col goblinAtStart.row goblinAtStart.col) ∧
      (∀ x ∈ post, gridDist ratSqrt d.row d.col goblinAtStart.row goblinAtStart.col ≤
        gridDist ratSqrt x.row x.col goblinAtStart.row goblinAtStart.col) ∧
      (enemyBulletAt ratSqrt goblinAtStart d).owner = some goblinAtStart.id ∧
      (enemyBulletAt ratSqrt goblinAtStart d).active = true ∧
      (enemyBulletAt ratSqrt goblinAtStart d).position =
        tileCenter goblinAtStart.row goblinAtStart.col :=
  ⟨by decide!,
    ((C12_enemy_targeting ratSqrt threeDefenders
        [goblinAtStart, { goblinAtStart with id := 1, isAlive := false }] []).2.1
      goblinAtStart (by decide) (by decide)).1
      ⟨{ (Defender.new 250 : Defender ℚ) with row := 9, col := 1, type := DefenderType.ARCHER },
        by decide, by decide!⟩⟩

/-! ## Projectile loops, one bullet at a time -/

theorem updateBulletsLoop_cons_inactive (dt : F) (sw sh : Int) (b : Bullet F)
    (bs : List (Bullet F)) (es : List (Enemy F)) (gold : F) (hact : b.active = false) :
    updateBulletsLoop dt sw sh (b :: bs) es gold =
      (b :: (updateBulletsLoop dt sw sh bs es gold).1,
        (updateBulletsLoop dt sw sh bs es gold).2) := by
  simp [updateBulletsLoop, hact]

theorem updateBulletsLoop_cons_out (dt : F) (sw sh : Int) (b : Bullet F)
    (bs : List (Bullet F)) (es : List (Enemy F)) (gold : F) (hact : b.active = true)
    (hout : outOfField (Vector2Add b.position (Vector2Scale b.velocity dt)) sw sh) :
    updateBulletsLoop dt sw sh (b :: bs) es gold =
      ({ b with position := Vector2Add b.position (Vector2Scale b.velocity dt),
                active := false } :: (updateBulletsLoop dt sw sh bs es gold).1,
        (updateBulletsLoop dt sw sh bs es gold).2) := by
  simp [updateBulletsLoop, hact, hout]

theorem updateBulletsLoop_cons_hit (dt : F) (sw sh : Int) (b : Bullet F)
    (bs : List (Bullet F)) (es es1 : List (Enemy F)) (gold : F) (hact : b.active = true)
    (hin : ¬ outOfField (Vector2Add b.position (Vector2Scale b.velocity dt)) sw sh)
    (hhit : hitEnemyLoop (Vector2Add b.position (Vector2Scale b.velocity dt)) es = some es1) :
    updateBulletsLoop dt sw sh (b :: bs) es gold =
      ({ b with position := Vector2Add b.position (Vector2Scale b.velocity dt),
                active := false } :: (updateBulletsLoop dt sw sh bs es1 (gold + 50)).1,
        (updateBulletsLoop dt sw sh bs es1 (gold + 50)).2) := by
  simp [updateBulletsLoop, hact, hin, hhit]

theorem updateBulletsLoop_cons_miss (dt : F) (sw sh : Int) (b : Bullet F)
    (bs : List (Bullet F)) (es : List (Enemy F)) (gold : F) (hact : b.active = true)
    (hin : ¬ outOfField (Vector2Add b.position (Vector2Scale b.velocity dt)) sw sh)
    (hmiss : hitEnemyLoop (Vector2Add b.position (Vector2Scale b.velocity dt)) es = none) :
    updateBulletsLoop dt sw sh (b :: bs) es gold =
      ({ b with position := Vector2Add b.position (Vector2Scale b.velocity dt) } ::
          (updateBulletsLoop dt sw sh bs es gold).1,
        (updateBulletsLoop dt sw sh bs es gold).2) := by
  simp [updateBulletsLoop, hact, hin, hmiss]

theorem updateEnemyBulletsLoop_cons_inactive (dt : F) (sw sh : Int) (b : EnemyBullet F)
    (bs : List (EnemyBullet F)) (es : List (Enemy F)) (ds : List (Defender F))
    (hact : b.active = false) :
    updateEnemyBulletsLoop dt sw sh (b :: bs) es ds =
      (b :: (updateEnemyBulletsLoop dt sw sh bs es ds).1,
        (updateEnemyBulletsLoop dt sw sh bs es ds).2) := by
  simp [updateEnemyBulletsLoop, hact]

theorem updateEnemyBulletsLoop_cons_out (dt : F) (sw sh : Int) (b : EnemyBullet F)
    (bs : List (EnemyBullet F)) (es : List (Enemy F)) (ds : List (Defender F))
    (hact : b.active = true)
    (hout : outOfField (Vector2Add b.position (Vector2Scale b.velocity dt)) sw sh) :
    updateEnemyBulletsLoop dt sw sh (b :: bs) es ds =
      ({ b with position := Vector2Add b.position (Vector2Scale b.velocity dt),
                active := false } ::
          (updateEnemyBulletsLoop dt sw sh bs (clearOwner b.owner es) ds).1,
        (updateEnemyBulletsLoop dt sw sh bs (clearOwner b.owner es) ds).2) := by
  simp [updateEnemyBulletsLoop, hact, hout]

theorem updateEnemyBulletsLoop_cons_hit (dt : F) (sw sh : Int) (b : EnemyBullet F)
    (bs : List (EnemyBullet F)) (es : List (Enemy F)) (ds ds1 : List (Defender F))
    (hact : b.active = true)
    (hin : ¬ outOfField (Vector2Add b.position (Vector2Scale b.velocity dt)) sw sh)
    (hhit : hitDefenderLoop (Vector2Add b.position (Vector2Scale b.velocity dt)) ds =
      some ds1) :
    updateEnemyBulletsLoop dt sw sh (b :: bs) es ds =
      ({ b with position := Vector2Add b.position (Vector2Scale b.velocity dt),
                active := false } ::
          (updateEnemyBulletsLoop dt sw sh bs (clearOwner b.owner es) ds1).1,
        (updateEnemyBulletsLoop dt sw sh bs (clearOwner b.owner es) ds1).2) := by
  simp [updateEnemyBulletsLoop, hact, hin, hhit]

theorem updateEnemyBulletsLoop_cons_miss (dt : F) (sw sh : Int) (b : EnemyBullet F)
    (bs : List (EnemyBullet F)) (es : List (Enemy F)) (ds : List (Defender F))
    (hact : b.active = true)
    (hin : ¬ outOfField (Vector2Add b.position (Vector2Scale b.velocity dt)) sw sh)
    (hmiss : hitDefenderLoop (Vector2Add b.position (Vector2Scale b.velocity dt)) ds = none) :
    updateEnemyBulletsLoop dt sw sh (b :: bs) es ds =
      ({ b with position := Vector2Add b.position (Vector2Scale b.velocity dt) } ::
          (updateEnemyBulletsLoop dt sw sh bs es ds).1,
        (updateEnemyBulletsLoop dt sw sh bs es ds).2) := by
  simp [updateEnemyBulletsLoop, hact, hin, hmiss]

theorem updateBulletsLoop_append (dt : F) (sw sh : Int) (pre post : List (Bullet F))
    (es : List (Enemy F)) (gold : F) :
    updateBulletsLoop dt sw sh (pre ++ post) es gold =
      ((updateBulletsLoop dt sw sh pre es gold).1 ++
          (updateBulletsLoop dt sw sh post (updateBulletsLoop dt sw sh pre es gold).2.1
            (updateBulletsLoop dt sw sh pre es gold).2.2).1,
        (updateBulletsLoop dt sw sh post (updateBulletsLoop dt sw sh pre es gold).2.1
          (updateBulletsLoop dt sw sh pre es gold).2.2).2) := by
  induction pre generalizing es gold with
  | nil => rfl
  | cons b pre ih =>
    rw [List.cons_append]
    by_cases hact : b.active = false
    · rw [updateBulletsLoop_cons_inactive dt sw sh b _ es gold hact,
        updateBulletsLoop_cons_inactive dt sw sh b pre es gold hact, ih es gold]
      rfl
    · have hact1 : b.active = true := by simpa using hact
      by_cases hout : outOfField (Vector2Add b.position (Vector2Scale b.velocity dt)) sw sh
      · rw [updateBulletsLoop_cons_out dt sw sh b _ es gold hact1 hout,
          updateBulletsLoop_cons_out dt sw sh b pre es gold hact1 hout, ih es gold]
        rfl
      · cases hr : hitEnemyLoop (Vector2Add b.position (Vector2Scale b.velocity dt)) es with
        | none =>
          rw [updateBulletsLoop_cons_miss dt sw sh b _ es gold hact1 hout hr,
            updateBulletsLoop_cons_miss dt sw sh b pre es gold hact1 hout hr, ih es gold]
          rfl
        | some es1 =>
          rw [updateBulletsLoop_cons_hit dt sw sh b _ es es1 gold hact1 hout hr,
            updateBulletsLoop_cons_hit dt sw sh b pre es es1 gold hact1 hout hr,
            ih es1 (gold + 50)]
          rfl

theorem updateEnemyBulletsLoop_append (dt : F) (sw sh : Int) (pre post : List (EnemyBullet F))
    (es : List (Enemy F)) (ds : List (Defender F)) :
    updateEnemyBulletsLoop dt sw sh (pre ++ post) es ds =
      ((updateEnemyBulletsLoop dt sw sh pre es ds).1 ++
          (updateEnemyBulletsLoop dt sw sh post (updateEnemyBulletsLoop dt sw sh pre es ds).2.1
            (updateEnemyBulletsLoop dt sw sh pre es ds).2.2).1,
        (updateEnemyBulletsLoop dt sw sh post (updateEnemyBulletsLoop dt sw sh pre es ds).2.1
          (updateEnemyBulletsLoop dt sw sh pre es ds).2.2).2) := by
  induction pre generalizing es ds with
  | nil => rfl
  | cons b pre ih =>
    rw [List.cons_append]
    by_cases hact : b.active = false
    · rw [updateEnemyBulletsLoop_cons_inactive dt sw sh b _ es ds hact,
        updateEnemyBulletsLoop_cons_inactive dt sw sh b pre es ds hact, ih es ds]
      rfl
    · have hact1 : b.active = true := by simpa using hact
      by_cases hout : outOfField (Vector2Add b.position (Vector2Scale b.velocity dt)) sw sh
      · rw [updateEnemyBulletsLoop_cons_out dt sw sh b _ es ds hact1 hout,
          updateEnemyBulletsLoop_cons_out dt sw sh b pre es ds hact1 hout, ih _ ds]
        rfl
      · cases hr : hitDefenderLoop (Vector2Add b.position (Vector2Scale b.velocity dt)) ds with
        | none =>
          rw [updateEnemyBulletsLoop_cons_miss dt sw sh b _ es ds hact1 hout hr,
            updateEnemyBulletsLoop_cons_miss dt sw sh b pre es ds hact1 hout hr, ih es ds]
          rfl
        | some ds1 =>
          rw [updateEnemyBulletsLoop_cons_hit dt sw sh b _ es ds ds1 hact1 hout hr,
            updateEnemyBulletsLoop_cons_hit dt sw sh b pre es ds ds1 hact1 hout hr, ih _ ds1]
          rfl

/-! ## Projectile expiry (C16) -/

/-- C16. Projectile expiry: when the loop of `UpdateBullets` (of `UpdateEnemyBullets`)
reaches an active bullet whose advanced position has `x < 0`, `x > screenW`, `y < 0` or
`y > screenH`, the bullet is deactivated and the loop goes on with the same enemies and
the same gold (with the same defenders and, for an enemy bullet, the owner flag cleared):
no collision test is made for it.  A position with `0 <= x <= screenW` and
`0 <= y <= screenH`, the boundary included, is not out of the field, and such a bullet
goes through the collision test.  The constructor sets the field to 704 by 512. -/
theorem C16_projectile_expiry (dt : F) (sw sh : Int) :
    (∀ (pre post : List (Bullet F)) (b : Bullet F) (es : List (Enemy F)) (gold : F),
      b.active = true →
      outOfField (Vector2Add b.position (Vector2Scale b.velocity dt)) sw sh →
      updateBulletsLoop dt sw sh (pre ++ b :: post) es gold =
        ((updateBulletsLoop dt sw sh pre es gold).1 ++
            { b with position := Vector2Add b.position (Vector2Scale b.velocity dt),
                     active := false } ::
              (updateBulletsLoop dt sw sh post (updateBulletsLoop dt sw sh pre es gold).2.1
                (updateBulletsLoop dt sw sh pre es gold).2.2).1,
          (updateBulletsLoop dt sw sh post (updateBulletsLoop dt sw sh pre es gold).2.1
            (updateBulletsLoop dt sw sh pre es gold).2.2).2)) ∧
    (∀ (pre post : List (EnemyBullet F)) (b : EnemyBullet F) (es : List (Enemy F))
        (ds : List (Defender F)),
      b.active = true →
      outOfField (Vector2Add b.position (Vector2Scale b.velocity dt)) sw sh →
      updateEnemyBulletsLoop dt sw sh (pre ++ b :: post) es ds =
        ((updateEnemyBulletsLoop dt sw sh pre es ds).1 ++
            { b with position := Vector2Add b.position (Vector2Scale b.velocity dt),
                     active := false } ::
              (updateEnemyBulletsLoop dt sw sh post
                (clearOwner b.owner (updateEnemyBulletsLoop dt sw sh pre es ds).2.1)
                (updateEnemyBulletsLoop dt sw sh pre es ds).2.2).1,
          (updateEnemyBulletsLoop dt sw sh post
            (clearOwner b.owner (updateEnemyBulletsLoop dt sw sh pre es ds).2.1)
            (updateEnemyBulletsLoop dt sw sh pre es ds).2.2).2)) ∧
    (∀ (owner : Option Nat) (es : List (Enemy F)) (e : Enemy F), e ∈ clearOwner owner es →
      owner = some e.id → e.hasActiveBullet = false) ∧
    (∀ pos : Vector2 F, 0 ≤ pos.x → pos.x ≤ (sw : F) → 0 ≤ pos.y → pos.y ≤ (sh : F) →
      ¬ outOfField pos sw sh) ∧
    (∀ (post : List (Bullet F)) (b : Bullet F) (es : List (Enemy F)) (gold : F),
      b.active = true →
      ¬ outOfField (Vector2Add b.position (Vector2Scale b.velocity dt)) sw sh →
      updateBulletsLoop dt sw sh (b :: post) es gold =
        match hitEnemyLoop (Vector2Add b.position (Vector2Scale b.velocity dt)) es with
        | some es1 =>
          ({ b with position := Vector2Add b.position (Vector2Scale b.velocity dt),
                    active := false } ::
              (updateBulletsLoop dt sw sh post es1 (gold + 50)).1,
            (updateBulletsLoop dt sw sh post es1 (gold + 50)).2)
        | none =>
          ({ b with position := Vector2Add b.position (Vector2Scale b.velocity dt) } ::
              (updateBulletsLoop dt sw sh post es gold).1,
            (updateBulletsLoop dt sw sh post es gold).2)) ∧
    (∀ (post : List (EnemyBullet F)) (b : EnemyBullet F) (es : List (Enemy F))
        (ds : List (Defender F)),
      b.active = true →
      ¬ outOfField (Vector2Add b.position (Vector2Scale b.velocity dt)) sw sh →
      updateEnemyBulletsLoop dt sw sh (b :: post) es ds =
        match hitDefenderLoop (Vector2Add b.position (Vector2Scale b.velocity dt)) ds with
        | some ds1 =>
          ({ b with position := Vector2Add b.position (Vector2Scale b.velocity dt),
                    active := false } ::
              (updateEnemyBulletsLoop dt sw sh post (clearOwner b.owner es) ds1).1,
            (updateEnemyBulletsLoop dt sw sh post (clearOwner b.owner es) ds1).2)
        | none =>
          ({ b with position := Vector2Add b.position (Vector2Scale b.velocity dt) } ::
              (updateEnemyBulletsLoop dt sw sh post es ds).1,
            (updateEnemyBulletsLoop dt sw sh post es ds).2)) ∧
    (Game.init : Game F).screenWidth = 704 ∧ (Game.init : Game F).screenHeight = 512 := by
  refine ⟨?_, ?_, ?_, ?_, ?_, ?_, by simp [Game.init, cols, rows, tileSize],
    by simp [Game.init, cols, rows, tileSize]⟩
  · intro pre post b es gold hact hout
    rw [updateBulletsLoop_append]
    rw [updateBulletsLoop_cons_out dt sw sh b post _ _ hact hout]
  · intro pre post b es ds hact hout
    rw [updateEnemyBulletsLoop_append]
    rw [updateEnemyBulletsLoop_cons_out dt sw sh b post _ _ hact hout]
  · intro owner es e he ho
    obtain ⟨e0, _, hid, hcase⟩ := mem_clearOwner owner es e he
    rcases hcase with ⟨_, hf⟩ | ⟨hne, _⟩
    · exact hf
    · rw [hid] at ho
      exact absurd ho hne
  · intro pos hx0 hx1 hy0 hy1 hout
    unfold outOfField at hout
    rcases hout with h | h | h | h
    · exact absurd hx0 (not_le.mpr h)
    · exact absurd hx1 (not_le.mpr h)
    · exact absurd hy0 (not_le.mpr h)
    · exact absurd hy1 (not_le.mpr h)
  · intro post b es gold hact hin
    cases hr : hitEnemyLoop (Vector2Add b.position (Vector2Scale b.velocity dt)) es with
    | none => exact updateBulletsLoop_cons_miss dt sw sh b post es gold hact hin hr
    | some es1 => exact updateBulletsLoop_cons_hit dt sw sh b post es es1 gold hact hin hr
  · intro post b es ds hact hin
    cases hr : hitDefenderLoop (Vector2Add b.position (Vector2Scale b.velocity dt)) ds with
    | none => exact updateEnemyBulletsLoop_cons_miss dt sw sh b post es ds hact hin hr
    | some ds1 => exact updateEnemyBulletsLoop_cons_hit dt sw sh b post es ds ds1 hact hin hr

theorem C16_projectile_expiry_witness :
    updateBulletsLoop (1 / 10 : ℚ) 704 512 [⟨⟨690, 48⟩, ⟨200, 0⟩, true⟩] [goblinAtEdge] 0 =
        ([⟨⟨710, 48⟩, ⟨200, 0⟩, false⟩], [goblinAtEdge], 0) ∧
      updateBulletsLoop (1 / 10 : ℚ) 704 512 [⟨⟨684, 48⟩, ⟨200, 0⟩, true⟩] [goblinAtEdge] 0 =
        ([⟨⟨704, 48⟩, ⟨200, 0⟩, false⟩], [{ goblinAtEdge with isAlive := false }], 50) ∧
      updateEnemyBulletsLoop (1 / 10 : ℚ) 704 512 [⟨⟨690, 48⟩, ⟨200, 0⟩, true, some 0⟩]
          [{ goblinAtEdge with hasActiveBullet := true }] [knightAtEdge] =
        ([⟨⟨710, 48⟩, ⟨200, 0⟩, false, some 0⟩], [goblinAtEdge], [knightAtEdge]) := by
  obtain ⟨h1, h2, _, h4, h5, _, _, _⟩ := C16_projectile_expiry (1 / 10 : ℚ) 704 512
  have e1 := h1 [] [] ⟨⟨690, 48⟩, ⟨200, 0⟩, true⟩ [goblinAtEdge] 0 rfl (by decide!)
  have e2 := h5 [] ⟨⟨684, 48⟩, ⟨200, 0⟩, true⟩ [goblinAtEdge] 0 rfl
    (h4 _ (by decide!) (by decide!) (by decide!) (by decide!))
  have e3 := h2 [] [] ⟨⟨690, 48⟩, ⟨200, 0⟩, true, some 0⟩
    [{ goblinAtEdge with hasActiveBullet := true }] [knightAtEdge] rfl (by decide!)
  refine ⟨?_, ?_, ?_⟩
  · rw [List.nil_append] at e1
    rw [e1]
    decide!
  · rw [e2]
    decide!
  · rw [List.nil_append] at e3
    rw [e3]
    decide!

/-! ## Enemy-projectile impact (C13) -/

theorem hitDefenderLoop_spec (pos : Vector2 F) (ds : List (Defender F)) :
    ((∀ x ∈ ds, ¬ inCollisionRange pos x.row x.col) ∧ hitDefenderLoop pos ds = none) ∨
      ∃ dpre d dpost, ds = dpre ++ d :: dpost ∧ inCollisionRange pos d.row d.col ∧
        (∀ x ∈ dpre, ¬ inCollisionRange pos x.row x.col) ∧
        hitDefenderLoop pos ds =
          some (dpre ++ { d with currentHealth := d.currentHealth - 50 } :: dpost) := by
  induction ds with
  | nil => exact Or.inl ⟨by simp, rfl⟩
  | cons a ds ih =>
    by_cases ha : inCollisionRange pos a.row a.col
    · right
      exact ⟨[], a, ds, rfl, ha, by simp, by simp [hitDefenderLoop, ha]⟩
    · rcases ih with ⟨hno, hr⟩ | ⟨dpre, d, dpost, hds, hin, hpre, hr⟩
      · left
        refine ⟨?_, by simp [hitDefenderLoop, ha, hr]⟩
        intro x hx
        rcases List.mem_cons.mp hx with rfl | hx
        · exact ha
        · exact hno x hx
      · right
        refine ⟨a :: dpre, d, dpost, by simp [hds], hin, ?_, by simp [hitDefenderLoop, ha, hr]⟩
        intro x hx
        rcases List.mem_cons.mp hx with rfl | hx
        · exact ha
        · exact hpre x hx

/-- C13. Enemy-projectile impact: when the loop of `UpdateEnemyBullets` reaches an active
bullet `b` whose advanced position is inside the field and in collision range (squared
distance below 16 * 16) of the tile centre of some defender, then exactly one defender,
the first in list order that passes the test, loses exactly 50 `currentHealth`, every
other defender is passed on unchanged, the flag of the owning enemy is cleared, and `b`
is deactivated. -/
theorem C13_enemy_projectile_impact (dt : F) (sw sh : Int) (pre post : List (EnemyBullet F))
    (b : EnemyBullet F) (es : List (Enemy F)) (ds : List (Defender F))
    (hact : b.active = true)
    (hin : ¬ outOfField (Vector2Add b.position (Vector2Scale b.velocity dt)) sw sh)
    (hnear : ∃ x ∈ (updateEnemyBulletsLoop dt sw sh pre es ds).2.2,
      inCollisionRange (Vector2Add b.position (Vector2Scale b.velocity dt)) x.row x.col) :
    ∃ dpre d dpost,
      (updateEnemyBulletsLoop dt sw sh pre es ds).2.2 = dpre ++ d :: dpost ∧
      inCollisionRange (Vector2Add b.position (Vector2Scale b.velocity dt)) d.row d.col ∧
      (∀ x ∈ dpre,
        ¬ inCollisionRange (Vector2Add b.position (Vector2Scale b.velocity dt)) x.row x.col) ∧
      updateEnemyBulletsLoop dt sw sh (pre ++ b :: post) es ds =
        ((updateEnemyBulletsLoop dt sw sh pre es ds).1 ++
            { b with position := Vector2Add b.position (Vector2Scale b.velocity dt),
                     active := false } ::
              (updateEnemyBulletsLoop dt sw sh post
                (clearOwner b.owner (updateEnemyBulletsLoop dt sw sh pre es ds).2.1)
                (dpre ++ { d with currentHealth := d.currentHealth - 50 } :: dpost)).1,
          (updateEnemyBulletsLoop dt sw sh post
            (clearOwner b.owner (updateEnemyBulletsLoop dt sw sh pre es ds).2.1)
            (dpre ++ { d with currentHealth := d.currentHealth - 50 } :: dpost)).2) ∧
      (∀ e ∈ clearOwner b.owner (updateEnemyBulletsLoop dt sw sh pre es ds).2.1,
        b.owner = some e.id → e.hasActiveBullet = false) := by
  rcases hitDefenderLoop_spec (Vector2Add b.position (Vector2Scale b.velocity dt))
      (updateEnemyBulletsLoop dt sw sh pre es ds).2.2 with
    ⟨hno, _⟩ | ⟨dpre, d, dpost, hds, hd, hpre, hr⟩
  · obtain ⟨x, hx, hxr⟩ := hnear
    exact absurd hxr (hno x hx)
  · refine ⟨dpre, d, dpost, hds, hd, hpre, ?_, ?_⟩
    · rw [updateEnemyBulletsLoop_append,
        updateEnemyBulletsLoop_cons_hit dt sw sh b post _ _ _ hact hin hr]
    · intro e he ho
      obtain ⟨e0, _, hid, hcase⟩ := mem_clearOwner b.owner _ e he
      rcases hcase with ⟨_, hf⟩ | ⟨hne, _⟩
      · exact hf
      · rw [hid] at ho
        exact absurd ho hne

theorem C13_enemy_projectile_impact_witness :
    ((UpdateEnemyBullets
        { (Game.init : Game ℚ) with
          enemyBullets := [⟨⟨670, 48⟩, ⟨200, 0⟩, true, some 0⟩],
          enemies := [{ goblinAtEdge with hasActiveBullet := true }],
          defenders := [knightAt33, knightAtEdge, knightAtEdge] } (1 / 10) 704 512).defenders.map
      (fun d => d.currentHealth)) = [100, 50, 100] ∧
    ∃ dpre d dpost, [knightAt33, knightAtEdge, knightAtEdge] = dpre ++ d :: dpost ∧
      updateEnemyBulletsLoop (1 / 10 : ℚ) 704 512 ([] ++ [⟨⟨670, 48⟩, ⟨200, 0⟩, true, some 0⟩])
          [{ goblinAtEdge with hasActiveBullet := true }]
          [knightAt33, knightAtEdge, knightAtEdge] =
        ([] ++ [⟨⟨690, 48⟩, ⟨200, 0⟩, false, some 0⟩],
          clearOwner (some 0) [{ goblinAtEdge with hasActiveBullet := true }],
          dpre ++ { d with currentHealth := d.currentHealth - 50 } :: dpost) := by
  refine ⟨by decide!, ?_⟩
  obtain ⟨dpre, d, dpost, hds, _, _, hloop, _⟩ :=
    C13_enemy_projectile_impact (1 / 10 : ℚ) 704 512 [] [] ⟨⟨670, 48⟩, ⟨200, 0⟩, true, some 0⟩
      [{ goblinAtEdge with hasActiveBullet := true }] [knightAt33, knightAtEdge, knightAtEdge]
      rfl (by decide!) ⟨knightAtEdge, by decide, by decide!⟩
  refine ⟨dpre, d, dpost, hds, ?_⟩
  rw [hloop]
  have hp : Vector2Add (⟨670, 48⟩ : Vector2 ℚ) (Vector2Scale ⟨200, 0⟩ (1 / 10)) = ⟨690, 48⟩ := by
    decide!
  simp only [hp]
  rfl

/-! ## Dead defenders leave in the frame of the lethal hit (C14) -/

theorem frame_defenders [FloorRing F] (sqrtf : F → F) (g : Game F) (inp : FrameInput F) :
    (frame sqrtf g inp).defenders = [] ∨
      (frame sqrtf g inp).defenders =
        (combatStep sqrtf g inp).defenders.filter (fun d => decide (0 < d.currentHealth)) := by
  rw [frame_eq_parts]
  cases hc : inp.click with
  | none =>
    right
    simp only [refundStep, sweepStep]
    exact RemoveDeadDefenders_eq_filter _
  | some p =>
    simp only [refundStep, handleRefundClick]
    split_ifs
    · left
      rfl
    · right
      simp only [sweepStep]
      exact RemoveDeadDefenders_eq_filter _

/-- C14 (as amended). A defender whose `currentHealth` is brought to 0 or below by an
enemy bullet is removed by `RemoveDeadDefenders` in that same frame: at the end of every
frame the defender store holds exactly the defenders with `currentHealth > 0` left by the
combat steps of the frame (or nothing, after a dismantle), so every stored defender has
`currentHealth > 0`. -/
theorem C14_dead_defender_removed_same_frame [FloorRing F] (sqrtf : F → F) (g : Game F)
    (inp : FrameInput F) :
    ((frame sqrtf g inp).defenders = [] ∨
      (frame sqrtf g inp).defenders =
        (combatStep sqrtf g inp).defenders.filter (fun d => decide (0 < d.currentHealth))) ∧
    (∀ d ∈ (frame sqrtf g inp).defenders, 0 < d.currentHealth) ∧
    (∀ d ∈ (combatStep sqrtf g inp).defenders, d.currentHealth ≤ 0 →
      d ∉ (frame sqrtf g inp).defenders) := by
  have h := frame_defenders sqrtf g inp
  refine ⟨h, ?_, ?_⟩
  · intro d hd
    rcases h with h | h
    · rw [h] at hd
      cases hd
    · rw [h, List.mem_filter] at hd
      simpa using hd.2
  · intro d _ hdead hd
    rcases h with h | h
    · rw [h] at hd
      cases hd
    · rw [h, List.mem_filter] at hd
      have := hd.2
      simp only [decide_eq_true_eq] at this
      exact absurd this (not_lt.mpr hdead)

theorem C14_dead_defender_removed_same_frame_witness :
    ((combatStep ratSqrt (run ratSqrt (Game.init : Game ℚ) firstBlood)
        quarterTick).defenders.map (fun d => d.currentHealth)) = [0] ∧
      ∀ d ∈ (combatStep ratSqrt (run ratSqrt (Game.init : Game ℚ) firstBlood)
          quarterTick).defenders, d.currentHealth ≤ 0 →
        d ∉ (frame ratSqrt (run ratSqrt (Game.init : Game ℚ) firstBlood) quarterTick).defenders :=
  ⟨by decide!,
    (C14_dead_defender_removed_same_frame ratSqrt (run ratSqrt (Game.init : Game ℚ) firstBlood)
      quarterTick).2.2⟩

/-- C14, counterexample to the claim as stated.  After the four frames `firstBlood` the
knight has 50 health left; in the next frame the goblin's bullet brings it to 0 in
`UpdateEnemyBullets`, and at the end of that same frame the defender store is empty: the
knight is not kept for one more frame. -/
theorem C14_counterexample :
    ((run ratSqrt (Game.init : Game ℚ) firstBlood).defenders.map
        (fun d => d.currentHealth)) = [50] ∧
      ((combatStep ratSqrt (run ratSqrt (Game.init : Game ℚ) firstBlood)
        quarterTick).defenders.map (fun d => d.currentHealth)) = [0] ∧
      (frame ratSqrt (run ratSqrt (Game.init : Game ℚ) firstBlood) quarterTick).defenders = [] := by
  decide!

/-! ## Gold is never negative (C19) -/

theorem costNeeded_nonneg (t : DefenderType) : (0 : F) ≤ costNeeded t := by
  cases t <;> simp [costNeeded]

theorem newDefender_cost (t : DefenderType) (r c : Int) :
    (newDefender t r c : Defender F).cost = costNeeded t := by
  cases t <;> simp [newDefender, Defender.new]

theorem placeAt_goldInv (g : Game F) (r c : Int) (h : GoldInv g) : GoldInv (placeAt g r c) := by
  unfold placeAt
  split_ifs with h1 h2 h3
  · refine ⟨sub_nonneg.mpr h3, ?_⟩
    intro d hd
    rcases List.mem_append.mp hd with hd | hd
    · exact h.2 d hd
    · simp only [List.mem_singleton] at hd
      rw [hd, newDefender_cost]
      exact costNeeded_nonneg _
  · exact h
  · exact h
  · exact h

theorem clickStep_goldInv [FloorRing F] (g : Game F) (click : Option (Vector2 F))
    (h : GoldInv g) : GoldInv (clickStep g click) := by
  cases click with
  | none => exact h
  | some p =>
    rcases handleClick_eq_or g p with ⟨t, ht⟩ | ht
    · simp only [clickStep]
      rw [ht]
      exact h
    · simp only [clickStep]
      rw [ht]
      exact placeAt_goldInv g _ _ h

theorem refundLoop_nonneg (ds : List (Defender F)) (acc : F) (hacc : 0 ≤ acc)
    (h : ∀ d ∈ ds, 0 ≤ d.cost) : 0 ≤ refundLoop acc ds := by
  induction ds generalizing acc with
  | nil => exact hacc
  | cons d ds ih =>
    exact ih (acc + d.cost) (add_nonneg hacc (h d (List.mem_cons_self _ _)))
      (fun x hx => h x (List.mem_cons_of_mem _ hx))

theorem refundStep_goldInv (g : Game F) (click : Option (Vector2 F)) (h : GoldInv g) :
    GoldInv (refundStep g click) := by
  cases click with
  | none => exact h
  | some p =>
    simp only [refundStep, handleRefundClick]
    split_ifs
    · refine ⟨?_, ?_⟩
      · exact add_nonneg h.1 (refundLoop_nonneg g.defenders 0 (le_refl _) h.2)
      · intro d hd
        simp [dismantle, DeleteAllDefenders] at hd
    · exact h

theorem UpdateDefender_cost (sqrtf : F → F) (d : Defender F) (dt : F) (es : List (Enemy F))
    (bullets : List (Bullet F)) : (UpdateDefender sqrtf d dt es bullets).1.cost = d.cost := by
  unfold UpdateDefender
  dsimp only
  split_ifs
  · cases closestEnemyLoop sqrtf d es none 999999 <;> rfl
  · rfl

theorem updateDefendersLoop_costs (sqrtf : F → F) (dt : F) (es : List (Enemy F))
    (ds : List (Defender F)) (bullets : List (Bullet F)) :
    (updateDefendersLoop sqrtf dt es ds bullets).1.map (fun d => d.cost) =
      ds.map (fun d => d.cost) := by
  induction ds generalizing bullets with
  | nil => rfl
  | cons d ds ih =>
    simp only [updateDefendersLoop, List.map_cons, ih, UpdateDefender_cost]

theorem hitDefenderLoop_costs (pos : Vector2 F) (ds ds1 : List (Defender F))
    (h : hitDefenderLoop pos ds = some ds1) :
    ds1.map (fun d => d.cost) = ds.map (fun d => d.cost) := by
  rcases hitDefenderLoop_spec pos ds with ⟨_, hr⟩ | ⟨dpre, d, dpost, hds, _, _, hr⟩
  · rw [hr] at h
    cases h
  · rw [hr] at h
    cases h
    rw [hds]
    simp

theorem updateEnemyBulletsLoop_costs (dt : F) (sw sh : Int) (bs : List (EnemyBullet F))
    (es : List (Enemy F)) (ds : List (Defender F)) :
    (updateEnemyBulletsLoop dt sw sh bs es ds).2.2.map (fun d => d.cost) =
      ds.map (fun d => d.cost) := by
  induction bs generalizing es ds with
  | nil => rfl
  | cons b bs ih =>
    by_cases hact : b.active = false
    · rw [updateEnemyBulletsLoop_cons_inactive dt sw sh b bs es ds hact]
      exact ih es ds
    · have hact1 : b.active = true := by simpa using hact
      by_cases hout : outOfField (Vector2Add b.position (Vector2Scale b.velocity dt)) sw sh
      · rw [updateEnemyBulletsLoop_cons_out dt sw sh b bs es ds hact1 hout]
        exact ih _ ds
      · cases hr : hitDefenderLoop (Vector2Add b.position (Vector2Scale b.velocity dt)) ds with
        | none =>
          rw [updateEnemyBulletsLoop_cons_miss dt sw sh b bs es ds hact1 hout hr]
          exact ih es ds
        | some ds1 =>
          rw [updateEnemyBulletsLoop_cons_hit dt sw sh b bs es ds ds1 hact1 hout hr]
          exact (ih _ ds1).trans (hitDefenderLoop_costs _ ds ds1 hr)

theorem updateBulletsLoop_gold_le (dt : F) (sw sh : Int) (bs : List (Bullet F))
    (es : List (Enemy F)) (gold : F) :
    gold ≤ (updateBulletsLoop dt sw sh bs es gold).2.2 := by
  induction bs generalizing es gold with
  | nil => exact le_refl _
  | cons b bs ih =>
    by_cases hact : b.active = false
    · rw [updateBulletsLoop_cons_inactive dt sw sh b bs es gold hact]
      exact ih es gold
    · have hact1 : b.active = true := by simpa using hact
      by_cases hout : outOfField (Vector2Add b.position (Vector2Scale b.velocity dt)) sw sh
      · rw [updateBulletsLoop_cons_out dt sw sh b bs es gold hact1 hout]
        exact ih es gold
      · cases hr : hitEnemyLoop (Vector2Add b.position (Vector2Scale b.velocity dt)) es with
        | none =>
          rw [updateBulletsLoop_cons_miss dt sw sh b bs es gold hact1 hout hr]
          exact ih es gold
        | some es1 =>
          rw [updateBulletsLoop_cons_hit dt sw sh b bs es es1 gold hact1 hout hr]
          exact le_trans (le_add_of_nonneg_right (by norm_num)) (ih es1 (gold + 50))

theorem costs_nonneg_of_map_eq (ds1 ds : List (Defender F))
    (hmap : ds1.map (fun d => d.cost) = ds.map (fun d => d.cost))
    (h : ∀ d ∈ ds, 0 ≤ d.cost) : ∀ d ∈ ds1, 0 ≤ d.cost := by
  intro d hd
  have hm : d.cost ∈ ds1.map (fun d => d.cost) := List.mem_map_of_mem (fun d => d.cost) hd
  rw [hmap] at hm
  obtain ⟨d0, hd0, hc⟩ := List.mem_map.mp hm
  rw [← hc]
  exact h d0 hd0

theorem spawnStep_gold_defenders (g : Game F) (dt : F) (rv : Int) (ad : Nat) :
    (spawnStep g dt rv ad).gold = g.gold ∧ (spawnStep g dt rv ad).defenders = g.defenders := by
  unfold spawnStep
  dsimp only
  split_ifs <;> exact ⟨rfl, rfl⟩

theorem combatStep_goldInv [FloorRing F] (sqrtf : F → F) (g : Game F) (inp : FrameInput F)
    (h : GoldInv g) : GoldInv (combatStep sqrtf g inp) := by
  have h1 : GoldInv (spawnStep g inp.deltaTime inp.randVal inp.addr) := by
    obtain ⟨hg, hd⟩ := spawnStep_gold_defenders g inp.deltaTime inp.randVal inp.addr
    exact ⟨by rw [hg]; exact h.1, by rw [hd]; exact h.2⟩
  have h2 : GoldInv (moveStep sqrtf (spawnStep g inp.deltaTime inp.randVal inp.addr) inp.deltaTime) := h1
  have h3 := clickStep_goldInv _ inp.click h2
  have h4 : GoldInv (defendersStep sqrtf (clickStep (moveStep sqrtf
      (spawnStep g inp.deltaTime inp.randVal inp.addr) inp.deltaTime) inp.click) inp.deltaTime) :=
    ⟨h3.1, costs_nonneg_of_map_eq _ _ (updateDefendersLoop_costs sqrtf _ _ _ _) h3.2⟩
  have h5 : GoldInv (UpdateEnemyShooting sqrtf (defendersStep sqrtf (clickStep (moveStep sqrtf
      (spawnStep g inp.deltaTime inp.randVal inp.addr) inp.deltaTime) inp.click) inp.deltaTime)) := h4
  have h6 : ∀ (g1 : Game F) (sw sh : Int), GoldInv g1 →
      GoldInv (UpdateBullets g1 inp.deltaTime sw sh) := by
    intro g1 sw sh hg1
    exact ⟨le_trans hg1.1 (updateBulletsLoop_gold_le _ _ _ _ _ _), hg1.2⟩
  have h7 : ∀ (g1 : Game F) (sw sh : Int), GoldInv g1 →
      GoldInv (UpdateEnemyBullets g1 inp.deltaTime sw sh) := by
    intro g1 sw sh hg1
    exact ⟨hg1.1, costs_nonneg_of_map_eq _ _ (updateEnemyBulletsLoop_costs _ _ _ _ _ _) hg1.2⟩
  unfold combatStep
  dsimp only
  exact h7 _ _ _ (h6 _ _ _ h5)

theorem frame_goldInv [FloorRing F] (sqrtf : F → F) (g : Game F) (inp : FrameInput F)
    (h : GoldInv g) : GoldInv (frame sqrtf g inp) := by
  rw [frame_eq_parts]
  apply refundStep_goldInv
  have hc := combatStep_goldInv sqrtf g inp h
  refine ⟨hc.1, ?_⟩
  intro d hd
  have hd1 : d ∈ RemoveDeadDefenders (combatStep sqrtf g inp).defenders := hd
  rw [RemoveDeadDefenders_eq_filter] at hd1
  exact hc.2 d (List.mem_filter.mp hd1).1

/-- C19. Gold is never negative: in every state reachable from the constructor state
(gold 9999) by frames, each of which may carry a placement click or a dismantle click,
`gold >= 0`. -/
theorem C19_gold_never_negative [FloorRing F] (sqrtf : F → F) (g : Game F)
    (hr : Reachable sqrtf g) : 0 ≤ g.gold := by
  have h : GoldInv g := by
    induction hr with
    | init => exact ⟨by simp [Game.init], by simp [Game.init]⟩
    | step g inp _ ih => exact frame_goldInv sqrtf g inp ih
  exact h.1

theorem C19_gold_never_negative_witness :
    (run ratSqrt (Game.init : Game ℚ) firstBlood).gold = 9849 ∧
      0 ≤ (run ratSqrt (Game.init : Game ℚ) firstBlood).gold :=
  ⟨by decide!,
    C19_gold_never_negative ratSqrt _ (reachable_run ratSqrt firstBlood Game.init Reachable.init)⟩

/-! ## Kill accounting (C20) -/

theorem hitEnemyLoop_spec (pos : Vector2 F) (es : List (Enemy F)) :
    ((∀ x ∈ es, x.isAlive = true → ¬ inCollisionRange pos x.row x.col) ∧
        hitEnemyLoop pos es = none) ∨
      ∃ epre e epost, es = epre ++ e :: epost ∧ e.isAlive = true ∧
        inCollisionRange pos e.row e.col ∧
        (∀ x ∈ epre, x.isAlive = true → ¬ inCollisionRange pos x.row x.col) ∧
        hitEnemyLoop pos es = some (epre ++ { e with isAlive := false } :: epost) := by
  induction es with
  | nil => exact Or.inl ⟨by simp, rfl⟩
  | cons a es ih =>
    by_cases ha : a.isAlive = true ∧ inCollisionRange pos a.row a.col
    · right
      exact ⟨[], a, es, rfl, ha.1, ha.2, by simp, by simp [hitEnemyLoop, ha.1, ha.2]⟩
    · have hstep : hitEnemyLoop pos (a :: es) = (hitEnemyLoop pos es).map (fun r => a :: r) := by
        rw [hitEnemyLoop]
        by_cases h1 : a.isAlive = false
        · rw [if_pos h1]
        · rw [if_neg h1]
          have h2 : a.isAlive = true := by simpa using h1
          rw [if_neg (fun h => ha ⟨h2, h⟩)]
      have hna : a.isAlive = true → ¬ inCollisionRange pos a.row a.col := fun h1 h2 => ha ⟨h1, h2⟩
      rcases ih with ⟨hno, hr⟩ | ⟨epre, e, epost, hes, he, hin, hpre, hr⟩
      · left
        refine ⟨?_, by rw [hstep, hr]; rfl⟩
        intro x hx
        rcases List.mem_cons.mp hx with rfl | hx
        · exact hna
        · exact hno x hx
      · right
        refine ⟨a :: epre, e, epost, by simp [hes], he, hin, ?_, by rw [hstep, hr]; rfl⟩
        intro x hx
        rcases List.mem_cons.mp hx with rfl | hx
        · exact hna
        · exact hpre x hx

omit [LinearOrderedField F] in
theorem killed_add_alive (es es1 : List (Enemy F))
    (h : List.Forall₂ (fun a b : Enemy F => b.isAlive = true → a.isAlive = true) es es1) :
    killedCount es es1 + aliveCount es1 = aliveCount es := by
  induction h with
  | nil => rfl
  | @cons a b l1 l2 hab _ ih =>
    simp only [killedCount, aliveCount, List.zip_cons_cons, List.countP_cons] at ih ⊢
    cases ha : a.isAlive <;> cases hb : b.isAlive
    · simp only [ha, hb] at *; simpa using ih
    · exact absurd (hab hb) (by simp [ha])
    · simp only [ha, hb] at *
      simp only [Bool.not_false, Bool.and_self, if_true, Bool.false_eq_true, if_false]
      omega
    · simp only [ha, hb] at *
      simp only [Bool.not_true, Bool.and_false, Bool.false_eq_true, if_false, if_true]
      omega

omit [LinearOrderedField F] in
theorem mono_refl (es : List (Enemy F)) :
    List.Forall₂ (fun a b : Enemy F => b.isAlive = true → a.isAlive = true) es es := by
  induction es with
  | nil => exact List.Forall₂.nil
  | cons a es ih => exact List.Forall₂.cons (fun h => h) ih

omit [LinearOrderedField F] in
theorem mono_trans (es es1 es2 : List (Enemy F))
    (h1 : List.Forall₂ (fun a b : Enemy F => b.isAlive = true → a.isAlive = true) es es1)
    (h2 : List.Forall₂ (fun a b : Enemy F => b.isAlive = true → a.isAlive = true) es1 es2) :
    List.Forall₂ (fun a b : Enemy F => b.isAlive = true → a.isAlive = true) es es2 := by
  induction h1 generalizing es2 with
  | nil =>
    cases h2
    exact List.Forall₂.nil
  | cons hab _ ih =>
    cases h2 with
    | cons hbc hrest => exact List.Forall₂.cons (fun h => hab (hbc h)) (ih _ hrest)

theorem hit_mono (pos : Vector2 F) (es es1 : List (Enemy F))
    (h : hitEnemyLoop pos es = some es1) :
    List.Forall₂ (fun a b : Enemy F => b.isAlive = true → a.isAlive = true) es es1 ∧
      aliveCount es1 + 1 = aliveCount es := by
  rcases hitEnemyLoop_spec pos es with ⟨_, hr⟩ | ⟨epre, e, epost, hes, he, _, _, hr⟩
  · rw [hr] at h
    cases h
  · rw [hr] at h
    cases h
    subst hes
    refine ⟨?_, ?_⟩
    · apply List.rel_append (mono_refl epre)
      exact List.Forall₂.cons (fun hf => he) (mono_refl epost)
    · simp [aliveCount, List.countP_append, List.countP_cons, he]
      omega

theorem updateBulletsLoop_accounting (dt : F) (sw sh : Int) (bs : List (Bullet F))
    (es : List (Enemy F)) (gold : F) :
    List.Forall₂ (fun a b : Enemy F => b.isAlive = true → a.isAlive = true) es
        (updateBulletsLoop dt sw sh bs es gold).2.1 ∧
      (updateBulletsLoop dt sw sh bs es gold).2.2 =
        gold + 50 * (collisionCount sw sh bs (updateBulletsLoop dt sw sh bs es gold).1 : F) ∧
      collisionCount sw sh bs (updateBulletsLoop dt sw sh bs es gold).1 +
          aliveCount (updateBulletsLoop dt sw sh bs es gold).2.1 = aliveCount es := by
  induction bs generalizing es gold with
  | nil => exact ⟨mono_refl es, by simp [updateBulletsLoop, collisionCount], by
      simp [updateBulletsLoop, collisionCount]⟩
  | cons b bs ih =>
    by_cases hact : b.active = false
    · rw [updateBulletsLoop_cons_inactive dt sw sh b bs es gold hact]
      obtain ⟨i1, i2, i3⟩ := ih es gold
      have hc : collisionCount sw sh (b :: bs) (b :: (updateBulletsLoop dt sw sh bs es gold).1) =
          collisionCount sw sh bs (updateBulletsLoop dt sw sh bs es gold).1 := by
        simp [collisionCount, List.countP_cons, hact]
      exact ⟨i1, by rw [hc]; exact i2, by rw [hc]; exact i3⟩
    · have hact1 : b.active = true := by simpa using hact
      by_cases hout : outOfField (Vector2Add b.position (Vector2Scale b.velocity dt)) sw sh
      · rw [updateBulletsLoop_cons_out dt sw sh b bs es gold hact1 hout]
        obtain ⟨i1, i2, i3⟩ := ih es gold
        have hc : collisionCount sw sh (b :: bs)
            ({ b with position := Vector2Add b.position (Vector2Scale b.velocity dt),
                      active := false } :: (updateBulletsLoop dt sw sh bs es gold).1) =
            collisionCount sw sh bs (updateBulletsLoop dt sw sh bs es gold).1 := by
          simp [collisionCount, List.countP_cons, hact1, hout]
        exact ⟨i1, by rw [hc]; exact i2, by rw [hc]; exact i3⟩
      · cases hr : hitEnemyLoop (Vector2Add b.position (Vector2Scale b.velocity dt)) es with
        | none =>
          rw [updateBulletsLoop_cons_miss dt sw sh b bs es gold hact1 hout hr]
          obtain ⟨i1, i2, i3⟩ := ih es gold
          have hc : collisionCount sw sh (b :: bs)
              ({ b with position := Vector2Add b.position (Vector2Scale b.velocity dt) } ::
                (updateBulletsLoop dt sw sh bs es gold).1) =
              collisionCount sw sh bs (updateBulletsLoop dt sw sh bs es gold).1 := by
            simp [collisionCount, List.countP_cons, hact1]
          exact ⟨i1, by rw [hc]; exact i2, by rw [hc]; exact i3⟩
        | some es1 =>
          rw [updateBulletsLoop_cons_hit dt sw sh b bs es es1 gold hact1 hout hr]
          obtain ⟨i1, i2, i3⟩ := ih es1 (gold + 50)
          obtain ⟨m1, m2⟩ := hit_mono _ es es1 hr
          have hc : collisionCount sw sh (b :: bs)
              ({ b with position := Vector2Add b.position (Vector2Scale b.velocity dt),
                        active := false } :: (updateBulletsLoop dt sw sh bs es1 (gold + 50)).1) =
              collisionCount sw sh bs (updateBulletsLoop dt sw sh bs es1 (gold + 50)).1 + 1 := by
            simp [collisionCount, List.countP_cons, hact1, hout]
          refine ⟨mono_trans _ _ _ m1 i1, ?_, ?_⟩
          · dsimp only
            rw [hc, i2]
            push_cast
            ring
          · dsimp only
            rw [hc]
            omega
theorem hitEnemyLoop_congr (pos : Vector2 F) (es es2 : List (Enemy F))
    (h : es.map Enemy.geom = es2.map Enemy.geom) :
    (hitEnemyLoop pos es).map (List.map Enemy.geom) =
      (hitEnemyLoop pos es2).map (List.map Enemy.geom) := by
  induction es generalizing es2 with
  | nil =>
    cases es2 with
    | nil => rfl
    | cons a2 es2 => simp at h
  | cons a es ih =>
    cases es2 with
    | nil => simp at h
    | cons a2 es2 =>
      simp only [List.map_cons, List.cons.injEq] at h
      obtain ⟨hg, hrest⟩ := h
      have hrow : a.row = a2.row := congrArg Prod.fst hg
      have hcol : a.col = a2.col := congrArg (fun p => p.2.1) hg
      have hal : a.isAlive = a2.isAlive := congrArg (fun p => p.2.2) hg
      have ih1 := ih es2 hrest
      rw [hitEnemyLoop, hitEnemyLoop, ← hrow, ← hcol, ← hal]
      by_cases h1 : a.isAlive = false
      · rw [if_pos h1, if_pos h1, Option.map_map, Option.map_map]
        cases hx : hitEnemyLoop pos es <;> cases hy : hitEnemyLoop pos es2 <;>
          simp [hx, hy] at ih1 ⊢
        exact ⟨hg, ih1⟩
      · rw [if_neg h1, if_neg h1]
        by_cases h2 : inCollisionRange pos a.row a.col
        · rw [if_pos h2, if_pos h2]
          simp [Enemy.geom, hrow, hcol, hrest]
        · rw [if_neg h2, if_neg h2, Option.map_map, Option.map_map]
          cases hx : hitEnemyLoop pos es <;> cases hy : hitEnemyLoop pos es2 <;>
            simp [hx, hy] at ih1 ⊢
          exact ⟨hg, ih1⟩

theorem updateBulletsLoop_congr (dt : F) (sw sh : Int) (bs : List (Bullet F))
    (es es2 : List (Enemy F)) (gold : F) (h : es.map Enemy.geom = es2.map Enemy.geom) :
    (updateBulletsLoop dt sw sh bs es gold).1 = (updateBulletsLoop dt sw sh bs es2 gold).1 ∧
      (updateBulletsLoop dt sw sh bs es gold).2.2 =
        (updateBulletsLoop dt sw sh bs es2 gold).2.2 ∧
      (updateBulletsLoop dt sw sh bs es gold).2.1.map Enemy.geom =
        (updateBulletsLoop dt sw sh bs es2 gold).2.1.map Enemy.geom := by
  induction bs generalizing es es2 gold with
  | nil => exact ⟨rfl, rfl, h⟩
  | cons b bs ih =>
    by_cases hact : b.active = false
    · rw [updateBulletsLoop_cons_inactive dt sw sh b bs es gold hact,
        updateBulletsLoop_cons_inactive dt sw sh b bs es2 gold hact]
      obtain ⟨i1, i2, i3⟩ := ih es es2 gold h
      exact ⟨by dsimp only; rw [i1], i2, i3⟩
    · have hact1 : b.active = true := by simpa using hact
      by_cases hout : outOfField (Vector2Add b.position (Vector2Scale b.velocity dt)) sw sh
      · rw [updateBulletsLoop_cons_out dt sw sh b bs es gold hact1 hout,
          updateBulletsLoop_cons_out dt sw sh b bs es2 gold hact1 hout]
        obtain ⟨i1, i2, i3⟩ := ih es es2 gold h
        exact ⟨by dsimp only; rw [i1], i2, i3⟩
      · have hc := hitEnemyLoop_congr (Vector2Add b.position (Vector2Scale b.velocity dt))
          es es2 h
        cases hx : hitEnemyLoop (Vector2Add b.position (Vector2Scale b.velocity dt)) es with
        | none =>
          cases hy : hitEnemyLoop (Vector2Add b.position (Vector2Scale b.velocity dt)) es2 with
          | none =>
            rw [updateBulletsLoop_cons_miss dt sw sh b bs es gold hact1 hout hx,
              updateBulletsLoop_cons_miss dt sw sh b bs es2 gold hact1 hout hy]
            obtain ⟨i1, i2, i3⟩ := ih es es2 gold h
            exact ⟨by dsimp only; rw [i1], i2, i3⟩
          | some es21 => simp [hx, hy] at hc
        | some es1 =>
          cases hy : hitEnemyLoop (Vector2Add b.position (Vector2Scale b.velocity dt)) es2 with
          | none => simp [hx, hy] at hc
          | some es21 =>
            rw [updateBulletsLoop_cons_hit dt sw sh b bs es es1 gold hact1 hout hx,
              updateBulletsLoop_cons_hit dt sw sh b bs es2 es21 gold hact1 hout hy]
            have h1 : es1.map Enemy.geom = es21.map Enemy.geom := by
              simpa [hx, hy] using hc
            obtain ⟨i1, i2, i3⟩ := ih es1 es21 (gold + 50) h1
            exact ⟨by dsimp only; rw [i1], i2, i3⟩

/-- C20. Kill accounting: one `UpdateBullets` call adds to gold exactly 50 times the number
of enemies that go from alive to not alive during the call, and that number is the number
of bullets deactivated by a collision.  Every collision marks exactly one enemy, which was
alive at that moment (so an enemy killed earlier in the call is not hit again), and the
outcome does not depend on the `health` fields: two enemy lists that agree on position and
`isAlive` give the same bullets, the same gold and the same `isAlive` flags. -/
theorem C20_kill_accounting (g : Game F) (dt : F) (sw sh : Int) :
    (UpdateBullets g dt sw sh).gold =
        g.gold + 50 * (killedCount g.enemies (UpdateBullets g dt sw sh).enemies : F) ∧
      killedCount g.enemies (UpdateBullets g dt sw sh).enemies =
        collisionCount sw sh g.bullets
          (updateBulletsLoop dt sw sh g.bullets g.enemies g.gold).1 ∧
      (UpdateBullets g dt sw sh).bullets =
        (updateBulletsLoop dt sw sh g.bullets g.enemies g.gold).1.filter (fun b => b.active) ∧
      (∀ (pos : Vector2 F) (es es1 : List (Enemy F)), hitEnemyLoop pos es = some es1 →
        ∃ epre e epost, es = epre ++ e :: epost ∧ e.isAlive = true ∧
          es1 = epre ++ { e with isAlive := false } :: epost ∧ killedCount es es1 = 1) ∧
      (∀ es2 : List (Enemy F), es2.map Enemy.geom = g.enemies.map Enemy.geom →
        (UpdateBullets { g with enemies := es2 } dt sw sh).bullets =
            (UpdateBullets g dt sw sh).bullets ∧
          (UpdateBullets { g with enemies := es2 } dt sw sh).gold =
            (UpdateBullets g dt sw sh).gold ∧
          (UpdateBullets { g with enemies := es2 } dt sw sh).enemies.map (fun e => e.isAlive) =
            (UpdateBullets g dt sw sh).enemies.map (fun e => e.isAlive)) := by
  obtain ⟨hm, hg, hc⟩ := updateBulletsLoop_accounting dt sw sh g.bullets g.enemies g.gold
  have hk := killed_add_alive _ _ hm
  have hkc : killedCount g.enemies (updateBulletsLoop dt sw sh g.bullets g.enemies g.gold).2.1 =
      collisionCount sw sh g.bullets (updateBulletsLoop dt sw sh g.bullets g.enemies g.gold).1 := by
    omega
  refine ⟨?_, hkc, rfl, ?_, ?_⟩
  · show (updateBulletsLoop dt sw sh g.bullets g.enemies g.gold).2.2 =
      g.gold + 50 * (killedCount g.enemies
        (updateBulletsLoop dt sw sh g.bullets g.enemies g.gold).2.1 : F)
    rw [hkc]
    exact hg
  · intro pos es es1 h
    rcases hitEnemyLoop_spec pos es with ⟨_, hr⟩ | ⟨epre, e, epost, hes, he, _, _, hr⟩
    · rw [hr] at h
      cases h
    · rw [hr] at h
      cases h
      refine ⟨epre, e, epost, hes, he, rfl, ?_⟩
      obtain ⟨m1, m2⟩ := hit_mono pos es _ hr
      have := killed_add_alive _ _ m1
      omega
  · intro es2 h2
    obtain ⟨c1, c2, c3⟩ := updateBulletsLoop_congr dt sw sh g.bullets es2 g.enemies g.gold h2
    refine ⟨?_, c2, ?_⟩
    · show (updateBulletsLoop dt sw sh g.bullets es2 g.gold).1.filter (fun b => b.active) =
        (updateBulletsLoop dt sw sh g.bullets g.enemies g.gold).1.filter (fun b => b.active)
      rw [c1]
    · have := congrArg (List.map (fun p : F × F × Bool => p.2.2)) c3
      simpa [List.map_map, Function.comp, Enemy.geom] using this

theorem C20_kill_accounting_witness :
    (UpdateBullets crossfire (1 / 60) 704 512).gold = 100 ∧
      ((UpdateBullets crossfire (1 / 60) 704 512).enemies.map (fun e => e.isAlive)) =
        [false, false, true] ∧
      killedCount crossfire.enemies (UpdateBullets crossfire (1 / 60) 704 512).enemies = 2 ∧
      (UpdateBullets { crossfire with enemies := [goblinAt11 0, goblinAt11 1, goblinAt11 2] }
        (1 / 60) 704 512).gold = 100 := by
  obtain ⟨h1, _, _, _, h5⟩ := C20_kill_accounting crossfire (1 / 60) 704 512
  have hk : killedCount crossfire.enemies (UpdateBullets crossfire (1 / 60) 704 512).enemies = 2 := by
    decide!
  have hg : (UpdateBullets crossfire (1 / 60) 704 512).gold = 100 := by
    rw [h1, hk]
    decide!
  refine ⟨hg, by decide!, hk, ?_⟩
  rw [(h5 [goblinAt11 0, goblinAt11 1, goblinAt11 2] (by decide!)).2.1]
  exact hg

/-! ## A new defender fires immediately (C22) -/

/-- C22 (as amended). A defender as the constructor leaves it (`attackTimer = 1 =
attackCooldown`), also after the placement branch has set its type and position, emits on
its first `UpdateDefender` call, for every `dt >= 0`, exactly one bullet whenever some
living enemy lies within the search bound (computed distance below 999999); the bullet
starts at the defender's tile centre `((col + 0.5) * 32, (row + 0.5) * 32)` and is active,
and the defender's timer is 0 afterwards. -/
theorem C22_new_defender_fires (sqrtf : F → F) (defender : Defender F) (dt : F)
    (es : List (Enemy F)) (bullets : List (Bullet F))
    (hfresh : defender.attackTimer = 1 ∧ defender.attackCooldown = 1) (hdt : 0 ≤ dt)
    (hex : ∃ x ∈ es, x.isAlive = true ∧
      gridDist sqrtf x.row x.col defender.row defender.col < 999999) :
    (∃ b : Bullet F, (UpdateDefender sqrtf defender dt es bullets).2 = bullets ++ [b] ∧
        b.position = ⟨(defender.col + 1 / 2) * 32, (defender.row + 1 / 2) * 32⟩ ∧
        b.position = tileCenter defender.row defender.col ∧
        b.active = true) ∧
      (UpdateDefender sqrtf defender dt es bullets).1.attackTimer = 0 ∧
      (∀ c : F, (Defender.new c).attackTimer = 1 ∧ (Defender.new c).attackCooldown = 1) ∧
      (∀ (t : DefenderType) (r c : Int),
        (newDefender t r c : Defender F).attackTimer = 1 ∧
          (newDefender t r c : Defender F).attackCooldown = 1) := by
  have hcool : defender.attackCooldown ≤ defender.attackTimer + dt := by
    rw [hfresh.1, hfresh.2]
    exact le_add_of_nonneg_right hdt
  refine ⟨?_, ?_, fun c => ⟨rfl, rfl⟩, ?_⟩
  · rcases closestEnemyLoop_spec sqrtf defender es none 999999 with
      ⟨hno, _⟩ | ⟨pre, e, post, hes, he, _, hr, _, _⟩
    · obtain ⟨x, hx, hxa, hxd⟩ := hex
      exact absurd hxd (hno x hx hxa)
    · refine ⟨defenderBullet sqrtf defender e, ?_, ?_, rfl, rfl⟩
      · unfold UpdateDefender
        simp [hcool, hr]
      · simp [defenderBullet, tileCenter, tileSize]
  · unfold UpdateDefender
    dsimp only
    rw [if_pos hcool]
    cases closestEnemyLoop sqrtf defender es none 999999 <;> rfl
  · intro t r c
    cases t <;> simp [newDefender, Defender.new]

theorem C22_new_defender_fires_witness :
    (∃ b : Bullet ℚ, (UpdateDefender ratSqrt freshKnight 0 fourEnemies []).2 = [] ++ [b] ∧
        b.position = ⟨(freshKnight.col + 1 / 2) * 32, (freshKnight.row + 1 / 2) * 32⟩ ∧
        b.position = tileCenter freshKnight.row freshKnight.col ∧
        b.active = true) ∧
      (UpdateDefender ratSqrt freshKnight 0 fourEnemies []).1.attackTimer = 0 ∧
      (UpdateDefender ratSqrt freshKnight 0 fourEnemies []).2 =
        [⟨⟨112, 112⟩, ⟨0, 200⟩, true⟩] := by
  have h := C22_new_defender_fires ratSqrt freshKnight 0 fourEnemies [] (by decide!)
    (le_refl _)
    ⟨{ (Enemy.new 2 EnemyType.ORC : Enemy ℚ) with row := 6, col := 3 }, by decide, by decide,
      by decide!⟩
  exact ⟨h.1, h.2.1, by decide!⟩

/-- C22, counterexample to the claim as stated: a freshly built knight, a living enemy a
million tiles away and `dt = 1/60`; the first `UpdateDefender` call resets the timer and
appends no bullet.  The same happens in the session `lateKnight` from the constructor
state: the goblin of the long first frame is alive when the knight is placed in the second
frame, and at the end of that frame the knight's timer is 0 and no bullet is in the
store. -/
theorem C22_counterexample :
    (freshKnight.attackTimer = 1 ∧ freshKnight.attackCooldown = 1 ∧
      farGoblin.isAlive = true ∧
      (UpdateDefender ratSqrt freshKnight (1 / 60) [farGoblin] []).1.attackTimer = 0 ∧
      (UpdateDefender ratSqrt freshKnight (1 / 60) [farGoblin] []).2 = []) ∧
    ((run ratSqrt (Game.init : Game ℚ) [⟨600000, 0, 0, none⟩]).defenders = [] ∧
      ((run ratSqrt (Game.init : Game ℚ) lateKnight).enemies.map
        (fun e => (e.row, e.col, e.isAlive))) = [(6, 36000029 / 30, true)] ∧
      ((run ratSqrt (Game.init : Game ℚ) lateKnight).defenders.map
        (fun d => (d.row, d.col, d.attackTimer))) = [(7, 3, 0)] ∧
      (run ratSqrt (Game.init : Game ℚ) lateKnight).bullets = []) := by
  decide!

/-! ## Path and buildable lanes are disjoint (C21) -/

theorem UpdateDefender_site (sqrtf : F → F) (d : Defender F) (dt : F) (es : List (Enemy F))
    (bullets : List (Bullet F)) : (UpdateDefender sqrtf d dt es bullets).1.site = d.site := by
  unfold UpdateDefender
  dsimp only
  split_ifs
  · cases closestEnemyLoop sqrtf d es none 999999 <;> rfl
  · rfl

theorem updateDefendersLoop_sites (sqrtf : F → F) (dt : F) (es : List (Enemy F))
    (ds : List (Defender F)) (bullets : List (Bullet F)) :
    (updateDefendersLoop sqrtf dt es ds bullets).1.map Defender.site = ds.map Defender.site := by
  induction ds generalizing bullets with
  | nil => rfl
  | cons d ds ih =>
    simp only [updateDefendersLoop, List.map_cons, ih, UpdateDefender_site]

theorem hitDefenderLoop_sites (pos : Vector2 F) (ds ds1 : List (Defender F))
    (h : hitDefenderLoop pos ds = some ds1) :
    ds1.map Defender.site = ds.map Defender.site := by
  rcases hitDefenderLoop_spec pos ds with ⟨_, hr⟩ | ⟨dpre, d, dpost, hds, _, _, hr⟩
  · rw [hr] at h
    cases h
  · rw [hr] at h
    cases h
    rw [hds]
    simp [Defender.site]

theorem updateEnemyBulletsLoop_sites (dt : F) (sw sh : Int) (bs : List (EnemyBullet F))
    (es : List (Enemy F)) (ds : List (Defender F)) :
    (updateEnemyBulletsLoop dt sw sh bs es ds).2.2.map Defender.site =
      ds.map Defender.site := by
  induction bs generalizing es ds with
  | nil => rfl
  | cons b bs ih =>
    by_cases hact : b.active = false
    · rw [updateEnemyBulletsLoop_cons_inactive dt sw sh b bs es ds hact]
      exact ih es ds
    · have hact1 : b.active = true := by simpa using hact
      by_cases hout : outOfField (Vector2Add b.position (Vector2Scale b.velocity dt)) sw sh
      · rw [updateEnemyBulletsLoop_cons_out dt sw sh b bs es ds hact1 hout]
        exact ih _ ds
      · cases hr : hitDefenderLoop (Vector2Add b.position (Vector2Scale b.velocity dt)) ds with
        | none =>
          rw [updateEnemyBulletsLoop_cons_miss dt sw sh b bs es ds hact1 hout hr]
          exact ih es ds
        | some ds1 =>
          rw [updateEnemyBulletsLoop_cons_hit dt sw sh b bs es ds ds1 hact1 hout hr]
          exact (ih _ ds1).trans (hitDefenderLoop_sites _ ds ds1 hr)

theorem onBuildable_of_sites (ds1 ds : List (Defender F))
    (hmap : ds1.map Defender.site = ds.map Defender.site)
    (h : ∀ d ∈ ds, ∃ r c : Int, 0 ≤ r ∧ 0 ≤ c ∧ d.row = (r : F) ∧ d.col = (c : F) ∧
      mapAt tempMap r.toNat c.toNat = 22) :
    ∀ d ∈ ds1, ∃ r c : Int, 0 ≤ r ∧ 0 ≤ c ∧ d.row = (r : F) ∧ d.col = (c : F) ∧
      mapAt tempMap r.toNat c.toNat = 22 := by
  intro d hd
  have hm : d.site ∈ ds1.map Defender.site := List.mem_map_of_mem Defender.site hd
  rw [hmap] at hm
  obtain ⟨d0, hd0, hs⟩ := List.mem_map.mp hm
  obtain ⟨r, c, hr, hc, hrow, hcol, hcell⟩ := h d0 hd0
  have h1 : d0.row = d.row := congrArg Prod.fst hs
  have h2 : d0.col = d.col := congrArg Prod.snd hs
  exact ⟨r, c, hr, hc, by rw [← h1]; exact hrow, by rw [← h2]; exact hcol, hcell⟩

theorem newDefender_site (t : DefenderType) (r c : Int) :
    (newDefender t r c : Defender F).row = (r : F) ∧
      (newDefender t r c : Defender F).col = (c : F) := by
  cases t <;> simp [newDefender, Defender.new]

theorem placeAt_siteInv (g : Game F) (r c : Int) (h : SiteInv g) : SiteInv (placeAt g r c) := by
  unfold placeAt
  split_ifs with h1 h2 h3
  · refine ⟨h.1, ?_⟩
    intro d hd
    rcases List.mem_append.mp hd with hd | hd
    · exact h.2 d hd
    · simp only [List.mem_singleton] at hd
      rw [hd]
      refine ⟨r, c, h1.1, h1.2.2.1, (newDefender_site _ r c).1, (newDefender_site _ r c).2, ?_⟩
      rw [← h.1]
      exact h2
  · exact h
  · exact h
  · exact h

theorem clickStep_siteInv [FloorRing F] (g : Game F) (click : Option (Vector2 F))
    (h : SiteInv g) : SiteInv (clickStep g click) := by
  cases click with
  | none => exact h
  | some p =>
    rcases handleClick_eq_or g p with ⟨t, ht⟩ | ht
    · simp only [clickStep]
      rw [ht]
      exact h
    · simp only [clickStep]
      rw [ht]
      exact placeAt_siteInv g _ _ h

theorem refundStep_siteInv (g : Game F) (click : Option (Vector2 F)) (h : SiteInv g) :
    SiteInv (refundStep g click) := by
  cases click with
  | none => exact h
  | some p =>
    simp only [refundStep, handleRefundClick]
    split_ifs
    · refine ⟨h.1, ?_⟩
      intro d hd
      simp [dismantle, DeleteAllDefenders] at hd
    · exact h

theorem spawnStep_map_defenders (g : Game F) (dt : F) (rv : Int) (ad : Nat) :
    (spawnStep g dt rv ad).map = g.map ∧ (spawnStep g dt rv ad).defenders = g.defenders := by
  unfold spawnStep
  dsimp only
  split_ifs <;> exact ⟨rfl, rfl⟩

theorem combatStep_siteInv [FloorRing F] (sqrtf : F → F) (g : Game F) (inp : FrameInput F)
    (h : SiteInv g) : SiteInv (combatStep sqrtf g inp) := by
  have h1 : SiteInv (spawnStep g inp.deltaTime inp.randVal inp.addr) := by
    obtain ⟨hm, hd⟩ := spawnStep_map_defenders g inp.deltaTime inp.randVal inp.addr
    exact ⟨by rw [hm]; exact h.1, by rw [hd]; exact h.2⟩
  have h2 : SiteInv (moveStep sqrtf (spawnStep g inp.deltaTime inp.randVal inp.addr) inp.deltaTime) := h1
  have h3 := clickStep_siteInv _ inp.click h2
  have h4 : SiteInv (defendersStep sqrtf (clickStep (moveStep sqrtf
      (spawnStep g inp.deltaTime inp.randVal inp.addr) inp.deltaTime) inp.click) inp.deltaTime) :=
    ⟨h3.1, onBuildable_of_sites _ _ (updateDefendersLoop_sites sqrtf _ _ _ _) h3.2⟩
  have h5 : SiteInv (UpdateEnemyShooting sqrtf (defendersStep sqrtf (clickStep (moveStep sqrtf
      (spawnStep g inp.deltaTime inp.randVal inp.addr) inp.deltaTime) inp.click) inp.deltaTime)) := h4
  have h6 : ∀ (g1 : Game F) (sw sh : Int), SiteInv g1 →
      SiteInv (UpdateBullets g1 inp.deltaTime sw sh) := fun g1 sw sh hg1 => hg1
  have h7 : ∀ (g1 : Game F) (sw sh : Int), SiteInv g1 →
      SiteInv (UpdateEnemyBullets g1 inp.deltaTime sw sh) := by
    intro g1 sw sh hg1
    exact ⟨hg1.1, onBuildable_of_sites _ _ (updateEnemyBulletsLoop_sites _ _ _ _ _ _) hg1.2⟩
  unfold combatStep
  dsimp only
  exact h7 _ _ _ (h6 _ _ _ h5)

theorem frame_siteInv [FloorRing F] (sqrtf : F → F) (g : Game F) (inp : FrameInput F)
    (h : SiteInv g) : SiteInv (frame sqrtf g inp) := by
  rw [frame_eq_parts]
  apply refundStep_siteInv
  have hc := combatStep_siteInv sqrtf g inp h
  refine ⟨hc.1, ?_⟩
  intro d hd
  have hd1 : d ∈ RemoveDeadDefenders (combatStep sqrtf g inp).defenders := hd
  rw [RemoveDeadDefenders_eq_filter] at hd1
  exact hc.2 d (List.mem_filter.mp hd1).1

theorem reachable_siteInv [FloorRing F] (sqrtf : F → F) (g : Game F)
    (hr : Reachable sqrtf g) : SiteInv g := by
  induction hr with
  | init => exact ⟨rfl, by simp [Game.init]⟩
  | step g inp _ ih => exact frame_siteInv sqrtf g inp ih

theorem pathCells_not_buildable :
    ∀ cell ∈ pathCells, cell.1 < rows ∧ cell.2 < cols ∧ mapAt tempMap cell.1 cell.2 ≠ 22 := by
  decide

/-- C21. Path and buildable lanes are disjoint: the nine waypoints of `enemyPathRC` are the
cells `waypointCells`; every pair of consecutive waypoints shares a row or a column; no
cell of the segments between consecutive waypoints, the waypoints included, holds the
buildable value 22 in the 16 by 22 map; hence in every state reachable from the
constructor state no stored defender stands on a cell of the enemy path (every stored
defender stands on a cell that holds 22). -/
theorem C21_path_disjoint_from_lanes [FloorRing F] (sqrtf : F → F) (g : Game F) :
    ((enemyPath : List (Vector2 F)) = waypointCells.map (fun p => ⟨(p.1 : F), (p.2 : F)⟩) ∧
      waypointCells.length = 9) ∧
    (tempMap.length = 16 ∧ ∀ row ∈ tempMap, row.length = 22) ∧
    (∀ p ∈ waypointPairs, p.1.1 = p.2.1 ∨ p.1.2 = p.2.2) ∧
    (∀ w ∈ waypointCells, w ∈ pathCells) ∧
    (∀ cell ∈ pathCells, cell.1 < rows ∧ cell.2 < cols ∧ mapAt tempMap cell.1 cell.2 ≠ 22) ∧
    (Reachable sqrtf g → ∀ d ∈ g.defenders,
      (∃ r c : Int, 0 ≤ r ∧ 0 ≤ c ∧ d.row = (r : F) ∧ d.col = (c : F) ∧
        mapAt g.map r.toNat c.toNat = 22) ∧
      ∀ cell ∈ pathCells, ¬ (d.row = (cell.1 : F) ∧ d.col = (cell.2 : F))) := by
  refine ⟨⟨by simp [enemyPath, waypointCells], rfl⟩, by decide, by decide, by decide,
    pathCells_not_buildable, ?_⟩
  intro hr d hd
  obtain ⟨hmap, hsite⟩ := reachable_siteInv sqrtf g hr
  obtain ⟨r, c, hr0, hc0, hrow, hcol, hcell⟩ := hsite d hd
  refine ⟨⟨r, c, hr0, hc0, hrow, hcol, by rw [hmap]; exact hcell⟩, ?_⟩
  rintro cell hcellmem ⟨h1, h2⟩
  have e1 : (r : F) = (((cell.1 : Nat) : Int) : F) := by
    rw [← hrow, h1]
    simp
  have e2 : (c : F) = (((cell.2 : Nat) : Int) : F) := by
    rw [← hcol, h2]
    simp
  have r1 : r = ((cell.1 : Nat) : Int) := Int.cast_injective e1
  have c1 : c = ((cell.2 : Nat) : Int) := Int.cast_injective e2
  rw [r1, c1] at hcell
  simp only [Int.toNat_ofNat] at hcell
  exact (pathCells_not_buildable cell hcellmem).2.2 hcell

theorem C21_path_disjoint_from_lanes_witness :
    ((run ratSqrt (Game.init : Game ℚ) skirmish).defenders.map (fun d => (d.row, d.col))) =
        [(7, 3)] ∧
      ∀ d ∈ (run ratSqrt (Game.init : Game ℚ) skirmish).defenders,
        (∃ r c : Int, 0 ≤ r ∧ 0 ≤ c ∧ d.row = (r : ℚ) ∧ d.col = (c : ℚ) ∧
          mapAt (run ratSqrt (Game.init : Game ℚ) skirmish).map r.toNat c.toNat = 22) ∧
        ∀ cell ∈ pathCells, ¬ (d.row = (cell.1 : ℚ) ∧ d.col = (cell.2 : ℚ)) :=
  ⟨by decide!,
    (C21_path_disjoint_from_lanes ratSqrt (run ratSqrt (Game.init : Game ℚ) skirmish)).2.2.2.2.2
      (reachable_run ratSqrt skirmish Game.init Reachable.init)⟩

end Theorems

end TowerDefence
